import Mathlib

/-!
Full-Metal-Jacket: the real-time session layer of `src/server.js`.

A shallow embedding of the WebSocket side of `server.js`: the waiting queue
`waitingPlayers`, the registry `activeGames`, the handlers `findMatch`,
`cancelMatch`, `rejoinGame`, `broadcastPlayerUpdate`, `handleShoot`, `handleHit`,
`endGame`, `handlePlayerDisconnect` and the body of its grace timer.

Modelling conventions.

* JavaScript objects have identity. A connection (`ws`) is a reference `ConnRef`
  into the heap `State.conns`; a game object is a reference `GameRef` into the heap
  `State.games`. The registry maps a game id to a game *reference*, and the grace
  timer captures the reference of the game object, exactly as the closure does.
* The game id is the string "game_" followed by `Date.now()`; it is modelled by the
  clock reading itself, a natural number. The clock readings are inputs.
* `ws.send(...)` and `db.run(...)` are recorded, in order, in `State.sent` and
  `State.dbWrites`. A `send` is recorded as the call the server makes; whether the
  transport delivers it is outside the server code, and a `send` on a transport
  that is no longer open returns without raising.
* Connection objects exist from the start with the identity of their token
  (`initState`); the `connected` frame of the set-up is not recorded. User ids are
  the integer row ids of the `users` table.
* A handler runs to completion before the next event is handled (one thread of
  control), so each handler is a function from state to state.
* `ws.readyState === WebSocket.OPEN` is the field `Conn.isOpen`.
* `setTimeout(cb, 10000)` appends the captured pair to `State.timers`; the callback
  body is `graceTimer`.
-/

namespace FMJ

/-- A reference to a connection object (`ws`). -/
abbrev ConnRef := Nat

/-- A reference to a game object. -/
abbrev GameRef := Nat

/-- A JavaScript number as it occurs in a score: a count, or `NaN`
(`undefined++` stores `NaN`). -/
inductive JsNum
  | num (n : Nat)
  | nan
  deriving DecidableEq, Repr

/-- The object `game.scores`: own properties keyed by integer user ids, kept in
ascending key order as JavaScript enumerates integer keys. -/
abbrev Scores := List (Nat × JsNum)

/-- Property read `scores[k]`; `none` is `undefined`. -/
def getScore (k : Nat) (sc : Scores) : Option JsNum :=
  sc.lookup k

/-- Property write `scores[k] = v`: replaces an existing property, otherwise
creates it. -/
def setScore (k : Nat) (v : JsNum) : Scores → Scores
  | [] => [(k, v)]
  | (k', v') :: rest =>
      if k' = k then (k, v) :: rest
      else if k < k' then (k, v) :: (k', v') :: rest
      else (k', v') :: setScore k v rest

/-- The value stored by `x++`: `ToNumber(x) + 1`. -/
def jsIncr : Option JsNum → JsNum
  | some (.num n) => .num (n + 1)
  | _ => .nan

/-- The comparison `x >= 5` (false for `NaN` and `undefined`). -/
def geFive : Option JsNum → Bool
  | some (.num n) => decide (5 ≤ n)
  | _ => false

/-- An opaque JSON value relayed unchanged (`data.position`, `data.rotation`,
`data.direction`). -/
abbrev Payload := String

/-- Outbound frames. -/
inductive Msg
  | searching
  | searchCancelled
  | matchFound (gameId : Nat) (opponentId : Nat) (opponentName : String) (playerNumber : Nat)
  | gameRejoined (gameId : Nat) (scores : Scores)
  | error (message : String)
  | opponentUpdate (position rotation : Payload)
  | opponentShoot (position direction : Payload)
  | scoreUpdate (scores : Scores)
  | scored
  | died
  | gameOver (winnerId : Nat) (scores : Scores)
  | opponentDisconnected (message : String)
  deriving DecidableEq, Repr

/-- The parameters of the `INSERT INTO games` statement of `endGame`. -/
structure DbRow where
  player1_id : Nat
  player2_id : Nat
  winner_id : Nat
  player1_score : Option JsNum
  player2_score : Option JsNum
  deriving DecidableEq, Repr

/-- The fields of a connection object set in `wss.on('connection')` and by the
handlers. `gameId = none` is an absent (`undefined`) property. -/
structure Conn where
  userId : Nat
  username : String
  isAlive : Bool
  gameId : Option Nat
  isOpen : Bool
  deriving DecidableEq, Repr

/-- A game object. The two disconnect flags are absent at creation; an absent flag
and `false` are both falsy and the flags are never serialised, so both are
`false` here. -/
structure Game where
  id : Nat
  player1 : ConnRef
  player2 : ConnRef
  scores : Scores
  startTime : Nat
  player1Disconnected : Bool
  player2Disconnected : Bool
  deriving DecidableEq, Repr

/-- The server state. -/
structure State where
  conns : ConnRef → Conn
  games : GameRef → Game
  nextGame : Nat
  waitingPlayers : List ConnRef
  activeGames : List (Nat × GameRef)
  timers : List (ConnRef × GameRef)
  sent : List (ConnRef × Msg)
  dbWrites : List DbRow

/-- Lookup `activeGames.get(k)`. -/
def mapGet (k : Nat) (m : List (Nat × GameRef)) : Option GameRef :=
  m.lookup k

/-- Update `activeGames.set(k, v)`: an existing key keeps its position. -/
def mapSet (k : Nat) (v : GameRef) : List (Nat × GameRef) → List (Nat × GameRef)
  | [] => [(k, v)]
  | (k', v') :: rest => if k' = k then (k, v) :: rest else (k', v') :: mapSet k v rest

/-- Removal `activeGames.delete(k)`. -/
def mapDelete (k : Nat) (m : List (Nat × GameRef)) : List (Nat × GameRef) :=
  m.filter (fun e => decide (e.1 ≠ k))

/-- Record `c.send(JSON.stringify(m))`. -/
def State.send (s : State) (c : ConnRef) (m : Msg) : State :=
  { s with sent := s.sent ++ [(c, m)] }

/-- Assignment `c.gameId = v` (`v = none` is `delete c.gameId`). -/
def State.setGameId (s : State) (c : ConnRef) (v : Option Nat) : State :=
  { s with conns := Function.update s.conns c { s.conns c with gameId := v } }

/-- Guarded send: `if (c.readyState === WebSocket.OPEN) c.send(...)`. -/
def State.sendIfOpen (s : State) (c : ConnRef) (m : Msg) : State :=
  if (s.conns c).isOpen then s.send c m else s

/-- Handler `findMatch(ws)`; `now` and `startNow` are the two `Date.now()`
readings. -/
def findMatch (ws : ConnRef) (now startNow : Nat) (s : State) : State :=
  if ws ∈ s.waitingPlayers ∨ (s.conns ws).gameId ≠ none then s
  else
    match s.waitingPlayers with
    | opponent :: rest =>
      let gameId := now
      let game : Game :=
        { id := gameId
          player1 := ws
          player2 := opponent
          scores := setScore (s.conns opponent).userId (.num 0)
                      (setScore (s.conns ws).userId (.num 0) [])
          startTime := startNow
          player1Disconnected := false
          player2Disconnected := false }
      let s1 : State :=
        { s with waitingPlayers := rest
                 games := Function.update s.games s.nextGame game
                 nextGame := s.nextGame + 1 }
      let s2 := s1.setGameId ws (some gameId)
      let s3 := s2.setGameId opponent (some gameId)
      let s4 : State := { s3 with activeGames := mapSet gameId s.nextGame s3.activeGames }
      let s5 := s4.send ws
        (.matchFound gameId (s4.conns opponent).userId (s4.conns opponent).username 1)
      s5.send opponent
        (.matchFound gameId (s5.conns ws).userId (s5.conns ws).username 2)
    | [] =>
      State.send { s with waitingPlayers := s.waitingPlayers ++ [ws] } ws .searching

/-- Handler `cancelMatch(ws)`. -/
def cancelMatch (ws : ConnRef) (s : State) : State :=
  if ws ∈ s.waitingPlayers then
    State.send { s with waitingPlayers := s.waitingPlayers.erase ws } ws .searchCancelled
  else s

/-- Handler `rejoinGame(ws, gameId)`. A `gameId` that is no key of the registry
stands for every value the client may send that matches no key. -/
def rejoinGame (ws : ConnRef) (gameId : Nat) (s : State) : State :=
  match mapGet gameId s.activeGames with
  | none => s.send ws (.error "Game not found")
  | some g =>
    let game := s.games g
    if (s.conns game.player1).userId = (s.conns ws).userId then
      let s1 : State :=
        { s with games := Function.update s.games g
                   { game with player1 := ws, player1Disconnected := false } }
      let s2 := s1.setGameId ws (some gameId)
      s2.send ws (.gameRejoined gameId (s2.games g).scores)
    else if (s.conns game.player2).userId = (s.conns ws).userId then
      let s1 : State :=
        { s with games := Function.update s.games g
                   { game with player2 := ws, player2Disconnected := false } }
      let s2 := s1.setGameId ws (some gameId)
      s2.send ws (.gameRejoined gameId (s2.games g).scores)
    else s.send ws (.error "Not part of this game")

/-- The scan `for (const [gameId, g] of activeGames)` shared by
`broadcastPlayerUpdate` and `handleHit`: the first registry entry one of whose slots
holds a connection with the given user id, with the opponent connection. -/
def findGameByUser (s : State) (uid : Nat) :
    List (Nat × GameRef) → Option (Nat × GameRef × ConnRef)
  | [] => none
  | (gameId, g) :: rest =>
      if (s.conns (s.games g).player1).userId = uid then
        some (gameId, g, (s.games g).player2)
      else if (s.conns (s.games g).player2).userId = uid then
        some (gameId, g, (s.games g).player1)
      else findGameByUser s uid rest

/-- Handler `broadcastPlayerUpdate(ws, data)`. -/
def broadcastPlayerUpdate (ws : ConnRef) (position rotation : Payload) (s : State) : State :=
  match findGameByUser s (s.conns ws).userId s.activeGames with
  | none => s
  | some (gameId, _, opponent) =>
    let s1 := s.setGameId ws (some gameId)
    s1.sendIfOpen opponent (.opponentUpdate position rotation)

/-- Handler `handleShoot(ws, data)`. -/
def handleShoot (ws : ConnRef) (position direction : Payload) (s : State) : State :=
  match (s.conns ws).gameId with
  | none => s
  | some gameId =>
    match mapGet gameId s.activeGames with
    | none => s
    | some g =>
      let game := s.games g
      let opponent := if game.player1 = ws then game.player2 else game.player1
      s.sendIfOpen opponent (.opponentShoot position direction)

/-- Function `endGame(game, winnerId)`. -/
def endGame (g : GameRef) (winnerId : Nat) (s : State) : State :=
  let game := s.games g
  let player1 := game.player1
  let player2 := game.player2
  let s1 : State :=
    { s with dbWrites := s.dbWrites ++
        [{ player1_id := (s.conns player1).userId
           player2_id := (s.conns player2).userId
           winner_id := winnerId
           player1_score := getScore (s.conns player1).userId game.scores
           player2_score := getScore (s.conns player2).userId game.scores }] }
  let s2 := s1.send player1 (.gameOver winnerId game.scores)
  let s3 := s2.send player2 (.gameOver winnerId game.scores)
  let s4 := s3.setGameId player1 none
  let s5 := s4.setGameId player2 none
  { s5 with activeGames := mapDelete game.id s5.activeGames }

/-- Handler `handleHit(ws, data)`. -/
def handleHit (ws : ConnRef) (s : State) : State :=
  match findGameByUser s (s.conns ws).userId s.activeGames with
  | none => s
  | some (gameId, g, opponent) =>
    let s1 := s.setGameId ws (some gameId)
    let uid := (s1.conns ws).userId
    let game := s1.games g
    let s2 : State :=
      { s1 with games := Function.update s1.games g
                  { game with scores := setScore uid (jsIncr (getScore uid game.scores))
                                          game.scores } }
    let s3 := s2.send ws (.scoreUpdate (s2.games g).scores)
    let s4 := s3.sendIfOpen opponent (.scoreUpdate (s3.games g).scores)
    if geFive (getScore uid (s4.games g).scores) then
      endGame g uid s4
    else
      let s5 := s4.sendIfOpen opponent .died
      s5.send ws .scored

/-- Handler `handlePlayerDisconnect(ws)`, run by the `close` event of `ws`. -/
def handlePlayerDisconnect (ws : ConnRef) (s : State) : State :=
  let s1 : State :=
    if ws ∈ s.waitingPlayers then { s with waitingPlayers := s.waitingPlayers.erase ws }
    else s
  match (s1.conns ws).gameId with
  | none => s1
  | some gameId =>
    match mapGet gameId s1.activeGames with
    | none => s1
    | some g =>
      let game := s1.games g
      let s2 : State :=
        if game.player1 = ws then
          { s1 with games := Function.update s1.games g
                      { game with player1Disconnected := true } }
        else if game.player2 = ws then
          { s1 with games := Function.update s1.games g
                      { game with player2Disconnected := true } }
        else s1
      { s2 with timers := s2.timers ++ [(ws, g)] }

/-- The callback passed to `setTimeout` in `handlePlayerDisconnect`, with the
captured connection `ws` and the captured game object `g`. -/
def graceTimer (ws : ConnRef) (g : GameRef) (s : State) : State :=
  match (s.conns ws).gameId with
  | none => s
  | some gameId =>
    match mapGet gameId s.activeGames with
    | none => s
    | some _ =>
      let game := s.games g
      if (game.player1 = ws ∧ game.player1Disconnected = true) ∨
         (game.player2 = ws ∧ game.player2Disconnected = true) then
        let opponent := if game.player1 = ws then game.player2 else game.player1
        if (s.conns opponent).isOpen then
          let s1 := endGame g (s.conns opponent).userId s
          s1.send opponent (.opponentDisconnected "Opponent disconnected. You win!")
        else
          { s with activeGames := mapDelete gameId s.activeGames }
      else s

/-- Inbound frames, by their `type` tag; `other` is any unrecognised tag. -/
inductive Data
  | findMatch
  | cancelMatch
  | rejoinGame (gameId : Nat)
  | playerUpdate (position rotation : Payload)
  | shoot (position direction : Payload)
  | hit
  | other
  deriving DecidableEq, Repr

/-- Dispatcher `handleWebSocketMessage(ws, data)`; the clock readings are used by
`findMatch` only. -/
def handleWebSocketMessage (ws : ConnRef) (data : Data) (now startNow : Nat)
    (s : State) : State :=
  match data with
  | .findMatch => findMatch ws now startNow s
  | .cancelMatch => cancelMatch ws s
  | .rejoinGame gameId => rejoinGame ws gameId s
  | .playerUpdate position rotation => broadcastPlayerUpdate ws position rotation s
  | .shoot position direction => handleShoot ws position direction s
  | .hit => handleHit ws s
  | .other => s

/-- What the event loop delivers to the session layer: a frame on a connection
(with the clock readings of that turn), the close of a connection, and the expiry
of a pending grace timer. -/
inductive Event
  | message (ws : ConnRef) (data : Data) (now startNow : Nat)
  | close (ws : ConnRef)
  | timer (ws : ConnRef) (g : GameRef)
  deriving DecidableEq, Repr

/-- The transport of `c` leaves the OPEN state. -/
def State.setClosed (s : State) (c : ConnRef) : State :=
  { s with conns := Function.update s.conns c { s.conns c with isOpen := false } }

/-- One turn of the event loop. Frames and the close event occur on open
connections only; a timer fires once, after it was scheduled. -/
def step (e : Event) (s : State) : Option State :=
  match e with
  | .message ws data now startNow =>
      if (s.conns ws).isOpen then some (handleWebSocketMessage ws data now startNow s)
      else none
  | .close ws =>
      if (s.conns ws).isOpen then some (handlePlayerDisconnect ws (s.setClosed ws))
      else none
  | .timer ws g =>
      if (ws, g) ∈ s.timers then
        some (graceTimer ws g { s with timers := s.timers.erase (ws, g) })
      else none

/-- A sequence of turns. -/
def run : List Event → State → Option State
  | [], s => some s
  | e :: es, s =>
      match step e s with
      | none => none
      | some s1 => run es s1

/-- The state at start-up: empty queue and registry, every connection as
`wss.on('connection')` leaves it, with the identity `users c` taken from its
token. Several connections may carry the same user id. -/
def initState (users : ConnRef → Nat × String) : State :=
  { conns := fun c =>
      { userId := (users c).1, username := (users c).2, isAlive := true,
        gameId := none, isOpen := true }
    games := fun _ =>
      { id := 0, player1 := 0, player2 := 0, scores := [], startTime := 0,
        player1Disconnected := false, player2Disconnected := false }
    nextGame := 0
    waitingPlayers := []
    activeGames := []
    timers := []
    sent := []
    dbWrites := [] }

/-- States reachable from start-up. -/
def Reachable (s : State) : Prop :=
  ∃ users evs, run evs (initState users) = some s

/-- Two sample identities: connection `c` belongs to user `c + 10`. -/
def distinctUsers : ConnRef → Nat × String :=
  fun c => (c + 10, "p")

/-- One sample identity carried by every connection (one user, several tabs). -/
def sameUser : ConnRef → Nat × String :=
  fun _ => (7, "solo")

/-- The state after a sequence of turns (the start state if a turn is not
enabled). -/
def runD (evs : List Event) (s : State) : State :=
  (run evs s).getD s

/-- Sample run: connection 0 then connection 1 send `findMatch`; the pairing
happens at clock reading 100. -/
def pairedState (users : ConnRef → Nat × String) : State :=
  runD [.message 0 .findMatch 50 50, .message 1 .findMatch 100 100] (initState users)

/-- Sample run: after the pairing, connection 1 (player 1) closes. -/
def closedOneState : State :=
  runD [.close 1] (pairedState distinctUsers)

/-- Sample run: after the pairing, connection 1 closes, then connection 0 closes. -/
def closedBothState : State :=
  runD [.close 0] closedOneState

/-- Sample run: after both connections closed, the grace timer of connection 1
fires: the session is discarded. -/
def abandonedState : State :=
  runD [.timer 1 0] closedBothState

/-- The two participant positions of a game object. -/
inductive Slot
  | one
  | two
  deriving DecidableEq, Repr

/-- The other position. -/
def Slot.other : Slot → Slot
  | .one => .two
  | .two => .one

/-- The connection bound to a position (`game.player1` or `game.player2`). -/
def Game.slotConn (game : Game) : Slot → ConnRef
  | .one => game.player1
  | .two => game.player2

/-- The disconnect flag of a position (`game.player1Disconnected` or
`game.player2Disconnected`). -/
def Game.slotMarker (game : Game) : Slot → Bool
  | .one => game.player1Disconnected
  | .two => game.player2Disconnected

/-- Sample run with one user on every connection: connections 0 and 1 are paired
(slot 1 is connection 1, slot 2 is connection 0), connection 0 closes, and
connection 2 of the same user sends `rejoinGame` for the session. -/
def selfMatchRejoined : State :=
  runD [.close 0, .message 2 (.rejoinGame 100) 0 0] (pairedState sameUser)

/-- Sample identities with a second connection of one user: connections 0 and 2
belong to user 10, every other connection `c` to user `c + 10`. -/
def reconnectUsers : ConnRef → Nat × String :=
  fun c => if c = 2 then (10, "p") else (c + 10, "p")

/-- Sample run: users 10 and 11 are paired (slot 1 is connection 1, slot 2 is
connection 0) and the transport of connection 0 has just left the OPEN state. -/
def lostState : State :=
  (pairedState reconnectUsers).setClosed 0

/-- A sequence of `findMatch` calls, each with its connection and its two clock
readings. -/
def findMatchAll : List (ConnRef × Nat × Nat) → State → State
  | [], s => s
  | c :: cs, s => findMatchAll cs (findMatch c.1 c.2.1 c.2.2 s)

/-- Specification of strict FIFO pairing, following the spec's words: the frames
a sequence of callers must receive when the first is paired with the second, the
third with the fourth, and so on; an unpaired last caller is left searching. The
identities are read from `conns`. -/
def fifoPairingLog (conns : ConnRef → Conn) :
    List (ConnRef × Nat × Nat) → List (ConnRef × Msg)
  | a :: b :: rest =>
      (a.1, Msg.searching) ::
      (b.1, Msg.matchFound b.2.1 (conns a.1).userId (conns a.1).username 1) ::
      (a.1, Msg.matchFound b.2.1 (conns b.1).userId (conns b.1).username 2) ::
      fifoPairingLog conns rest
  | [a] => [(a.1, Msg.searching)]
  | [] => []

/-- Sample run: user 10 holds connections 0 and 2. Connections 0 and 1 are paired
in the session with id 100 (game object 0), then connections 2 and 3 are paired in
the session with id 200 (game object 1). -/
def twoSessionsState : State :=
  runD [.message 0 .findMatch 50 50, .message 1 .findMatch 100 100,
        .message 2 .findMatch 150 150, .message 3 .findMatch 200 200]
    (initState reconnectUsers)

/-- Sample run: four `findMatch` frames; the two pairings (second and fourth
frame) both read the clock value 100, as happens when they are handled within
one millisecond. -/
def sameClockState : State :=
  runD [.message 0 .findMatch 50 50, .message 1 .findMatch 100 100,
        .message 2 .findMatch 100 100, .message 3 .findMatch 100 100]
    (initState distinctUsers)

/-- Shape of a score object for slot owners `u1` and `u2`: the object created by
`findMatch` for these owners, with counts below the winning threshold 5. -/
def ScoresOK (u1 u2 : Nat) (sc : Scores) : Prop :=
  ∃ a b, a < 5 ∧ b < 5 ∧ sc = setScore u2 (.num b) (setScore u1 (.num a) [])

/-- Well-formedness of a registry entry: the game object is allocated, carries the
key as its id, and its score object has the shape `ScoresOK` for the owners of its
two slots. -/
def GameOK (s : State) (e : Nat × GameRef) : Prop :=
  e.2 < s.nextGame ∧ (s.games e.2).id = e.1 ∧
  ScoresOK (s.conns (s.games e.2).player1).userId (s.conns (s.games e.2).player2).userId
    (s.games e.2).scores

/-- The registry invariant: every registered entry is well-formed. -/
def RegistryOK (s : State) : Prop :=
  ∀ e ∈ s.activeGames, GameOK s e

/-- What the heartbeat does to one client in one cycle. -/
inductive HbAction
  | terminate
  | ping
  deriving DecidableEq, Repr

/-- The body of the `forEach` callback of `heartbeat` for one client: a client
whose flag `isAlive` is false is terminated (its transport leaves the OPEN state),
otherwise the flag is set to false and a ping is sent. -/
def heartbeatClient (c : Conn) : Conn × HbAction :=
  if c.isAlive = false then ({ c with isOpen := false }, .terminate)
  else ({ c with isAlive := false }, .ping)

/-- The `pong` listener installed in `wss.on('connection')`. -/
def onPong (c : Conn) : Conn :=
  { c with isAlive := true }

/-- What happens to one client as far as liveness goes: a heartbeat cycle or the
arrival of a pong. -/
inductive HbEvent
  | cycle
  | pong
  deriving DecidableEq, Repr

/-- One liveness event on one client; `none` is a client the heartbeat has
terminated. -/
def hbStep (e : HbEvent) : Option Conn → Option Conn
  | none => none
  | some c =>
    match e with
    | .pong => some (onPong c)
    | .cycle =>
      match heartbeatClient c with
      | (_, .terminate) => none
      | (c1, .ping) => some c1

/-- A sequence of liveness events on one client. -/
def hbRun : List HbEvent → Option Conn → Option Conn
  | [], st => st
  | e :: es, st => hbRun es (hbStep e st)

/-- A client as `wss.on('connection')` leaves it (`ws.isAlive = true`). -/
def freshConn (userId : Nat) (username : String) : Conn :=
  { userId := userId, username := username, isAlive := true, gameId := none, isOpen := true }

/-- Sample identities with a second connection of the user in slot 1: connections
1 and 2 belong to user 11, every other connection `c` to user `c + 10`. -/
def secondTabUsers : ConnRef → Nat × String :=
  fun c => if c = 2 then (11, "p") else (c + 10, "p")

/-- Sample run: connections 0 (user 10) and 1 (user 11) are paired, slot 1 is
connection 1; then connection 2, also of user 11, sends `playerUpdate`, which the
owner-id scan resolves to the session and which sets the session id of
connection 2. -/
def secondTabState : State :=
  runD [.message 0 .findMatch 50 50, .message 1 .findMatch 100 100,
        .message 2 (.playerUpdate "p" "r") 0 0]
    (initState secondTabUsers)

/-- Sample run: in `twoSessionsState` connection 2 (user 10, slot 2 of session 200)
sends `hit`. -/
def crossHitState : State :=
  runD [.message 2 .hit 0 0] twoSessionsState

/-- Connection `x` is bound to a slot of the game object `g`. -/
def slotOf (s : State) (g : Nat) (x : ConnRef) : Prop :=
  (s.games g).player1 = x ∨ (s.games g).player2 = x

/-- Game object `g` is the most recently created game object with `x` in a
slot. -/
def LastGame (s : State) (x : ConnRef) (g : Nat) : Prop :=
  ∀ g2, g2 < s.nextGame → slotOf s g2 x → g2 ≤ g

/-- Connection `x` carries a session id and `g` is its most recent game object. -/
def Bound (s : State) (x : ConnRef) (g : Nat) : Prop :=
  (s.conns x).gameId ≠ none ∧ LastGame s x g

/-- The invariant behind the session ids of slot connections when no two
connections share an owner id: the queue holds at most one connection, which is
open and has no session id; every registered game object is allocated, carries
its key as id, and both slot connections carry that id and have it as their most
recent game object; a pending grace timer belongs to a closed connection; and the
two slot connections of a game object are bound to it together or not at all. -/
structure SessionsOK (s : State) : Prop where
  inj : ∀ x y, (s.conns x).userId = (s.conns y).userId → x = y
  queue_le : s.waitingPlayers.length ≤ 1
  queue_free : ∀ c ∈ s.waitingPlayers, (s.conns c).gameId = none ∧ (s.conns c).isOpen = true
  reg : ∀ e ∈ s.activeGames, e.2 < s.nextGame ∧ (s.games e.2).id = e.1 ∧
    (s.conns (s.games e.2).player1).gameId = some e.1 ∧
    (s.conns (s.games e.2).player2).gameId = some e.1 ∧
    LastGame s (s.games e.2).player1 e.2 ∧ LastGame s (s.games e.2).player2 e.2
  timers : ∀ t ∈ s.timers, (s.conns t.1).isOpen = false ∧ t.2 < s.nextGame ∧
    (slotOf s t.2 t.1 → LastGame s t.1 t.2)
  pairs : ∀ g, g < s.nextGame →
    (Bound s (s.games g).player1 g ↔ Bound s (s.games g).player2 g)

/-- The game object to which `handleHit` credits the event in state `s`: for a `hit`
frame, the game object found by the owner-id scan; `none` for every other event
and for a `hit` that the scan resolves to no session. -/
def hitTarget (s : State) : Event → Option GameRef
  | .message ws .hit _ _ =>
      (findGameByUser s (s.conns ws).userId s.activeGames).map (fun r => r.2.1)
  | _ => none

/-- A sequence of turns none of which is a `hit` credited to the game object `g`;
`none` if a turn is not enabled or is such a hit. -/
def runAvoiding (g : GameRef) : List Event → State → Option State
  | [], s => some s
  | e :: es, s =>
      if hitTarget s e = some g then none
      else
        match step e s with
        | none => none
        | some s1 => runAvoiding g es s1

/-- What a sequence of turns leaves fixed about the game object `g` and the
connections: game objects are only added, owner ids never change, a closed
transport stays closed, the id of `g` is kept, and each slot of `g` keeps its
connection or receives one that was open and carries the owner id of the
connection it replaces. -/
structure GameFrame (g : Nat) (s t : State) : Prop where
  next : s.nextGame ≤ t.nextGame
  uid : ∀ x, (t.conns x).userId = (s.conns x).userId
  closed : ∀ x, (s.conns x).isOpen = false → (t.conns x).isOpen = false
  gid : (t.games g).id = (s.games g).id
  slot1 : (t.games g).player1 = (s.games g).player1 ∨
    ((s.conns (t.games g).player1).isOpen = true ∧
     (s.conns (t.games g).player1).userId = (s.conns (s.games g).player1).userId)
  slot2 : (t.games g).player2 = (s.games g).player2 ∨
    ((s.conns (t.games g).player2).isOpen = true ∧
     (s.conns (t.games g).player2).userId = (s.conns (s.games g).player2).userId)

/-- No owner id occupies slots of two registered sessions: two registry entries
that have a slot owner in common are the same entry. -/
@[reducible] def OneSessionPerOwner (s : State) : Prop :=
  ∀ e1 ∈ s.activeGames, ∀ e2 ∈ s.activeGames,
    ((s.conns (s.games e1.2).player1).userId = (s.conns (s.games e2.2).player1).userId ∨
     (s.conns (s.games e1.2).player1).userId = (s.conns (s.games e2.2).player2).userId ∨
     (s.conns (s.games e1.2).player2).userId = (s.conns (s.games e2.2).player1).userId ∨
     (s.conns (s.games e1.2).player2).userId = (s.conns (s.games e2.2).player2).userId) →
    e1 = e2

/-- No two game objects created so far carry the same id. -/
@[reducible] def IdsDistinct (s : State) : Prop :=
  ∀ g1, g1 < s.nextGame → ∀ g2, g2 < s.nextGame →
    (s.games g1).id = (s.games g2).id → g1 = g2

/-- The property `P` holds in every state a sequence of turns passes through,
from the first state to the last. -/
def AlongRun (P : State → Prop) : List Event → State → Prop
  | [], s => P s
  | e :: es, s =>
      P s ∧
      match step e s with
      | none => True
      | some s1 => AlongRun P es s1

/-- The invariant behind the session ids of slot connections: the queue holds at
most one connection, which is open; every registered game object is allocated,
carries its key as id, and both slot connections carry that id as session id; the
keys of the registry are pairwise distinct; a pending grace timer belongs to a
closed connection whose session id is absent or is the id of the captured game
object. -/
structure SlotIdsOK (s : State) : Prop where
  queue_le : s.waitingPlayers.length ≤ 1
  queue_open : ∀ c ∈ s.waitingPlayers, (s.conns c).isOpen = true
  reg : ∀ e ∈ s.activeGames, e.2 < s.nextGame ∧ (s.games e.2).id = e.1 ∧
    (s.conns (s.games e.2).player1).gameId = some e.1 ∧
    (s.conns (s.games e.2).player2).gameId = some e.1
  keys : (s.activeGames.map Prod.fst).Nodup
  timers : ∀ t ∈ s.timers, (s.conns t.1).isOpen = false ∧ t.2 < s.nextGame ∧
    ((s.conns t.1).gameId = none ∨ (s.conns t.1).gameId = some (s.games t.2).id)

/-- Sample run for five hits with other turns in between: after the pairing of
connections 0 (user 10) and 1 (user 11) in session 100, connection 1 sends `hit`
and connection 0 sends `playerUpdate`. -/
def hitsState1 : State :=
  runD [.message 0 (.playerUpdate "p" "r") 0 0] (handleHit 1 (pairedState distinctUsers))

/-- Sample run, continued: connection 1 sends its second `hit`, then connection 2
sends `findMatch` and waits. -/
def hitsState2 : State :=
  runD [.message 2 .findMatch 150 150] (handleHit 1 hitsState1)

/-- Sample run, continued: connection 1 sends its third `hit`, then connection 3 is
paired with connection 2 in session 200 and sends a `hit`, which is credited to
session 200. -/
def hitsState3 : State :=
  runD [.message 3 .findMatch 200 200, .message 3 .hit 0 0] (handleHit 1 hitsState2)

/-- Sample run, continued: connection 1 sends its fourth `hit`, then connection 0,
the opponent, closes. -/
def hitsState4 : State :=
  runD [.close 0] (handleHit 1 hitsState3)

/-- Sample run: after the pairing of connections 0 (user 10) and 1 (user 11),
connection 1 sends `hit` twice, connection 0 closes and its grace timer fires. -/
def forfeitedDuringHits : State :=
  runD [.message 1 .hit 0 0, .message 1 .hit 0 0, .close 0, .timer 0 0]
    (pairedState distinctUsers)

/-- Sample run with a reconnecting user: users 10 and 11 are paired (slot 2 is
connection 0 of user 10) and connection 0 closes. -/
def rejoinLost : State :=
  runD [.close 0] (pairedState reconnectUsers)

/-- Sample run, continued: before the rejoin, connection 1 sends a `hit` and
connection 3 sends `findMatch`. -/
def rejoinBefore : State :=
  runD [.message 1 .hit 0 0, .message 3 .findMatch 150 150] rejoinLost

/-- Sample run, continued: connection 2 of user 10 sends `rejoinGame` for session
100. -/
def rejoinDone : State :=
  runD [.message 2 (.rejoinGame 100) 0 0] rejoinBefore

/-- Sample run, continued: after the rejoin, connection 1 sends a `hit` and
connection 2 sends `playerUpdate`. -/
def rejoinAfter : State :=
  runD [.message 1 .hit 0 0, .message 2 (.playerUpdate "p" "r") 0 0] rejoinDone

/-- Sample run: users 10 and 11 are paired (slot 2 is connection 0 of user 10),
connection 0 closes, connection 1 sends `hit` five times, which finishes the
session, and then connection 2 of user 10 sends `rejoinGame` for session 100. -/
def finishedBeforeRejoin : State :=
  runD [.close 0, .message 1 .hit 0 0, .message 1 .hit 0 0, .message 1 .hit 0 0,
        .message 1 .hit 0 0, .message 1 .hit 0 0, .message 2 (.rejoinGame 100) 0 0]
    (pairedState reconnectUsers)

/-- The turns of a sample run with a reconnecting user: users 10 and 11 are paired
in session 100, connection 0 of user 10 closes, connection 2 of user 10 rejoins,
the grace timer of connection 0 fires, and connection 2 sends a `hit`. -/
def reconnectEvents : List Event :=
  [.message 0 .findMatch 50 50, .message 1 .findMatch 100 100, .close 0,
   .message 2 (.rejoinGame 100) 0 0, .timer 0 0, .message 2 .hit 0 0]

/-- Sample identities with a second connection of user 11: connections 1 and 5
belong to user 11, every other connection `c` to user `c + 10`. -/
def orphanUsers : ConnRef → Nat × String :=
  fun c => if c = 5 then (11, "p") else (c + 10, "p")

/-- The turns of a sample run in which two pairings read the same clock value:
connections 0 and 1 are paired in session 100 and connection 0 closes; the pairing
of connections 2 and 3 reads the clock value 100 again and replaces the registry
entry; connections 4 and 5 are paired in session 200; connection 1, whose user
also holds connection 5, rejoins session 200; then the grace timer of connection 0
fires. -/
def orphanEvents : List Event :=
  [.message 0 .findMatch 50 50, .message 1 .findMatch 100 100, .close 0,
   .message 2 .findMatch 100 100, .message 3 .findMatch 100 100,
   .message 4 .findMatch 150 150, .message 5 .findMatch 200 200,
   .message 1 (.rejoinGame 200) 0 0, .timer 0 0]

/-! ## Registry and score-object lemmas -/

theorem mapGet_mapSet_same (k : Nat) (v : GameRef) (m : List (Nat × GameRef)) :
    mapGet k (mapSet k v m) = some v := by
  induction m with
  | nil => simp [mapSet, mapGet, List.lookup]
  | cons e rest ih =>
    obtain ⟨k', v'⟩ := e
    by_cases h : k' = k
    · simp [mapSet, h, mapGet, List.lookup]
    · have h2 : (k == k') = false := by
        simp only [beq_eq_false_iff_ne, ne_eq]
        exact fun e => h e.symm
      simp only [mapSet, h, if_false, mapGet, List.lookup, h2]
      exact ih

theorem mapGet_mapSet_other (k k2 : Nat) (v : GameRef) (m : List (Nat × GameRef))
    (hk : k2 ≠ k) : mapGet k2 (mapSet k v m) = mapGet k2 m := by
  induction m with
  | nil =>
    have h2 : (k2 == k) = false := by simpa using hk
    simp [mapSet, mapGet, List.lookup, h2]
  | cons e rest ih =>
    obtain ⟨k', v'⟩ := e
    by_cases h : k' = k
    · subst h
      have h2 : (k2 == k') = false := by simpa using hk
      simp [mapSet, mapGet, List.lookup, h2]
    · simp only [mapSet, h, if_false, mapGet, List.lookup]
      cases hb : (k2 == k') with
      | true => rfl
      | false => exact ih

theorem mapGet_mapDelete_same (k : Nat) (m : List (Nat × GameRef)) :
    mapGet k (mapDelete k m) = none := by
  induction m with
  | nil => simp [mapDelete, mapGet]
  | cons e rest ih =>
    obtain ⟨k', v'⟩ := e
    by_cases h : k' = k
    · simpa [mapDelete, h, mapGet] using ih
    · have h2 : (k == k') = false := by
        simp only [beq_eq_false_iff_ne, ne_eq]
        exact fun e => h e.symm
      have hd : mapDelete k ((k', v') :: rest) = (k', v') :: mapDelete k rest := by
        simp [mapDelete, h]
      rw [hd]
      simp only [mapGet, List.lookup, h2]
      exact ih

theorem mem_mapDelete {k : Nat} {m : List (Nat × GameRef)} {e : Nat × GameRef}
    (h : e ∈ mapDelete k m) : e ∈ m ∧ e.1 ≠ k := by
  simpa [mapDelete] using h

theorem mem_mapSet {k : Nat} {v : GameRef} {m : List (Nat × GameRef)} {e : Nat × GameRef}
    (h : e ∈ mapSet k v m) : e = (k, v) ∨ e ∈ m := by
  induction m with
  | nil => simpa [mapSet] using h
  | cons x rest ih =>
    obtain ⟨k', v'⟩ := x
    by_cases hk : k' = k
    · simp only [mapSet, hk, if_true, List.mem_cons] at h
      rcases h with h | h
      · exact Or.inl h
      · exact Or.inr (List.mem_cons_of_mem _ h)
    · simp only [mapSet, hk, if_false, List.mem_cons] at h
      rcases h with h | h
      · exact Or.inr (h ▸ List.mem_cons_self _ _)
      · rcases ih h with h2 | h2
        · exact Or.inl h2
        · exact Or.inr (List.mem_cons_of_mem _ h2)

theorem mapGet_mem {k : Nat} {g : GameRef} {m : List (Nat × GameRef)}
    (h : mapGet k m = some g) : (k, g) ∈ m := by
  induction m with
  | nil => simp [mapGet] at h
  | cons x rest ih =>
    obtain ⟨k', v'⟩ := x
    simp only [mapGet, List.lookup] at h
    cases hb : (k == k') with
    | true =>
      rw [hb] at h
      have hk : k = k' := by simpa using hb
      simp only [Option.some.injEq] at h
      subst hk; subst h
      exact List.mem_cons_self _ _
    | false =>
      rw [hb] at h
      exact List.mem_cons_of_mem _ (ih h)

theorem getScore_setScore_same (k : Nat) (v : JsNum) (sc : Scores) :
    getScore k (setScore k v sc) = some v := by
  induction sc with
  | nil => simp [setScore, getScore, List.lookup]
  | cons e rest ih =>
    obtain ⟨k', v'⟩ := e
    by_cases h : k' = k
    · simp [setScore, h, getScore, List.lookup]
    · have h2 : (k == k') = false := by
        simp only [beq_eq_false_iff_ne, ne_eq]
        exact fun e => h e.symm
      by_cases h3 : k < k'
      · simp [setScore, h, h3, getScore, List.lookup]
      · simp only [setScore, h, h3, if_false, getScore, List.lookup, h2]
        exact ih

theorem getScore_setScore_other (k k2 : Nat) (v : JsNum) (sc : Scores) (hk : k2 ≠ k) :
    getScore k2 (setScore k v sc) = getScore k2 sc := by
  have hb : (k2 == k) = false := by simpa using hk
  induction sc with
  | nil => simp [setScore, getScore, List.lookup, hb]
  | cons e rest ih =>
    obtain ⟨k', v'⟩ := e
    by_cases h : k' = k
    · subst h
      simp [setScore, getScore, List.lookup, hb]
    · by_cases h3 : k < k'
      · simp [setScore, h, h3, getScore, List.lookup, hb]
      · simp only [setScore, h, h3, if_false, getScore, List.lookup]
        cases hb2 : (k2 == k') with
        | true => rfl
        | false => exact ih



/-! ## `findMatch` -/

theorem findMatch_enqueue (s : State) (c : ConnRef) (now startNow : Nat)
    (hq : s.waitingPlayers = []) (hg : (s.conns c).gameId = none) :
    findMatch c now startNow s =
      { s with waitingPlayers := [c], sent := s.sent ++ [(c, .searching)] } := by
  unfold findMatch
  rw [if_neg (by simp [hq, hg])]
  split
  · rename_i opponent rest heq
    rw [hq] at heq
    cases heq
  · simp [State.send, hq]

theorem findMatch_pair (s : State) (c h : ConnRef) (rest : List ConnRef)
    (now startNow : Nat) (hq : c ∉ s.waitingPlayers) (hg : (s.conns c).gameId = none)
    (hw : s.waitingPlayers = h :: rest) :
    findMatch c now startNow s =
      { conns := Function.update
          (Function.update s.conns c { s.conns c with gameId := some now }) h
          { s.conns h with gameId := some now }
        games := Function.update s.games s.nextGame
          { id := now, player1 := c, player2 := h
            scores := setScore (s.conns h).userId (.num 0)
                        (setScore (s.conns c).userId (.num 0) [])
            startTime := startNow
            player1Disconnected := false, player2Disconnected := false }
        nextGame := s.nextGame + 1
        waitingPlayers := rest
        activeGames := mapSet now s.nextGame s.activeGames
        timers := s.timers
        sent := s.sent ++
          [(c, .matchFound now (s.conns h).userId (s.conns h).username 1),
           (h, .matchFound now (s.conns c).userId (s.conns c).username 2)]
        dbWrites := s.dbWrites } := by
  have hch : h ≠ c := by
    intro e
    apply hq
    rw [hw, e]
    exact List.mem_cons_self _ _
  unfold findMatch
  rw [if_neg (by simp [hq, hg])]
  split
  · rename_i opponent rest2 heq
    rw [hw] at heq
    cases heq
    simp [State.send, State.setGameId, Function.update_noteq hch,
      Function.update_noteq (Ne.symm hch)]
  · rename_i heq
    rw [hw] at heq
    cases heq

/-- C4: for every state and every connection `c` that is already in the waiting
queue or already has a session id, `findMatch(c)` is a silent no-op: the state
(queue, registry, every connection, every game object, the sent frames and the
persistence writes) is returned unchanged. -/
theorem findMatch_noop_of_queued_or_in_game (s : State) (c : ConnRef) (now startNow : Nat)
    (h : c ∈ s.waitingPlayers ∨ (s.conns c).gameId ≠ none) :
    findMatch c now startNow s = s := by
  unfold findMatch
  rw [if_pos h]

theorem findMatch_noop_of_queued_or_in_game_witness :
    (0 ∈ (findMatch 0 1 1 (initState distinctUsers)).waitingPlayers ∨
      ((findMatch 0 1 1 (initState distinctUsers)).conns 0).gameId ≠ none) ∧
    findMatch 0 2 2 (findMatch 0 1 1 (initState distinctUsers)) =
      findMatch 0 1 1 (initState distinctUsers) :=
  ⟨by decide, findMatch_noop_of_queued_or_in_game _ 0 2 2 (by decide)⟩

/-- C7: firing the grace timer of a connection whose session id is absent from the
registry (the property was deleted, or it names no registered session) returns
the state unchanged, so nothing is mutated, no frame is sent and nothing is
written; firing it twice equals firing it once. -/
theorem graceTimer_noop_of_unregistered (s : State) (ws : ConnRef) (g : GameRef)
    (h : ∀ id, (s.conns ws).gameId = some id → mapGet id s.activeGames = none) :
    graceTimer ws g s = s ∧
    graceTimer ws g (graceTimer ws g s) = graceTimer ws g s := by
  have h1 : graceTimer ws g s = s := by
    unfold graceTimer
    cases hid : (s.conns ws).gameId with
    | none => rfl
    | some id => simp [h id hid]
  exact ⟨h1, by rw [h1, h1]⟩

theorem graceTimer_noop_of_unregistered_witness :
    (abandonedState.conns 0).gameId = some 100 ∧
    (∀ id, (abandonedState.conns 0).gameId = some id →
        mapGet id abandonedState.activeGames = none) ∧
    graceTimer 0 0 abandonedState = abandonedState ∧
    graceTimer 0 0 (graceTimer 0 0 abandonedState) = graceTimer 0 0 abandonedState :=
  ⟨by decide, fun _ _ => rfl,
   graceTimer_noop_of_unregistered abandonedState 0 0 (fun _ _ => rfl)⟩

/-- C2 (as stated, refuted): in the sample run where connection 0 (user 10) sends
`findMatch` on an empty queue and then connection 1 (user 11) does, it is not the
case that the first caller is player 1: slot 1 of the created game is the second
caller, and no frame with `playerNumber` 1 is sent to the first caller. -/
theorem first_caller_is_not_player1 :
    ¬ (((pairedState distinctUsers).games 0).player1 = 0 ∧
       ((pairedState distinctUsers).games 0).player2 = 1 ∧
       (0, Msg.matchFound 100 11 "p" 1) ∈ (pairedState distinctUsers).sent ∧
       (1, Msg.matchFound 100 10 "p" 2) ∈ (pairedState distinctUsers).sent) := by
  decide

/-- C2 (amended): when connection `A` calls `findMatch` on an empty queue and then a
different connection `B` calls `findMatch` (both without a session id), the session
created and registered has `B`, the second caller, as player 1 and `A`, the first
caller, as player 2: after `searching` to `A`, the `matchFound` frame sent to `B`
carries `playerNumber` 1 and opponent `A`, and the one sent to `A` carries
`playerNumber` 2 and opponent `B`. -/
theorem findMatch_second_caller_is_player1 (s : State) (A B : ConnRef)
    (t1 t2 now startNow : Nat) (hq : s.waitingPlayers = [])
    (hA : (s.conns A).gameId = none) (hB : (s.conns B).gameId = none) (hAB : A ≠ B) :
    mapGet now (findMatch B now startNow (findMatch A t1 t2 s)).activeGames
      = some s.nextGame ∧
    ((findMatch B now startNow (findMatch A t1 t2 s)).games s.nextGame).player1 = B ∧
    ((findMatch B now startNow (findMatch A t1 t2 s)).games s.nextGame).player2 = A ∧
    (findMatch B now startNow (findMatch A t1 t2 s)).sent = s.sent ++
      [(A, .searching),
       (B, .matchFound now (s.conns A).userId (s.conns A).username 1),
       (A, .matchFound now (s.conns B).userId (s.conns B).username 2)] := by
  rw [findMatch_enqueue s A t1 t2 hq hA]
  rw [findMatch_pair
    { s with waitingPlayers := [A], sent := s.sent ++ [(A, .searching)] }
    B A [] now startNow (by simpa using Ne.symm hAB) hB rfl]
  refine ⟨mapGet_mapSet_same _ _ _, ?_, ?_, ?_⟩ <;> simp

theorem findMatch_second_caller_is_player1_witness :
    ((initState distinctUsers).waitingPlayers = [] ∧
     ((initState distinctUsers).conns 0).gameId = none ∧
     ((initState distinctUsers).conns 1).gameId = none ∧ (0 : ConnRef) ≠ 1) ∧
    mapGet 100 (findMatch 1 100 100 (findMatch 0 50 50 (initState distinctUsers))).activeGames
      = some 0 ∧
    ((findMatch 1 100 100 (findMatch 0 50 50 (initState distinctUsers))).games 0).player1 = 1 ∧
    ((findMatch 1 100 100 (findMatch 0 50 50 (initState distinctUsers))).games 0).player2 = 0 ∧
    (findMatch 1 100 100 (findMatch 0 50 50 (initState distinctUsers))).sent =
      [(0, .searching), (1, .matchFound 100 10 "p" 1), (0, .matchFound 100 11 "p" 2)] :=
  ⟨⟨rfl, rfl, rfl, by decide⟩,
   findMatch_second_caller_is_player1 (initState distinctUsers) 0 1 50 50 100 100
     rfl rfl rfl (by decide)⟩
/-! ## `rejoinGame` -/

/-- C8: `rejoinGame(w, id)` fails in exactly two cases, and then changes nothing but
the frames sent: if `id` is not in the registry, the result is the input state with
the single frame `error 'Game not found'` sent to `w`; if `id` is registered and the
owner id of `w` matches the owner of neither slot, the result is the input state
with the single frame `error 'Not part of this game'` sent to `w`. In every other
case (`id` registered and the owner of `w` matches a slot) the rejoin succeeds: the
only frame sent is `gameRejoined` to `w` with the session's scores, `w` is bound to
a slot and gets the session id, and the registry is unchanged. -/
theorem rejoinGame_cases (s : State) (w : ConnRef) (id : Nat) :
    (mapGet id s.activeGames = none →
      rejoinGame w id s = { s with sent := s.sent ++ [(w, .error "Game not found")] }) ∧
    (∀ g, mapGet id s.activeGames = some g →
      (s.conns (s.games g).player1).userId ≠ (s.conns w).userId →
      (s.conns (s.games g).player2).userId ≠ (s.conns w).userId →
      rejoinGame w id s =
        { s with sent := s.sent ++ [(w, .error "Not part of this game")] }) ∧
    (∀ g, mapGet id s.activeGames = some g →
      ((s.conns (s.games g).player1).userId = (s.conns w).userId ∨
       (s.conns (s.games g).player2).userId = (s.conns w).userId) →
      (rejoinGame w id s).sent = s.sent ++ [(w, .gameRejoined id (s.games g).scores)] ∧
      (((rejoinGame w id s).games g).player1 = w ∨
       ((rejoinGame w id s).games g).player2 = w) ∧
      ((rejoinGame w id s).games g).scores = (s.games g).scores ∧
      ((rejoinGame w id s).conns w).gameId = some id ∧
      (rejoinGame w id s).activeGames = s.activeGames ∧
      (rejoinGame w id s).waitingPlayers = s.waitingPlayers ∧
      (rejoinGame w id s).dbWrites = s.dbWrites) := by
  refine ⟨?_, ?_, ?_⟩
  · intro h
    simp [rejoinGame, h, State.send]
  · intro g h h1 h2
    simp [rejoinGame, h, h1, h2, State.send]
  · intro g h h12
    by_cases h1 : (s.conns (s.games g).player1).userId = (s.conns w).userId
    · simp [rejoinGame, h, h1, State.send, State.setGameId]
    · have h2 : (s.conns (s.games g).player2).userId = (s.conns w).userId := by
        rcases h12 with h12 | h12
        · exact absurd h12 h1
        · exact h12
      simp [rejoinGame, h, h1, h2, State.send, State.setGameId]

theorem rejoinGame_cases_witness :
    (mapGet 5 (pairedState distinctUsers).activeGames = none ∧
      rejoinGame 2 5 (pairedState distinctUsers) =
        { pairedState distinctUsers with
          sent := (pairedState distinctUsers).sent ++ [(2, .error "Game not found")] }) ∧
    (mapGet 100 (pairedState distinctUsers).activeGames = some 0 ∧
      rejoinGame 2 100 (pairedState distinctUsers) =
        { pairedState distinctUsers with
          sent := (pairedState distinctUsers).sent ++
            [(2, .error "Not part of this game")] }) ∧
    (mapGet 100 (pairedState sameUser).activeGames = some 0 ∧
      (rejoinGame 2 100 (pairedState sameUser)).sent =
        (pairedState sameUser).sent ++ [(2, .gameRejoined 100 [(7, .num 0)])]) :=
  ⟨⟨rfl, (rejoinGame_cases (pairedState distinctUsers) 2 5).1 rfl⟩,
   ⟨rfl, (rejoinGame_cases (pairedState distinctUsers) 2 100).2.1 0 rfl
      (by decide) (by decide)⟩,
   ⟨rfl, ((rejoinGame_cases (pairedState sameUser) 2 100).2.2 0 rfl
      (Or.inl (by decide))).1⟩⟩

/-! ## The grace timer -/

/-- C6: when the grace timer started by the close of `ws` fires while the session is
still registered (the session id of `ws` resolves to the game object `g`, whose own
id is that key) and slot `sl` still references `ws` with its disconnect marker set:
if the other slot's transport is open, the session is finished with the other
slot's owner as winner: one persistence write with that winner, `gameOver` with
that winner to both slot connections and then `opponentDisconnected` to the other
slot's connection are sent, and the session is removed from the registry; if the
other slot's transport is not open, the only change is that the session is removed
from the registry: nothing is sent and nothing is written. -/
theorem graceTimer_fires_unrebound (s : State) (ws : ConnRef) (g : GameRef) (id : Nat)
    (sl : Slot) (hid : (s.conns ws).gameId = some id)
    (hreg : mapGet id s.activeGames = some g) (hkey : (s.games g).id = id)
    (hslot : (s.games g).slotConn sl = ws) (hmark : (s.games g).slotMarker sl = true) :
    ((s.conns ((s.games g).slotConn sl.other)).isOpen = true →
      (graceTimer ws g s).sent = s.sent ++
        [((s.games g).player1,
            .gameOver (s.conns ((s.games g).slotConn sl.other)).userId (s.games g).scores),
         ((s.games g).player2,
            .gameOver (s.conns ((s.games g).slotConn sl.other)).userId (s.games g).scores),
         ((s.games g).slotConn sl.other,
            .opponentDisconnected "Opponent disconnected. You win!")] ∧
      (graceTimer ws g s).dbWrites = s.dbWrites ++
        [{ player1_id := (s.conns (s.games g).player1).userId
           player2_id := (s.conns (s.games g).player2).userId
           winner_id := (s.conns ((s.games g).slotConn sl.other)).userId
           player1_score := getScore (s.conns (s.games g).player1).userId (s.games g).scores
           player2_score := getScore (s.conns (s.games g).player2).userId (s.games g).scores }] ∧
      mapGet id (graceTimer ws g s).activeGames = none) ∧
    ((s.conns ((s.games g).slotConn sl.other)).isOpen = false →
      graceTimer ws g s = { s with activeGames := mapDelete id s.activeGames } ∧
      mapGet id (graceTimer ws g s).activeGames = none) := by
  have hcond : ((s.games g).player1 = ws ∧ (s.games g).player1Disconnected = true) ∨
      ((s.games g).player2 = ws ∧ (s.games g).player2Disconnected = true) := by
    cases sl with
    | one => exact Or.inl ⟨hslot, hmark⟩
    | two => exact Or.inr ⟨hslot, hmark⟩
  have hopp : (if (s.games g).player1 = ws then (s.games g).player2 else (s.games g).player1)
      = (s.games g).slotConn sl.other := by
    cases sl with
    | one =>
      have h1 : (s.games g).player1 = ws := hslot
      simp [h1, Game.slotConn, Slot.other]
    | two =>
      have h2 : (s.games g).player2 = ws := hslot
      by_cases h1 : (s.games g).player1 = ws
      · simp [h1, h2, Game.slotConn, Slot.other]
      · simp [h1, Game.slotConn, Slot.other]
  have hunf : graceTimer ws g s =
      if (s.conns ((s.games g).slotConn sl.other)).isOpen = true then
        (endGame g (s.conns ((s.games g).slotConn sl.other)).userId s).send
          ((s.games g).slotConn sl.other)
          (.opponentDisconnected "Opponent disconnected. You win!")
      else { s with activeGames := mapDelete id s.activeGames } := by
    unfold graceTimer
    simp only [hid, hreg, if_pos hcond, hopp]
  constructor
  · intro ho
    rw [hunf, if_pos ho]
    refine ⟨?_, ?_, ?_⟩
    · simp [endGame, State.send, State.setGameId]
    · simp [endGame, State.send, State.setGameId]
    · simp only [endGame, State.send, State.setGameId, hkey]
      exact mapGet_mapDelete_same _ _
  · intro ho
    rw [hunf, if_neg (by simp [ho])]
    exact ⟨rfl, mapGet_mapDelete_same _ _⟩

theorem graceTimer_fires_unrebound_witness :
    (((closedOneState.conns 1).gameId = some 100 ∧
      mapGet 100 closedOneState.activeGames = some 0 ∧
      (closedOneState.games 0).id = 100 ∧
      (closedOneState.games 0).slotConn .one = 1 ∧
      (closedOneState.games 0).slotMarker .one = true ∧
      (closedOneState.conns 0).isOpen = true) ∧
     (graceTimer 1 0 closedOneState).sent = closedOneState.sent ++
       [(1, .gameOver 10 [(10, .num 0), (11, .num 0)]),
        (0, .gameOver 10 [(10, .num 0), (11, .num 0)]),
        (0, .opponentDisconnected "Opponent disconnected. You win!")] ∧
     mapGet 100 (graceTimer 1 0 closedOneState).activeGames = none) ∧
    (((closedBothState.conns 1).gameId = some 100 ∧
      mapGet 100 closedBothState.activeGames = some 0 ∧
      (closedBothState.games 0).id = 100 ∧
      (closedBothState.games 0).slotConn .one = 1 ∧
      (closedBothState.games 0).slotMarker .one = true ∧
      (closedBothState.conns 0).isOpen = false) ∧
     graceTimer 1 0 closedBothState =
       { closedBothState with activeGames := mapDelete 100 closedBothState.activeGames } ∧
     mapGet 100 (graceTimer 1 0 closedBothState).activeGames = none) :=
  ⟨⟨⟨rfl, rfl, rfl, rfl, rfl, rfl⟩,
    ((graceTimer_fires_unrebound closedOneState 1 0 100 .one rfl rfl rfl rfl rfl).1 rfl).1,
    ((graceTimer_fires_unrebound closedOneState 1 0 100 .one rfl rfl rfl rfl rfl).1 rfl).2.2⟩,
   ⟨⟨rfl, rfl, rfl, rfl, rfl, rfl⟩,
    (graceTimer_fires_unrebound closedBothState 1 0 100 .one rfl rfl rfl rfl rfl).2 rfl⟩⟩

/-! ## Rejoining within the grace period -/

theorem graceTimer_noop_of_not_in_slot (t : State) (w : ConnRef) (g : GameRef)
    (h1 : (t.games g).player1 ≠ w) (h2 : (t.games g).player2 ≠ w) :
    graceTimer w g t = t := by
  unfold graceTimer
  split
  · rfl
  · split
    · rfl
    · simp [h1, h2]

/-- A rejoin right after the disconnect, in any state: for a registered session
(key `id`, game object `g`) and a slot `sl` whose connection `w` has that session
id, provided the other slot's participant has an owner id different from that of
`w`: after `handlePlayerDisconnect(w)` the marker of `sl` is set and the grace timer
of `w` is pending; if a connection `w'` other than `w` with the owner id of `w`
sends `rejoinGame` with `id` as the next turn, then `sl` references `w'`, the marker
of `sl` is cleared, `w'` receives `gameRejoined` with the session's scores, the
session stays registered, and the grace timer of `w` returns the state unchanged
in every state in which neither slot references `w`. -/
theorem rejoin_before_grace_timer (s : State) (w w' : ConnRef) (g : GameRef) (id : Nat)
    (sl : Slot) (hid : (s.conns w).gameId = some id)
    (hreg : mapGet id s.activeGames = some g)
    (hslot : (s.games g).slotConn sl = w)
    (hdiff : (s.conns ((s.games g).slotConn sl.other)).userId ≠ (s.conns w).userId)
    (hown : (s.conns w').userId = (s.conns w).userId) (hne : w' ≠ w) :
    ((handlePlayerDisconnect w s).games g).slotMarker sl = true ∧
    (w, g) ∈ (handlePlayerDisconnect w s).timers ∧
    ((rejoinGame w' id (handlePlayerDisconnect w s)).games g).slotConn sl = w' ∧
    ((rejoinGame w' id (handlePlayerDisconnect w s)).games g).slotMarker sl = false ∧
    (rejoinGame w' id (handlePlayerDisconnect w s)).sent =
      s.sent ++ [(w', .gameRejoined id (s.games g).scores)] ∧
    mapGet id (rejoinGame w' id (handlePlayerDisconnect w s)).activeGames = some g ∧
    graceTimer w g (rejoinGame w' id (handlePlayerDisconnect w s)) =
      rejoinGame w' id (handlePlayerDisconnect w s) ∧
    (∀ t : State, (t.games g).player1 ≠ w → (t.games g).player2 ≠ w →
      graceTimer w g t = t) := by
  have hoth : (s.games g).slotConn sl.other ≠ w := by
    intro e
    rw [e] at hdiff
    exact hdiff rfl
  cases sl with
  | one =>
    have h1 : (s.games g).player1 = w := hslot
    have h2 : (s.games g).player2 ≠ w := hoth
    have hd : handlePlayerDisconnect w s =
        { s with
          waitingPlayers := if w ∈ s.waitingPlayers then s.waitingPlayers.erase w
                            else s.waitingPlayers
          games := Function.update s.games g { s.games g with player1Disconnected := true }
          timers := s.timers ++ [(w, g)] } := by
      unfold handlePlayerDisconnect
      by_cases hq : w ∈ s.waitingPlayers <;> simp [hq, hid, hreg, h1]
    rw [hd]
    have hu : (s.conns w).userId = (s.conns w').userId := hown.symm
    refine ⟨by simp [Game.slotMarker], by simp, ?_, ?_, ?_, ?_, ?_, ?_⟩
    · simp [rejoinGame, hreg, h1, hu, State.send, State.setGameId, Game.slotConn]
    · simp [rejoinGame, hreg, h1, hu, State.send, State.setGameId, Game.slotMarker]
    · simp [rejoinGame, hreg, h1, hu, State.send, State.setGameId]
    · simp [rejoinGame, hreg, h1, hu, State.send, State.setGameId]
    · apply graceTimer_noop_of_not_in_slot
      · simp [rejoinGame, hreg, h1, hu, State.send, State.setGameId, hne]
      · simp [rejoinGame, hreg, h1, hu, State.send, State.setGameId, h2]
    · exact fun t a b => graceTimer_noop_of_not_in_slot t w g a b
  | two =>
    have h2 : (s.games g).player2 = w := hslot
    have h1 : (s.games g).player1 ≠ w := hoth
    have hu1 : (s.conns (s.games g).player1).userId ≠ (s.conns w').userId := by
      rw [hown]
      exact hdiff
    have hd : handlePlayerDisconnect w s =
        { s with
          waitingPlayers := if w ∈ s.waitingPlayers then s.waitingPlayers.erase w
                            else s.waitingPlayers
          games := Function.update s.games g { s.games g with player2Disconnected := true }
          timers := s.timers ++ [(w, g)] } := by
      unfold handlePlayerDisconnect
      by_cases hq : w ∈ s.waitingPlayers <;> simp [hq, hid, hreg, h1, h2]
    rw [hd]
    have hu : (s.conns w).userId = (s.conns w').userId := hown.symm
    refine ⟨by simp [Game.slotMarker], by simp, ?_, ?_, ?_, ?_, ?_, ?_⟩
    · simp [rejoinGame, hreg, h2, hu, hu1, State.send, State.setGameId, Game.slotConn]
    · simp [rejoinGame, hreg, h2, hu, hu1, State.send, State.setGameId, Game.slotMarker]
    · simp [rejoinGame, hreg, h2, hu, hu1, State.send, State.setGameId]
    · simp [rejoinGame, hreg, h2, hu, hu1, State.send, State.setGameId]
    · apply graceTimer_noop_of_not_in_slot
      · simp [rejoinGame, hreg, h2, hu, hu1, State.send, State.setGameId, h1]
      · simp [rejoinGame, hreg, h2, hu, hu1, State.send, State.setGameId, hne]
    · exact fun t a b => graceTimer_noop_of_not_in_slot t w g a b

theorem rejoin_before_grace_timer_witness :
    ((lostState.conns 0).gameId = some 100 ∧
     mapGet 100 lostState.activeGames = some 0 ∧
     (lostState.games 0).slotConn .two = 0 ∧
     (lostState.conns ((lostState.games 0).slotConn Slot.two.other)).userId
       ≠ (lostState.conns 0).userId ∧
     (lostState.conns 2).userId = (lostState.conns 0).userId ∧ (2 : ConnRef) ≠ 0) ∧
    ((rejoinGame 2 100 (handlePlayerDisconnect 0 lostState)).games 0).slotConn .two = 2 ∧
    ((rejoinGame 2 100 (handlePlayerDisconnect 0 lostState)).games 0).slotMarker .two
      = false ∧
    graceTimer 0 0 (rejoinGame 2 100 (handlePlayerDisconnect 0 lostState)) =
      rejoinGame 2 100 (handlePlayerDisconnect 0 lostState) :=
  ⟨⟨rfl, rfl, rfl, by decide, rfl, by decide⟩,
   (rejoin_before_grace_timer lostState 0 2 0 100 .two rfl rfl rfl
      (by decide) rfl (by decide)).2.2.1,
   (rejoin_before_grace_timer lostState 0 2 0 100 .two rfl rfl rfl
      (by decide) rfl (by decide)).2.2.2.1,
   (rejoin_before_grace_timer lostState 0 2 0 100 .two rfl rfl rfl
      (by decide) rfl (by decide)).2.2.2.2.2.2.1⟩

/-! ## FIFO pairing -/

theorem findMatch_two (s : State) (a b : ConnRef) (t1 t2 now startNow : Nat)
    (hq : s.waitingPlayers = []) (ha : (s.conns a).gameId = none)
    (hb : (s.conns b).gameId = none) (hab : a ≠ b) :
    findMatch b now startNow (findMatch a t1 t2 s) =
      { conns := Function.update
          (Function.update s.conns b { s.conns b with gameId := some now }) a
          { s.conns a with gameId := some now }
        games := Function.update s.games s.nextGame
          { id := now, player1 := b, player2 := a
            scores := setScore (s.conns a).userId (.num 0)
                        (setScore (s.conns b).userId (.num 0) [])
            startTime := startNow
            player1Disconnected := false, player2Disconnected := false }
        nextGame := s.nextGame + 1
        waitingPlayers := []
        activeGames := mapSet now s.nextGame s.activeGames
        timers := s.timers
        sent := s.sent ++
          [(a, .searching),
           (b, .matchFound now (s.conns a).userId (s.conns a).username 1),
           (a, .matchFound now (s.conns b).userId (s.conns b).username 2)]
        dbWrites := s.dbWrites } := by
  rw [findMatch_enqueue s a t1 t2 hq ha]
  rw [findMatch_pair
    { s with waitingPlayers := [a], sent := s.sent ++ [(a, .searching)] }
    b a [] now startNow (by simpa using Ne.symm hab) hb rfl]
  simp

theorem fifoPairingLog_congr (c1 c2 : ConnRef → Conn)
    (h : ∀ x, (c1 x).userId = (c2 x).userId ∧ (c1 x).username = (c2 x).username) :
    ∀ cs, fifoPairingLog c1 cs = fifoPairingLog c2 cs
  | [] => rfl
  | [_] => rfl
  | a :: b :: rest => by
    simp only [fifoPairingLog, (h a.1).1, (h a.1).2, (h b.1).1, (h b.1).2,
      fifoPairingLog_congr c1 c2 h rest]

theorem findMatchAll_spec :
    ∀ (cs : List (ConnRef × Nat × Nat)) (s : State),
      s.waitingPlayers = [] → (cs.map (fun c => c.1)).Nodup →
      (∀ c ∈ cs, (s.conns c.1).gameId = none) →
      (findMatchAll cs s).sent = s.sent ++ fifoPairingLog s.conns cs ∧
      (findMatchAll cs s).nextGame = s.nextGame + cs.length / 2 ∧
      (∀ j, j < s.nextGame → (findMatchAll cs s).games j = s.games j) ∧
      (∀ x, x ∉ cs.map (fun c => c.1) → (findMatchAll cs s).conns x = s.conns x) ∧
      (∀ x, ((findMatchAll cs s).conns x).userId = (s.conns x).userId ∧
            ((findMatchAll cs s).conns x).username = (s.conns x).username) ∧
      (∀ k a b, cs[2 * k]? = some a → cs[2 * k + 1]? = some b →
        ((findMatchAll cs s).games (s.nextGame + k)).player1 = b.1 ∧
        ((findMatchAll cs s).games (s.nextGame + k)).player2 = a.1 ∧
        ((findMatchAll cs s).conns a.1).gameId = some b.2.1 ∧
        ((findMatchAll cs s).conns b.1).gameId = some b.2.1)
  | [], s, _, _, _ => by
    simp [findMatchAll, fifoPairingLog]
  | [a], s, hq, _, hf => by
    have ha : (s.conns a.1).gameId = none := hf a (List.mem_singleton_self a)
    have hfa : findMatchAll [a] s = findMatch a.1 a.2.1 a.2.2 s := rfl
    rw [hfa, findMatch_enqueue s a.1 a.2.1 a.2.2 hq ha]
    refine ⟨by simp [fifoPairingLog], by simp, fun _ _ => rfl, fun _ _ => rfl,
      fun _ => ⟨rfl, rfl⟩, ?_⟩
    intro k x y _ h2
    simp at h2
  | a :: b :: rest, s, hq, hnd, hf => by
    have ha : (s.conns a.1).gameId = none := hf a (by simp)
    have hb : (s.conns b.1).gameId = none := hf b (by simp)
    simp only [List.map_cons, List.nodup_cons, List.mem_cons, List.mem_map, not_or] at hnd
    obtain ⟨⟨hab, harest⟩, hbrest, hndrest⟩ := hnd
    have htwo := findMatch_two s a.1 b.1 a.2.1 a.2.2 b.2.1 b.2.2 hq ha hb hab
    have hfa : findMatchAll (a :: b :: rest) s =
        findMatchAll rest (findMatch b.1 b.2.1 b.2.2 (findMatch a.1 a.2.1 a.2.2 s)) := rfl
    rw [hfa, htwo]
    have hrest_a : ∀ c ∈ rest, c.1 ≠ a.1 := fun c hc e => harest ⟨c, hc, e⟩
    have hrest_b : ∀ c ∈ rest, c.1 ≠ b.1 := fun c hc e => hbrest ⟨c, hc, e⟩
    obtain ⟨ih1, ih2, ih3, ih4, ih5, ih6⟩ := findMatchAll_spec rest
      { conns := Function.update
          (Function.update s.conns b.1 { s.conns b.1 with gameId := some b.2.1 }) a.1
          { s.conns a.1 with gameId := some b.2.1 }
        games := Function.update s.games s.nextGame
          { id := b.2.1, player1 := b.1, player2 := a.1
            scores := setScore (s.conns a.1).userId (.num 0)
                        (setScore (s.conns b.1).userId (.num 0) [])
            startTime := b.2.2
            player1Disconnected := false, player2Disconnected := false }
        nextGame := s.nextGame + 1
        waitingPlayers := []
        activeGames := mapSet b.2.1 s.nextGame s.activeGames
        timers := s.timers
        sent := s.sent ++
          [(a.1, .searching),
           (b.1, .matchFound b.2.1 (s.conns a.1).userId (s.conns a.1).username 1),
           (a.1, .matchFound b.2.1 (s.conns b.1).userId (s.conns b.1).username 2)]
        dbWrites := s.dbWrites }
      rfl hndrest
      (by
        intro c hc
        simp only [Function.update_noteq (hrest_a c hc), Function.update_noteq (hrest_b c hc)]
        exact hf c (by simp [hc]))
    have hids : ∀ x,
        ((Function.update
          (Function.update s.conns b.1 { s.conns b.1 with gameId := some b.2.1 }) a.1
          { s.conns a.1 with gameId := some b.2.1 }) x).userId = (s.conns x).userId ∧
        ((Function.update
          (Function.update s.conns b.1 { s.conns b.1 with gameId := some b.2.1 }) a.1
          { s.conns a.1 with gameId := some b.2.1 }) x).username = (s.conns x).username := by
      intro x
      by_cases hxa : x = a.1
      · subst hxa
        simp
      · by_cases hxb : x = b.1
        · subst hxb
          simp [Function.update_noteq hxa]
        · simp [Function.update_noteq hxa, Function.update_noteq hxb]
    refine ⟨?_, ?_, ?_, ?_, ?_, ?_⟩
    · rw [ih1, fifoPairingLog_congr _ s.conns hids rest]
      simp [fifoPairingLog]
    · rw [ih2]
      simp only [List.length_cons]
      omega
    · intro j hj
      rw [ih3 j (Nat.lt_succ_of_lt hj)]
      exact Function.update_noteq (Nat.ne_of_lt hj) _ _
    · intro x hx
      simp only [List.map_cons, List.mem_cons, not_or] at hx
      rw [ih4 x hx.2.2]
      simp [Function.update_noteq hx.1, Function.update_noteq hx.2.1]
    · intro x
      rw [(ih5 x).1, (ih5 x).2]
      exact hids x
    · intro k x y hx hy
      cases k with
      | zero =>
        simp only [Nat.mul_zero, List.getElem?_cons_zero, Option.some.injEq, Nat.zero_add,
          List.getElem?_cons_succ] at hx hy
        cases hx
        cases hy
        have har : a.1 ∉ rest.map (fun c => c.1) := by
          intro hm
          obtain ⟨c, hc, e⟩ := List.mem_map.1 hm
          exact hrest_a c hc e
        have hbr : b.1 ∉ rest.map (fun c => c.1) := by
          intro hm
          obtain ⟨c, hc, e⟩ := List.mem_map.1 hm
          exact hrest_b c hc e
        have g0 := ih3 s.nextGame (Nat.lt_succ_self _)
        have ga := ih4 a.1 har
        have gb := ih4 b.1 hbr
        simp only [Nat.add_zero]
        rw [g0, ga, gb]
        simp [Function.update_noteq (Ne.symm hab)]
      | succ k =>
        have e1 : 2 * (k + 1) = (2 * k + 1) + 1 := by omega
        have e2 : 2 * (k + 1) + 1 = (2 * k + 1 + 1) + 1 := by omega
        rw [e1, List.getElem?_cons_succ, List.getElem?_cons_succ] at hx
        rw [e2, List.getElem?_cons_succ, List.getElem?_cons_succ] at hy
        have e3 : s.nextGame + (k + 1) = s.nextGame + 1 + k := by omega
        rw [e3]
        exact ih6 k x y hx hy

/-- C1: for every state and every connection `c` that is neither in the waiting
queue nor has a session id, if the queue is `h :: rest` then `findMatch(c)` leaves
the queue `rest`, creates a game object with id `now` whose slots are `c` and `h`
and whose scores for both owners are 0, registers it under `now` without touching
any other key, and sets the session id of both `c` and `h` to `now`. Hence, from an
empty queue, for any sequence of `findMatch` calls by pairwise distinct connections
without a session id, the frames sent are exactly those of strict FIFO pairing
(`fifoPairingLog`), one game object is created per pair, and the `k`-th game
object has the `2k`-th caller as one slot and the `(2k-1)`-th as the other, both
callers carrying the session id given at their pairing. -/
theorem findMatch_fifo :
    (∀ (s : State) (c h : ConnRef) (rest : List ConnRef) (now startNow : Nat),
      c ∉ s.waitingPlayers → (s.conns c).gameId = none → s.waitingPlayers = h :: rest →
      (findMatch c now startNow s).waitingPlayers = rest ∧
      mapGet now (findMatch c now startNow s).activeGames = some s.nextGame ∧
      (∀ k, k ≠ now →
        mapGet k (findMatch c now startNow s).activeGames = mapGet k s.activeGames) ∧
      ((findMatch c now startNow s).games s.nextGame).id = now ∧
      ((findMatch c now startNow s).games s.nextGame).player1 = c ∧
      ((findMatch c now startNow s).games s.nextGame).player2 = h ∧
      getScore (s.conns c).userId ((findMatch c now startNow s).games s.nextGame).scores
        = some (.num 0) ∧
      getScore (s.conns h).userId ((findMatch c now startNow s).games s.nextGame).scores
        = some (.num 0) ∧
      ((findMatch c now startNow s).conns c).gameId = some now ∧
      ((findMatch c now startNow s).conns h).gameId = some now) ∧
    (∀ (s : State) (cs : List (ConnRef × Nat × Nat)),
      s.waitingPlayers = [] → (cs.map (fun c => c.1)).Nodup →
      (∀ c ∈ cs, (s.conns c.1).gameId = none) →
      (findMatchAll cs s).sent = s.sent ++ fifoPairingLog s.conns cs ∧
      (findMatchAll cs s).nextGame = s.nextGame + cs.length / 2 ∧
      (∀ k a b, cs[2 * k]? = some a → cs[2 * k + 1]? = some b →
        ((findMatchAll cs s).games (s.nextGame + k)).player1 = b.1 ∧
        ((findMatchAll cs s).games (s.nextGame + k)).player2 = a.1 ∧
        ((findMatchAll cs s).conns a.1).gameId = some b.2.1 ∧
        ((findMatchAll cs s).conns b.1).gameId = some b.2.1)) := by
  constructor
  · intro s c h rest now startNow hq hg hw
    have hch : h ≠ c := by
      intro e
      apply hq
      rw [hw, e]
      exact List.mem_cons_self _ _
    rw [findMatch_pair s c h rest now startNow hq hg hw]
    refine ⟨rfl, mapGet_mapSet_same _ _ _, fun k hk => mapGet_mapSet_other _ _ _ _ hk,
      ?_, ?_, ?_, ?_, ?_, ?_, ?_⟩
    · simp
    · simp
    · simp
    · simp only [Function.update_same]
      by_cases e : (s.conns c).userId = (s.conns h).userId
      · rw [e]
        exact getScore_setScore_same _ _ _
      · rw [getScore_setScore_other _ _ _ _ e]
        exact getScore_setScore_same _ _ _
    · simp only [Function.update_same]
      exact getScore_setScore_same _ _ _
    · simp [Function.update_noteq (Ne.symm hch)]
    · simp
  · intro s cs hq hnd hf
    obtain ⟨h1, h2, _, _, _, h6⟩ := findMatchAll_spec cs s hq hnd hf
    exact ⟨h1, h2, h6⟩

theorem findMatch_fifo_witness :
    ((2 ∉ (findMatch 0 50 50 (initState distinctUsers)).waitingPlayers ∧
      ((findMatch 0 50 50 (initState distinctUsers)).conns 2).gameId = none ∧
      (findMatch 0 50 50 (initState distinctUsers)).waitingPlayers = [0]) ∧
     (findMatch 2 60 61 (findMatch 0 50 50 (initState distinctUsers))).waitingPlayers = [] ∧
     mapGet 60 (findMatch 2 60 61 (findMatch 0 50 50 (initState distinctUsers))).activeGames
       = some 0) ∧
    (((initState distinctUsers).waitingPlayers = [] ∧
      ([(0, 50, 50), (1, 100, 100), (2, 100, 101), (3, 102, 102), (4, 103, 103)].map
        (fun c : ConnRef × Nat × Nat => c.1)).Nodup) ∧
     (findMatchAll [(0, 50, 50), (1, 100, 100), (2, 100, 101), (3, 102, 102), (4, 103, 103)]
        (initState distinctUsers)).sent =
       [(0, .searching), (1, .matchFound 100 10 "p" 1), (0, .matchFound 100 11 "p" 2),
        (2, .searching), (3, .matchFound 102 12 "p" 1), (2, .matchFound 102 13 "p" 2),
        (4, .searching)]) :=
  ⟨⟨⟨by decide, rfl, rfl⟩,
    (findMatch_fifo.1 (findMatch 0 50 50 (initState distinctUsers)) 2 0 [] 60 61
      (by decide) rfl rfl).1,
    (findMatch_fifo.1 (findMatch 0 50 50 (initState distinctUsers)) 2 0 [] 60 61
      (by decide) rfl rfl).2.1⟩,
   ⟨⟨rfl, by decide⟩,
    (findMatch_fifo.2 (initState distinctUsers)
      [(0, 50, 50), (1, 100, 100), (2, 100, 101), (3, 102, 102), (4, 103, 103)]
      rfl (by decide) (fun _ _ => rfl)).1⟩⟩

/-! ## `handleHit` -/

theorem update_gameId_isOpen (conns : ConnRef → Conn) (c x : ConnRef) (v : Option Nat) :
    (Function.update conns c { conns c with gameId := v } x).isOpen = (conns x).isOpen := by
  by_cases h : x = c
  · subst h
    simp
  · simp [Function.update_noteq h]

theorem update_gameId_userId (conns : ConnRef → Conn) (c x : ConnRef) (v : Option Nat) :
    (Function.update conns c { conns c with gameId := v } x).userId = (conns x).userId := by
  by_cases h : x = c
  · subst h
    simp
  · simp [Function.update_noteq h]

theorem update_gameId_username (conns : ConnRef → Conn) (c x : ConnRef) (v : Option Nat) :
    (Function.update conns c { conns c with gameId := v } x).username
      = (conns x).username := by
  by_cases h : x = c
  · subst h
    simp
  · simp [Function.update_noteq h]

theorem findGameByUser_congr (s t : State) (uid : Nat)
    (hc : ∀ x, (t.conns x).userId = (s.conns x).userId)
    (hg : ∀ r, (t.games r).player1 = (s.games r).player1 ∧
               (t.games r).player2 = (s.games r).player2) :
    ∀ m, findGameByUser t uid m = findGameByUser s uid m
  | [] => rfl
  | (k, r) :: rest => by
    simp only [findGameByUser, hc, (hg r).1, (hg r).2, findGameByUser_congr s t uid hc hg rest]

theorem setScore_setScore (k : Nat) (v v' : JsNum) (sc : Scores) :
    setScore k v (setScore k v' sc) = setScore k v sc := by
  induction sc with
  | nil => simp [setScore]
  | cons e rest ih =>
    obtain ⟨k', w⟩ := e
    by_cases h : k' = k
    · simp [setScore, h]
    · by_cases h3 : k < k'
      · simp [setScore, h, h3]
      · simp [setScore, h, h3, ih]

theorem handleHit_resolved (t : State) (ws : ConnRef) (id : Nat) (g : GameRef)
    (opp : ConnRef)
    (hscan : findGameByUser t (t.conns ws).userId t.activeGames = some (id, g, opp)) :
    handleHit ws t =
      if geFive (some (jsIncr (getScore (t.conns ws).userId (t.games g).scores))) then
        endGame g (t.conns ws).userId
          { t with
            conns := Function.update t.conns ws { t.conns ws with gameId := some id }
            games := Function.update t.games g
              { t.games g with
                scores := setScore (t.conns ws).userId
                  (jsIncr (getScore (t.conns ws).userId (t.games g).scores))
                  (t.games g).scores }
            sent := t.sent ++
              ((ws, Msg.scoreUpdate (setScore (t.conns ws).userId
                  (jsIncr (getScore (t.conns ws).userId (t.games g).scores))
                  (t.games g).scores)) ::
               (if (t.conns opp).isOpen then
                  [(opp, Msg.scoreUpdate (setScore (t.conns ws).userId
                    (jsIncr (getScore (t.conns ws).userId (t.games g).scores))
                    (t.games g).scores))]
                else [])) }
      else
        { t with
          conns := Function.update t.conns ws { t.conns ws with gameId := some id }
          games := Function.update t.games g
            { t.games g with
              scores := setScore (t.conns ws).userId
                (jsIncr (getScore (t.conns ws).userId (t.games g).scores))
                (t.games g).scores }
          sent := t.sent ++
            ((ws, Msg.scoreUpdate (setScore (t.conns ws).userId
                (jsIncr (getScore (t.conns ws).userId (t.games g).scores))
                (t.games g).scores)) ::
             (if (t.conns opp).isOpen then
                [(opp, Msg.scoreUpdate (setScore (t.conns ws).userId
                  (jsIncr (getScore (t.conns ws).userId (t.games g).scores))
                  (t.games g).scores)), (opp, Msg.died)]
              else []) ++ [(ws, Msg.scored)]) } := by
  unfold handleHit
  simp only [hscan]
  by_cases ho : (t.conns opp).isOpen = true
  · simp [State.sendIfOpen, State.send, State.setGameId, update_gameId_isOpen,
      update_gameId_userId, getScore_setScore_same, ho]
  · simp [State.sendIfOpen, State.send, State.setGameId, update_gameId_isOpen,
      update_gameId_userId, getScore_setScore_same, ho]

theorem findGameByUser_append (s : State) (uid : Nat) (m : List (Nat × GameRef)) :
    ∀ pre : List (Nat × GameRef),
      (∀ e ∈ pre, (s.conns (s.games e.2).player1).userId ≠ uid ∧
                  (s.conns (s.games e.2).player2).userId ≠ uid) →
      findGameByUser s uid (pre ++ m) = findGameByUser s uid m
  | [], _ => rfl
  | (k, r) :: rest, h => by
    have h1 := h (k, r) (List.mem_cons_self _ _)
    simp only [List.cons_append, findGameByUser, h1.1, h1.2, if_false]
    exact findGameByUser_append s uid m rest
      (fun e he => h e (List.mem_cons_of_mem _ he))

theorem findGameByUser_of_slot (s : State) (ws : ConnRef) (g : GameRef) (id : Nat)
    (sl : Slot) (pre post : List (Nat × GameRef))
    (hreg : s.activeGames = pre ++ (id, g) :: post)
    (hpre : ∀ e ∈ pre, (s.conns (s.games e.2).player1).userId ≠ (s.conns ws).userId ∧
                       (s.conns (s.games e.2).player2).userId ≠ (s.conns ws).userId)
    (hslot : (s.games g).slotConn sl = ws)
    (hdiff : (s.conns ((s.games g).slotConn sl.other)).userId ≠ (s.conns ws).userId) :
    findGameByUser s (s.conns ws).userId s.activeGames
      = some (id, g, (s.games g).slotConn sl.other) := by
  rw [hreg, findGameByUser_append s _ _ pre hpre]
  cases sl with
  | one =>
    have h1 : (s.games g).player1 = ws := hslot
    simp [findGameByUser, h1, Game.slotConn, Slot.other]
  | two =>
    have h2 : (s.games g).player2 = ws := hslot
    have h1 : (s.conns (s.games g).player1).userId ≠ (s.conns ws).userId := hdiff
    simp [findGameByUser, h1, h2, Game.slotConn, Slot.other]

theorem hits_progress (s : State) (ws : ConnRef) (g : GameRef) (id : Nat) (opp : ConnRef)
    (hscan : findGameByUser s (s.conns ws).userId s.activeGames = some (id, g, opp))
    (h0 : getScore (s.conns ws).userId (s.games g).scores = some (.num 0)) :
    ∀ n, n ≤ 4 →
      ((handleHit ws)^[n] s).activeGames = s.activeGames ∧
      (∀ x, (((handleHit ws)^[n] s).conns x).userId = (s.conns x).userId ∧
            (((handleHit ws)^[n] s).conns x).isOpen = (s.conns x).isOpen) ∧
      (∀ r, (((handleHit ws)^[n] s).games r).player1 = (s.games r).player1 ∧
            (((handleHit ws)^[n] s).games r).player2 = (s.games r).player2 ∧
            (((handleHit ws)^[n] s).games r).id = (s.games r).id) ∧
      getScore (s.conns ws).userId (((handleHit ws)^[n] s).games g).scores
        = some (.num n) ∧
      (∀ v, setScore (s.conns ws).userId v (((handleHit ws)^[n] s).games g).scores
        = setScore (s.conns ws).userId v (s.games g).scores) ∧
      (∀ k, k ≠ (s.conns ws).userId →
        getScore k (((handleHit ws)^[n] s).games g).scores = getScore k (s.games g).scores)
  | 0, _ => by
    exact ⟨rfl, fun _ => ⟨rfl, rfl⟩, fun _ => ⟨rfl, rfl, rfl⟩, h0, fun _ => rfl, fun _ _ => rfl⟩
  | n + 1, hn => by
    obtain ⟨hA, hB, hC, hD, hE, hF⟩ := hits_progress s ws g id opp hscan h0 n (by omega)
    rw [Function.iterate_succ_apply']
    generalize (handleHit ws)^[n] s = t at hA hB hC hD hE hF
    have hu : (t.conns ws).userId = (s.conns ws).userId := (hB ws).1
    have hscan' : findGameByUser t (t.conns ws).userId t.activeGames = some (id, g, opp) := by
      rw [hu, hA, findGameByUser_congr s t _ (fun x => (hB x).1)
        (fun r => ⟨(hC r).1, (hC r).2.1⟩)]
      exact hscan
    have hge : geFive (some (JsNum.num (n + 1))) = false := by
      simp only [geFive, decide_eq_false_iff_not]
      omega
    rw [handleHit_resolved t ws id g opp hscan', hu, hD]
    simp only [jsIncr, hge]
    refine ⟨hA, ?_, ?_, ?_, ?_, ?_⟩
    · intro x
      simp only [Bool.false_eq_true, if_false]
      rw [update_gameId_userId, update_gameId_isOpen]
      exact hB x
    · intro r
      simp only [Bool.false_eq_true, if_false]
      by_cases hr : r = g
      · subst hr
        simp only [Function.update_same]
        exact hC r
      · simp only [Function.update_noteq hr]
        exact hC r
    · simp only [Bool.false_eq_true, if_false, Function.update_same]
      exact getScore_setScore_same _ _ _
    · intro v
      simp only [Bool.false_eq_true, if_false, Function.update_same]
      rw [setScore_setScore]
      exact hE v
    · intro k hk
      simp only [Bool.false_eq_true, if_false, Function.update_same]
      rw [getScore_setScore_other _ _ _ _ hk]
      exact hF k hk

/-- Five hits in a row, in any state: for a registered session (key `id`, game
object `g`, whose own id is `id`) with both scores 0 and a connection `ws` bound to
slot `sl`, provided the opponent's owner id differs from the owner id of `ws` and
no session earlier in registry order has a participant with the owner id of `ws`:
if `ws` sends `hit` five times with no other turn in between, the session is still
registered after each of the first four hits, and the fifth hit finishes it. -/
theorem five_hits_finish (s : State) (ws : ConnRef) (g : GameRef) (id : Nat) (sl : Slot)
    (pre post : List (Nat × GameRef))
    (hreg : s.activeGames = pre ++ (id, g) :: post)
    (hget : mapGet id s.activeGames = some g)
    (hpre : ∀ e ∈ pre, (s.conns (s.games e.2).player1).userId ≠ (s.conns ws).userId ∧
                       (s.conns (s.games e.2).player2).userId ≠ (s.conns ws).userId)
    (hkey : (s.games g).id = id)
    (hslot : (s.games g).slotConn sl = ws)
    (hdiff : (s.conns ((s.games g).slotConn sl.other)).userId ≠ (s.conns ws).userId)
    (h0 : getScore (s.conns ws).userId (s.games g).scores = some (.num 0))
    (h0' : getScore (s.conns ((s.games g).slotConn sl.other)).userId (s.games g).scores
      = some (.num 0)) :
    (∀ n, n ≤ 4 → mapGet id ((handleHit ws)^[n] s).activeGames = some g) ∧
    mapGet id ((handleHit ws)^[5] s).activeGames = none ∧
    ((handleHit ws)^[5] s).sent = ((handleHit ws)^[4] s).sent ++
      ((ws, Msg.scoreUpdate (setScore (s.conns ws).userId (.num 5) (s.games g).scores)) ::
       (if (s.conns ((s.games g).slotConn sl.other)).isOpen then
          [((s.games g).slotConn sl.other,
            Msg.scoreUpdate (setScore (s.conns ws).userId (.num 5) (s.games g).scores))]
        else [])) ++
      [((s.games g).player1,
          Msg.gameOver (s.conns ws).userId
            (setScore (s.conns ws).userId (.num 5) (s.games g).scores)),
       ((s.games g).player2,
          Msg.gameOver (s.conns ws).userId
            (setScore (s.conns ws).userId (.num 5) (s.games g).scores))] ∧
    getScore (s.conns ws).userId
      (setScore (s.conns ws).userId (.num 5) (s.games g).scores) = some (.num 5) ∧
    getScore (s.conns ((s.games g).slotConn sl.other)).userId
      (setScore (s.conns ws).userId (.num 5) (s.games g).scores) = some (.num 0) := by
  have hscan := findGameByUser_of_slot s ws g id sl pre post hreg hpre hslot hdiff
  have hprog := hits_progress s ws g id _ hscan h0
  refine ⟨?_, ?_, ?_, getScore_setScore_same _ _ _, ?_⟩
  · intro n hn
    rw [(hprog n hn).1]
    exact hget
  · obtain ⟨hA, hB, hC, hD, hE, _⟩ := hprog 4 (le_refl 4)
    rw [Function.iterate_succ_apply']
    generalize (handleHit ws)^[4] s = t at hA hB hC hD hE
    have hu : (t.conns ws).userId = (s.conns ws).userId := (hB ws).1
    have hscan' : findGameByUser t (t.conns ws).userId t.activeGames
        = some (id, g, (s.games g).slotConn sl.other) := by
      rw [hu, hA, findGameByUser_congr s t _ (fun x => (hB x).1)
        (fun r => ⟨(hC r).1, (hC r).2.1⟩)]
      exact hscan
    rw [handleHit_resolved t ws id g _ hscan', hu, hD]
    have hge : geFive (some (jsIncr (some (JsNum.num 4)))) = true := by decide
    rw [if_pos hge]
    simp only [endGame, State.send, State.setGameId, Function.update_same, (hC g).2.2, hkey,
      hA]
    exact mapGet_mapDelete_same _ _
  · obtain ⟨hA, hB, hC, hD, hE, _⟩ := hprog 4 (le_refl 4)
    rw [Function.iterate_succ_apply']
    generalize (handleHit ws)^[4] s = t at hA hB hC hD hE
    have hu : (t.conns ws).userId = (s.conns ws).userId := (hB ws).1
    have hscan' : findGameByUser t (t.conns ws).userId t.activeGames
        = some (id, g, (s.games g).slotConn sl.other) := by
      rw [hu, hA, findGameByUser_congr s t _ (fun x => (hB x).1)
        (fun r => ⟨(hC r).1, (hC r).2.1⟩)]
      exact hscan
    rw [handleHit_resolved t ws id g _ hscan', hu, hD]
    have hge : geFive (some (jsIncr (some (JsNum.num 4)))) = true := by decide
    rw [if_pos hge]
    have h5 : jsIncr (some (JsNum.num 4)) = JsNum.num 5 := rfl
    simp only [endGame, State.send, State.setGameId, Function.update_same, (hC g).1,
      (hC g).2.1, (hB _).2, h5, hE, List.append_assoc]
    rfl
  · rw [getScore_setScore_other _ _ _ _ hdiff]
    exact h0'

theorem five_hits_finish_witness :
    ((pairedState distinctUsers).activeGames = [] ++ (100, 0) :: [] ∧
     mapGet 100 (pairedState distinctUsers).activeGames = some 0 ∧
     ((pairedState distinctUsers).games 0).id = 100 ∧
     ((pairedState distinctUsers).games 0).slotConn .one = 1 ∧
     ((pairedState distinctUsers).conns
        (((pairedState distinctUsers).games 0).slotConn Slot.one.other)).userId
       ≠ ((pairedState distinctUsers).conns 1).userId ∧
     ((pairedState distinctUsers).games 0).scores = [(10, .num 0), (11, .num 0)]) ∧
    mapGet 100 ((handleHit 1)^[4] (pairedState distinctUsers)).activeGames = some 0 ∧
    mapGet 100 ((handleHit 1)^[5] (pairedState distinctUsers)).activeGames = none ∧
    getScore 11 (setScore 11 (.num 5) ((pairedState distinctUsers).games 0).scores)
      = some (.num 5) ∧
    getScore 10 (setScore 11 (.num 5) ((pairedState distinctUsers).games 0).scores)
      = some (.num 0) :=
  ⟨⟨rfl, rfl, rfl, rfl, by decide, rfl⟩,
   (five_hits_finish (pairedState distinctUsers) 1 0 100 .one [] [] rfl rfl
      (fun _ h => absurd h (List.not_mem_nil _)) rfl rfl (by decide) rfl rfl).1 4 (le_refl 4),
   (five_hits_finish (pairedState distinctUsers) 1 0 100 .one [] [] rfl rfl
      (fun _ h => absurd h (List.not_mem_nil _)) rfl rfl (by decide) rfl rfl).2.1,
   (five_hits_finish (pairedState distinctUsers) 1 0 100 .one [] [] rfl rfl
      (fun _ h => absurd h (List.not_mem_nil _)) rfl rfl (by decide) rfl rfl).2.2.2⟩

/-! ## Session identifiers -/

/-- C9 (the code at the failing input): in the sample run the two pairings read the
same clock value. Both created game objects (slots 1, 0 and slots 3, 2) carry the
id 100; the first was registered under 100 after the first pairing, and the
registration of the second replaced it: the registry holds the single entry that
maps 100 to the second game object, while all four connections carry the session
id 100. -/
theorem same_clock_reading_reuses_session_id :
    ((sameClockState.games 0).player1 = 1 ∧ (sameClockState.games 0).player2 = 0 ∧
     (sameClockState.games 1).player1 = 3 ∧ (sameClockState.games 1).player2 = 2) ∧
    (sameClockState.games 0).id = (sameClockState.games 1).id ∧
    mapGet 100 (pairedState distinctUsers).activeGames = some 0 ∧
    sameClockState.activeGames = [(100, 1)] ∧
    (sameClockState.conns 0).gameId = some 100 ∧
    (sameClockState.conns 1).gameId = some 100 ∧
    (sameClockState.conns 2).gameId = some 100 ∧
    (sameClockState.conns 3).gameId = some 100 := by
  decide

/-! ## The score mapping of registered sessions -/

theorem reachable_of_run (users : ConnRef → Nat × String) (evs : List Event) (t : State)
    (h : run evs (initState users) = some t) : Reachable t :=
  ⟨users, evs, h⟩

/-- C10 (as stated, refuted): the sample state in which one user, on two
connections, was paired with themself is reachable, the session is registered,
and its score mapping has a single entry, not two. -/
theorem self_match_has_one_score_entry :
    Reachable (pairedState sameUser) ∧
    (100, 0) ∈ (pairedState sameUser).activeGames ∧
    ((pairedState sameUser).games 0).scores = [(7, .num 0)] ∧
    ¬ (((pairedState sameUser).games 0).scores.length = 2) :=
  ⟨reachable_of_run sameUser
      [.message 0 .findMatch 50 50, .message 1 .findMatch 100 100] _ rfl,
   by decide, by decide, by decide⟩

theorem scoresOK_init (u1 u2 : Nat) :
    ScoresOK u1 u2 (setScore u2 (.num 0) (setScore u1 (.num 0) [])) :=
  ⟨0, 0, by decide, by decide, rfl⟩

theorem scoresOK_get {u1 u2 uid : Nat} {sc : Scores} (h : ScoresOK u1 u2 sc)
    (hu : uid = u1 ∨ uid = u2) : ∃ n, n < 5 ∧ getScore uid sc = some (.num n) := by
  obtain ⟨a, b, ha, hb, rfl⟩ := h
  by_cases h2 : uid = u2
  · subst h2
    exact ⟨b, hb, getScore_setScore_same _ _ _⟩
  · have h1 : uid = u1 := by
      rcases hu with hu | hu
      · exact hu
      · exact absurd hu h2
    subst h1
    exact ⟨a, ha, by
      rw [getScore_setScore_other _ _ _ _ h2]
      exact getScore_setScore_same _ _ _⟩

theorem scoresOK_set {u1 u2 uid m : Nat} {sc : Scores} (h : ScoresOK u1 u2 sc)
    (hu : uid = u1 ∨ uid = u2) (hm : m < 5) :
    ScoresOK u1 u2 (setScore uid (.num m) sc) := by
  obtain ⟨a, b, ha, hb, rfl⟩ := h
  by_cases h2 : uid = u2
  · subst h2
    exact ⟨a, m, ha, hm, setScore_setScore _ _ _ _⟩
  · have h1 : uid = u1 := by
      rcases hu with hu | hu
      · exact hu
      · exact absurd hu h2
    subst h1
    refine ⟨m, b, hm, hb, ?_⟩
    have h2' : ¬ u2 = uid := fun e => h2 e.symm
    rcases Nat.lt_or_gt_of_ne h2 with hlt | hgt
    · have hn : ¬ u2 < uid := by omega
      simp [setScore, h2, h2', hlt, hn]
    · have hn : ¬ uid < u2 := by omega
      simp [setScore, h2, h2', hgt, hn]

theorem scoresOK_keys {u1 u2 : Nat} {sc : Scores} (h : ScoresOK u1 u2 sc) :
    (sc.map Prod.fst).Nodup ∧ (∀ k, k ∈ sc.map Prod.fst ↔ (k = u1 ∨ k = u2)) ∧
    (∀ e ∈ sc, ∃ n, e.2 = JsNum.num n ∧ n < 5) ∧ (u1 ≠ u2 → sc.length = 2) := by
  obtain ⟨a, b, ha, hb, rfl⟩ := h
  by_cases h12 : u1 = u2
  · subst h12
    refine ⟨by simp [setScore], by simp [setScore], ?_, fun e => absurd rfl e⟩
    intro e he
    simp only [setScore, if_true, List.mem_singleton] at he
    subst he
    exact ⟨b, rfl, hb⟩
  · have h21 : ¬ u2 = u1 := fun e => h12 e.symm
    rcases Nat.lt_or_gt_of_ne h12 with hlt | hgt
    · have hn : ¬ u2 < u1 := by omega
      refine ⟨by simp [setScore, h12, hn, h21], ?_, ?_, fun _ => by simp [setScore, h12, hn]⟩
      · intro k
        simp [setScore, h12, hn]
      · intro e he
        simp only [setScore, h12, hn, if_false, List.mem_cons, List.mem_singleton,
          List.not_mem_nil, or_false] at he
        rcases he with he | he
        · subst he
          exact ⟨a, rfl, ha⟩
        · subst he
          exact ⟨b, rfl, hb⟩
    · refine ⟨by simp [setScore, h12, hgt, h21], ?_, ?_, fun _ => by simp [setScore, h12, hgt]⟩
      · intro k
        simp only [setScore, h12, hgt, if_false, if_true, List.map_cons, List.map_nil,
          List.mem_cons, List.mem_singleton, List.not_mem_nil, or_false]
        exact Or.comm
      · intro e he
        simp only [setScore, h12, hgt, if_false, if_true, List.mem_cons, List.mem_singleton,
          List.not_mem_nil, or_false] at he
        rcases he with he | he
        · subst he
          exact ⟨b, rfl, hb⟩
        · subst he
          exact ⟨a, rfl, ha⟩

theorem findGameByUser_some (s : State) (uid : Nat) :
    ∀ (m : List (Nat × GameRef)) (id : Nat) (g : GameRef) (opp : ConnRef),
      findGameByUser s uid m = some (id, g, opp) →
      (id, g) ∈ m ∧
      ((s.conns (s.games g).player1).userId = uid ∨
       (s.conns (s.games g).player2).userId = uid)
  | [], _, _, _, h => by simp [findGameByUser] at h
  | (k, r) :: rest, id, g, opp, h => by
    simp only [findGameByUser] at h
    by_cases h1 : (s.conns (s.games r).player1).userId = uid
    · simp only [h1, if_true, Option.some.injEq, Prod.mk.injEq] at h
      obtain ⟨rfl, rfl, _⟩ := h
      exact ⟨List.mem_cons_self _ _, Or.inl h1⟩
    · by_cases h2 : (s.conns (s.games r).player2).userId = uid
      · simp only [h1, h2, if_true, if_false, Option.some.injEq, Prod.mk.injEq] at h
        obtain ⟨rfl, rfl, _⟩ := h
        exact ⟨List.mem_cons_self _ _, Or.inr h2⟩
      · simp only [h1, h2, if_false] at h
        obtain ⟨hm, ho⟩ := findGameByUser_some s uid rest id g opp h
        exact ⟨List.mem_cons_of_mem _ hm, ho⟩

theorem gameOK_of_same (s t : State) (e : Nat × GameRef)
    (hn : s.nextGame ≤ t.nextGame)
    (hid : (t.games e.2).id = (s.games e.2).id)
    (hu1 : (t.conns (t.games e.2).player1).userId = (s.conns (s.games e.2).player1).userId)
    (hu2 : (t.conns (t.games e.2).player2).userId = (s.conns (s.games e.2).player2).userId)
    (hsc : (t.games e.2).scores = (s.games e.2).scores)
    (h : GameOK s e) : GameOK t e := by
  obtain ⟨h1, h2, h3⟩ := h
  refine ⟨Nat.lt_of_lt_of_le h1 hn, hid.trans h2, ?_⟩
  rw [hu1, hu2, hsc]
  exact h3

theorem update_conn_userId (conns : ConnRef → Conn) (c x : ConnRef) (r : Conn)
    (hr : r.userId = (conns c).userId) :
    (Function.update conns c r x).userId = (conns x).userId := by
  by_cases h : x = c
  · subst h
    simpa using hr
  · simp [Function.update_noteq h]

theorem findMatch_of_guard (s : State) (c : ConnRef) (now startNow : Nat)
    (h : c ∈ s.waitingPlayers ∨ (s.conns c).gameId ≠ none) :
    findMatch c now startNow s = s := by
  unfold findMatch
  rw [if_pos h]

theorem findMatch_pair_userId (s : State) (c o : ConnRef) (v : Option Nat) (x : ConnRef) :
    (Function.update (Function.update s.conns c { s.conns c with gameId := v }) o
      { s.conns o with gameId := v } x).userId = (s.conns x).userId := by
  by_cases h : x = o
  · subst h
    simp
  · rw [Function.update_noteq h]
    exact update_gameId_userId _ _ _ _

theorem findMatch_registryOK (s : State) (c : ConnRef) (now startNow : Nat)
    (h : RegistryOK s) : RegistryOK (findMatch c now startNow s) := by
  by_cases hguard : c ∈ s.waitingPlayers ∨ (s.conns c).gameId ≠ none
  · rw [findMatch_of_guard s c now startNow hguard]
    exact h
  · have hq : c ∉ s.waitingPlayers := fun hm => hguard (Or.inl hm)
    have hg : (s.conns c).gameId = none := by
      by_contra hne
      exact hguard (Or.inr hne)
    cases hw : s.waitingPlayers with
    | nil =>
      rw [findMatch_enqueue s c now startNow hw hg]
      intro e he
      exact gameOK_of_same s _ e (le_refl _) rfl rfl rfl rfl (h e he)
    | cons o rest =>
      rw [findMatch_pair s c o rest now startNow hq hg hw]
      intro e he
      rcases mem_mapSet he with heq | hold
      · subst heq
        refine ⟨Nat.lt_succ_self _, ?_, ?_⟩
        · simp
        · simp only [Function.update_same, findMatch_pair_userId]
          exact scoresOK_init _ _
      · have hlt : e.2 < s.nextGame := (h e hold).1
        have hne : e.2 ≠ s.nextGame := Nat.ne_of_lt hlt
        refine gameOK_of_same s _ e (Nat.le_succ _) ?_ ?_ ?_ ?_ (h e hold)
        · simp only [Function.update_noteq hne]
        · simp only [Function.update_noteq hne, findMatch_pair_userId]
        · simp only [Function.update_noteq hne, findMatch_pair_userId]
        · simp only [Function.update_noteq hne]

theorem cancelMatch_registryOK (s : State) (c : ConnRef) (h : RegistryOK s) :
    RegistryOK (cancelMatch c s) := by
  unfold cancelMatch
  split
  · intro e he
    exact gameOK_of_same s _ e (le_refl _) rfl rfl rfl rfl (h e he)
  · exact h

theorem rejoinGame_registryOK (s : State) (w : ConnRef) (id : Nat) (h : RegistryOK s) :
    RegistryOK (rejoinGame w id s) := by
  unfold rejoinGame
  split
  · intro e he
    exact gameOK_of_same s _ e (le_refl _) rfl rfl rfl rfl (h e he)
  · rename_i g hget
    by_cases h1 : (s.conns (s.games g).player1).userId = (s.conns w).userId
    · simp only [h1, if_true]
      intro e he
      refine gameOK_of_same s _ e (le_refl _) ?_ ?_ ?_ ?_ (h e he)
      · by_cases hr : e.2 = g
        · simp [State.send, State.setGameId, hr]
        · simp [State.send, State.setGameId, Function.update_noteq hr]
      · by_cases hr : e.2 = g
        · simp only [State.send, State.setGameId, hr, Function.update_same,
            update_gameId_userId]
          exact h1.symm
        · simp only [State.send, State.setGameId, Function.update_noteq hr,
            update_gameId_userId]
      · by_cases hr : e.2 = g
        · simp only [State.send, State.setGameId, hr, Function.update_same,
            update_gameId_userId]
        · simp only [State.send, State.setGameId, Function.update_noteq hr,
            update_gameId_userId]
      · by_cases hr : e.2 = g
        · simp [State.send, State.setGameId, hr]
        · simp [State.send, State.setGameId, Function.update_noteq hr]
    · by_cases h2 : (s.conns (s.games g).player2).userId = (s.conns w).userId
      · simp only [h1, h2, if_true, if_false]
        intro e he
        refine gameOK_of_same s _ e (le_refl _) ?_ ?_ ?_ ?_ (h e he)
        · by_cases hr : e.2 = g
          · simp [State.send, State.setGameId, hr]
          · simp [State.send, State.setGameId, Function.update_noteq hr]
        · by_cases hr : e.2 = g
          · simp only [State.send, State.setGameId, hr, Function.update_same,
              update_gameId_userId]
          · simp only [State.send, State.setGameId, Function.update_noteq hr,
              update_gameId_userId]
        · by_cases hr : e.2 = g
          · simp only [State.send, State.setGameId, hr, Function.update_same,
              update_gameId_userId]
            exact h2.symm
          · simp only [State.send, State.setGameId, Function.update_noteq hr,
              update_gameId_userId]
        · by_cases hr : e.2 = g
          · simp [State.send, State.setGameId, hr]
          · simp [State.send, State.setGameId, Function.update_noteq hr]
      · simp only [h1, h2, if_false]
        intro e he
        exact gameOK_of_same s _ e (le_refl _) rfl rfl rfl rfl (h e he)

theorem sendIfOpen_registryOK (s : State) (c : ConnRef) (m : Msg) (h : RegistryOK s) :
    RegistryOK (s.sendIfOpen c m) := by
  unfold State.sendIfOpen
  split
  · intro e he
    exact gameOK_of_same s _ e (le_refl _) rfl rfl rfl rfl (h e he)
  · exact h

theorem setGameId_registryOK (s : State) (c : ConnRef) (v : Option Nat)
    (h : RegistryOK s) : RegistryOK (s.setGameId c v) := by
  intro e he
  refine gameOK_of_same s _ e (le_refl _) rfl ?_ ?_ rfl (h e he)
  · simp only [State.setGameId, update_gameId_userId]
  · simp only [State.setGameId, update_gameId_userId]

theorem broadcastPlayerUpdate_registryOK (s : State) (ws : ConnRef)
    (position rotation : Payload) (h : RegistryOK s) :
    RegistryOK (broadcastPlayerUpdate ws position rotation s) := by
  unfold broadcastPlayerUpdate
  split
  · exact h
  · exact sendIfOpen_registryOK _ _ _ (setGameId_registryOK _ _ _ h)

theorem handleShoot_registryOK (s : State) (ws : ConnRef)
    (position direction : Payload) (h : RegistryOK s) :
    RegistryOK (handleShoot ws position direction s) := by
  unfold handleShoot
  split
  · exact h
  · split
    · exact h
    · exact sendIfOpen_registryOK _ _ _ h

theorem setGameId_userId (s : State) (c : ConnRef) (v : Option Nat) (x : ConnRef) :
    ((s.setGameId c v).conns x).userId = (s.conns x).userId :=
  update_gameId_userId _ _ _ _

theorem endGame_userId (s : State) (g : GameRef) (winnerId : Nat) (x : ConnRef) :
    ((endGame g winnerId s).conns x).userId = (s.conns x).userId :=
  (setGameId_userId _ _ _ x).trans (setGameId_userId _ _ _ x)

theorem endGame_games (s : State) (g : GameRef) (winnerId : Nat) :
    (endGame g winnerId s).games = s.games := rfl

theorem endGame_nextGame (s : State) (g : GameRef) (winnerId : Nat) :
    (endGame g winnerId s).nextGame = s.nextGame := rfl

theorem endGame_activeGames (s : State) (g : GameRef) (winnerId : Nat) :
    (endGame g winnerId s).activeGames = mapDelete (s.games g).id s.activeGames := rfl

theorem endGame_registryOK (s : State) (g : GameRef) (winnerId : Nat)
    (h : RegistryOK s) : RegistryOK (endGame g winnerId s) := by
  intro e he
  rw [endGame_activeGames] at he
  refine gameOK_of_same s _ e (le_of_eq (endGame_nextGame s g winnerId).symm) ?_ ?_ ?_ ?_
    (h e (mem_mapDelete he).1)
  · rw [endGame_games]
  · rw [endGame_games]
    exact endGame_userId _ _ _ _
  · rw [endGame_games]
    exact endGame_userId _ _ _ _
  · rw [endGame_games]

theorem handleHit_unresolved (s : State) (ws : ConnRef)
    (h : findGameByUser s (s.conns ws).userId s.activeGames = none) :
    handleHit ws s = s := by
  unfold handleHit
  simp only [h]

theorem handleHit_registryOK (s : State) (ws : ConnRef) (h : RegistryOK s) :
    RegistryOK (handleHit ws s) := by
  cases hs : findGameByUser s (s.conns ws).userId s.activeGames with
  | none =>
    rw [handleHit_unresolved s ws hs]
    exact h
  | some r =>
    obtain ⟨id, g, opp⟩ := r
    obtain ⟨hmem, how⟩ := findGameByUser_some s _ _ id g opp hs
    have hok := h (id, g) hmem
    have hkey : (s.games g).id = id := hok.2.1
    have hsc : ScoresOK (s.conns (s.games g).player1).userId
        (s.conns (s.games g).player2).userId (s.games g).scores := hok.2.2
    have how' : (s.conns ws).userId = (s.conns (s.games g).player1).userId ∨
        (s.conns ws).userId = (s.conns (s.games g).player2).userId := by
      rcases how with how | how
      · exact Or.inl how.symm
      · exact Or.inr how.symm
    obtain ⟨n, hn, hget⟩ := scoresOK_get hsc how'
    rw [handleHit_resolved s ws id g opp hs, hget]
    have hinc : jsIncr (some (JsNum.num n)) = JsNum.num (n + 1) := rfl
    rw [hinc]
    by_cases h5 : 5 ≤ n + 1
    · have hge : geFive (some (JsNum.num (n + 1))) = true := by
        simp only [geFive, decide_eq_true_eq]
        exact h5
      rw [if_pos hge]
      intro e he
      obtain ⟨k, r⟩ := e
      rw [endGame_activeGames] at he
      obtain ⟨hmemE, hneE⟩ := mem_mapDelete he
      simp only [Function.update_same] at hneE
      have hk : (s.games r).id = k := (h (k, r) hmemE).2.1
      have hne : r ≠ g := by
        intro eg
        rw [eg] at hk
        exact hneE hk.symm
      refine gameOK_of_same s _ (k, r) (Nat.le_of_eq rfl) ?_ ?_ ?_ ?_ (h (k, r) hmemE)
      · rw [endGame_games]
        simp only [Function.update_noteq hne]
      · rw [endGame_games, endGame_userId]
        simp only [Function.update_noteq hne, update_gameId_userId]
      · rw [endGame_games, endGame_userId]
        simp only [Function.update_noteq hne, update_gameId_userId]
      · rw [endGame_games]
        simp only [Function.update_noteq hne]
    · have hge : ¬ (geFive (some (JsNum.num (n + 1))) = true) := by
        simp only [geFive, decide_eq_true_eq]
        exact h5
      have hm : n + 1 < 5 := by omega
      rw [if_neg hge]
      intro e he
      obtain ⟨k, r⟩ := e
      have hmemE : (k, r) ∈ s.activeGames := he
      by_cases hr : r = g
      · subst hr
        obtain ⟨elt, ekey, esc⟩ := h (k, r) hmemE
        refine ⟨elt, ?_, ?_⟩
        · simp only [Function.update_same]
          exact ekey
        · simp only [Function.update_same, update_gameId_userId]
          exact scoresOK_set hsc how' hm
      · refine gameOK_of_same s _ (k, r) (le_refl _) ?_ ?_ ?_ ?_ (h (k, r) hmemE)
        · simp only [Function.update_noteq hr]
        · simp only [Function.update_noteq hr, update_gameId_userId]
        · simp only [Function.update_noteq hr, update_gameId_userId]
        · simp only [Function.update_noteq hr]

theorem updateGame_registryOK (s : State) (g : GameRef) (G : Game)
    (hid : G.id = (s.games g).id) (hp1 : G.player1 = (s.games g).player1)
    (hp2 : G.player2 = (s.games g).player2) (hsc : G.scores = (s.games g).scores)
    (h : RegistryOK s) :
    RegistryOK { s with games := Function.update s.games g G } := by
  intro e he
  obtain ⟨k, r⟩ := e
  have hmemE : (k, r) ∈ s.activeGames := he
  by_cases hr : r = g
  · subst hr
    refine gameOK_of_same s _ (k, r) (le_refl _) ?_ ?_ ?_ ?_ (h (k, r) hmemE)
    · simp only [Function.update_same]
      exact hid
    · simp only [Function.update_same, hp1]
    · simp only [Function.update_same, hp2]
    · simp only [Function.update_same]
      exact hsc
  · refine gameOK_of_same s _ (k, r) (le_refl _) ?_ ?_ ?_ ?_ (h (k, r) hmemE)
    · simp only [Function.update_noteq hr]
    · simp only [Function.update_noteq hr]
    · simp only [Function.update_noteq hr]
    · simp only [Function.update_noteq hr]

theorem registryOK_of_eq (s t : State) (hc : t.conns = s.conns) (hg : t.games = s.games)
    (hn : t.nextGame = s.nextGame) (ha : t.activeGames = s.activeGames)
    (h : RegistryOK s) : RegistryOK t := by
  intro e he
  rw [ha] at he
  refine gameOK_of_same s t e (le_of_eq hn.symm) ?_ ?_ ?_ ?_ (h e he)
  · rw [hg]
  · rw [hg, hc]
  · rw [hg, hc]
  · rw [hg]

theorem handlePlayerDisconnect_registryOK (s : State) (ws : ConnRef) (h : RegistryOK s) :
    RegistryOK (handlePlayerDisconnect ws s) := by
  have h1 : RegistryOK
      (if ws ∈ s.waitingPlayers then
        { s with waitingPlayers := s.waitingPlayers.erase ws }
      else s) := by
    split
    · exact registryOK_of_eq s _ rfl rfl rfl rfl h
    · exact h
  unfold handlePlayerDisconnect
  generalize (if ws ∈ s.waitingPlayers then
        ({ s with waitingPlayers := s.waitingPlayers.erase ws } : State)
      else s) = s1 at h1
  simp only []
  split
  · exact h1
  · split
    · exact h1
    · rename_i g _
      by_cases hp1 : (s1.games g).player1 = ws
      · rw [if_pos hp1]
        exact registryOK_of_eq _ _ rfl rfl rfl rfl
          (updateGame_registryOK s1 g _ rfl rfl rfl rfl h1)
      · by_cases hp2 : (s1.games g).player2 = ws
        · rw [if_neg hp1, if_pos hp2]
          exact registryOK_of_eq _ _ rfl rfl rfl rfl
            (updateGame_registryOK s1 g _ rfl rfl rfl rfl h1)
        · rw [if_neg hp1, if_neg hp2]
          exact registryOK_of_eq _ _ rfl rfl rfl rfl h1

theorem send_registryOK (s : State) (c : ConnRef) (m : Msg) (h : RegistryOK s) :
    RegistryOK (s.send c m) :=
  registryOK_of_eq s _ rfl rfl rfl rfl h

theorem deleteKey_registryOK (s : State) (k : Nat) (h : RegistryOK s) :
    RegistryOK { s with activeGames := mapDelete k s.activeGames } := by
  intro e he
  exact gameOK_of_same s _ e (le_refl _) rfl rfl rfl rfl (h e (mem_mapDelete he).1)

theorem graceTimer_registryOK (s : State) (ws : ConnRef) (g : GameRef) (h : RegistryOK s) :
    RegistryOK (graceTimer ws g s) := by
  unfold graceTimer
  split
  · exact h
  · split
    · exact h
    · simp only []
      split
      · split
        · split
          · exact send_registryOK _ _ _ (endGame_registryOK _ _ _ h)
          · exact deleteKey_registryOK _ _ h
        · split
          · exact send_registryOK _ _ _ (endGame_registryOK _ _ _ h)
          · exact deleteKey_registryOK _ _ h
      · exact h

theorem setClosed_registryOK (s : State) (c : ConnRef) (h : RegistryOK s) :
    RegistryOK (s.setClosed c) := by
  intro e he
  have hu : ∀ x, ((s.setClosed c).conns x).userId = (s.conns x).userId := by
    intro x
    by_cases hx : x = c
    · subst hx
      simp [State.setClosed]
    · simp [State.setClosed, Function.update_noteq hx]
  exact gameOK_of_same s _ e (le_refl _) rfl (hu _) (hu _) rfl (h e he)

theorem step_registryOK (e : Event) (s t : State) (hstep : step e s = some t)
    (h : RegistryOK s) : RegistryOK t := by
  cases e with
  | message ws data now startNow =>
    simp only [step] at hstep
    split at hstep
    · simp only [Option.some.injEq] at hstep
      subst hstep
      cases data with
      | findMatch => exact findMatch_registryOK s ws now startNow h
      | cancelMatch => exact cancelMatch_registryOK s ws h
      | rejoinGame gameId => exact rejoinGame_registryOK s ws gameId h
      | playerUpdate p r => exact broadcastPlayerUpdate_registryOK s ws p r h
      | shoot p d => exact handleShoot_registryOK s ws p d h
      | hit => exact handleHit_registryOK s ws h
      | other => exact h
    · cases hstep
  | close ws =>
    simp only [step] at hstep
    split at hstep
    · simp only [Option.some.injEq] at hstep
      subst hstep
      exact handlePlayerDisconnect_registryOK _ ws (setClosed_registryOK s ws h)
    · cases hstep
  | timer ws g =>
    simp only [step] at hstep
    split at hstep
    · simp only [Option.some.injEq] at hstep
      subst hstep
      apply graceTimer_registryOK
      intro e he
      exact gameOK_of_same s _ e (le_refl _) rfl rfl rfl rfl (h e he)
    · cases hstep

theorem run_registryOK : ∀ (evs : List Event) (s t : State),
    run evs s = some t → RegistryOK s → RegistryOK t
  | [], s, t, hrun, h => by
    simp only [run, Option.some.injEq] at hrun
    subst hrun
    exact h
  | e :: es, s, t, hrun, h => by
    simp only [run] at hrun
    cases hs : step e s with
    | none =>
      rw [hs] at hrun
      cases hrun
    | some s1 =>
      rw [hs] at hrun
      exact run_registryOK es s1 t hrun (step_registryOK e s s1 hs h)

theorem reachable_registryOK (s : State) (h : Reachable s) : RegistryOK s := by
  obtain ⟨users, evs, hrun⟩ := h
  refine run_registryOK evs _ s hrun ?_
  intro e he
  cases he

theorem created_scores_zero (u1 u2 : Nat) :
    ∀ e ∈ setScore u2 (.num 0) (setScore u1 (.num 0) []), e.2 = JsNum.num 0 := by
  intro e he
  by_cases h12 : u1 = u2
  · subst h12
    simp only [setScore, if_true, List.mem_singleton] at he
    subst he
    rfl
  · by_cases hlt : u2 < u1
    · simp only [setScore, h12, hlt, if_false, if_true, List.mem_cons, List.mem_singleton,
        List.not_mem_nil, or_false] at he
      rcases he with he | he <;> (subst he; rfl)
    · simp only [setScore, h12, hlt, if_false, List.mem_cons, List.mem_singleton,
        List.not_mem_nil, or_false] at he
      rcases he with he | he <;> (subst he; rfl)

/-- C10 (amended): in every reachable state, for every registered session the keys
of the score mapping are exactly the owner ids of its two slots' participants, each
key once: two entries when the two owner ids differ, a single shared entry when
one owner holds both slots. Every entry is a count strictly below the winning
threshold 5. At creation by `findMatch` every entry is 0. Every turn of the event
loop (a `findMatch`, `cancelMatch`, `rejoinGame`, `playerUpdate`, `shoot`, `hit` or
unrecognised frame, a close, a grace-timer firing) preserves the registry
invariant `RegistryOK` from which this follows. -/
theorem registered_scores_invariant :
    (∀ s, Reachable s → ∀ id g, (id, g) ∈ s.activeGames →
      ((s.games g).scores.map Prod.fst).Nodup ∧
      (∀ k, k ∈ (s.games g).scores.map Prod.fst ↔
        (k = (s.conns (s.games g).player1).userId ∨
         k = (s.conns (s.games g).player2).userId)) ∧
      (∀ e ∈ (s.games g).scores, ∃ n, e.2 = JsNum.num n ∧ n < 5) ∧
      ((s.conns (s.games g).player1).userId ≠ (s.conns (s.games g).player2).userId →
        (s.games g).scores.length = 2)) ∧
    (∀ (s : State) (c h : ConnRef) (rest : List ConnRef) (now startNow : Nat),
      c ∉ s.waitingPlayers → (s.conns c).gameId = none → s.waitingPlayers = h :: rest →
      ∀ e ∈ ((findMatch c now startNow s).games s.nextGame).scores, e.2 = JsNum.num 0) ∧
    (∀ (ev : Event) (s t : State), step ev s = some t → RegistryOK s → RegistryOK t) := by
  refine ⟨?_, ?_, step_registryOK⟩
  · intro s hs id g hmem
    exact scoresOK_keys (reachable_registryOK s hs (id, g) hmem).2.2
  · intro s c h rest now startNow hq hg hw
    rw [findMatch_pair s c h rest now startNow hq hg hw]
    simp only [Function.update_same]
    exact created_scores_zero _ _

theorem registered_scores_invariant_witness :
    (Reachable (pairedState distinctUsers) ∧
     (100, 0) ∈ (pairedState distinctUsers).activeGames) ∧
    (((pairedState distinctUsers).games 0).scores.map Prod.fst).Nodup ∧
    ((pairedState distinctUsers).games 0).scores.length = 2 ∧
    (∀ e ∈ ((pairedState distinctUsers).games 0).scores, e.2 = JsNum.num 0) :=
  ⟨⟨reachable_of_run distinctUsers
      [.message 0 .findMatch 50 50, .message 1 .findMatch 100 100] _ rfl, by decide⟩,
   (registered_scores_invariant.1 (pairedState distinctUsers)
      (reachable_of_run distinctUsers
        [.message 0 .findMatch 50 50, .message 1 .findMatch 100 100] _ rfl)
      100 0 (by decide)).1,
   (registered_scores_invariant.1 (pairedState distinctUsers)
      (reachable_of_run distinctUsers
        [.message 0 .findMatch 50 50, .message 1 .findMatch 100 100] _ rfl)
      100 0 (by decide)).2.2.2 (by decide),
   registered_scores_invariant.2.1 (findMatch 0 50 50 (initState distinctUsers)) 1 0 []
      100 100 (by decide) rfl rfl⟩

/-! ## Hits below the threshold -/

/-- C11 (as stated, refuted): in the sample state where one user holds both slots
of session 100, a `hit` from connection 1 is resolved to that session with
connection 0 as opponent and the scorer's score 0; after the hit the score of the
opponent's owner is 1, not unchanged, because both owners share the one entry. -/
theorem hit_changes_shared_score_entry :
    (findGameByUser (pairedState sameUser) ((pairedState sameUser).conns 1).userId
        (pairedState sameUser).activeGames = some (100, 0, 0) ∧
     getScore ((pairedState sameUser).conns 1).userId
        ((pairedState sameUser).games 0).scores = some (.num 0)) ∧
    ¬ (getScore ((pairedState sameUser).conns 0).userId
         ((handleHit 1 (pairedState sameUser)).games 0).scores =
       getScore ((pairedState sameUser).conns 0).userId
         ((pairedState sameUser).games 0).scores) := by
  decide

/-- C11 (amended): for every `hit` by a connection `ws` that the owner-id scan
resolves to a registered session (key `id`, game object `g`, opponent connection
`opp`) in which the scorer's score is `n < 4`: the scorer's score becomes `n + 1`,
every other entry of the score mapping is unchanged (so the opponent's score is
unchanged whenever the opponent's owner id differs from the scorer's), the registry
is unchanged and still holds the session, the frames sent are `scoreUpdate` with the
new scores to the scorer, then, if the opponent's transport is open, the same
`scoreUpdate` and `died` to the opponent, then `scored` to the scorer; no `gameOver`
is sent and nothing is written to the store. -/
theorem hit_below_threshold (s : State) (ws : ConnRef) (id : Nat) (g : GameRef)
    (opp : ConnRef) (n : Nat)
    (hscan : findGameByUser s (s.conns ws).userId s.activeGames = some (id, g, opp))
    (hsc : getScore (s.conns ws).userId (s.games g).scores = some (.num n))
    (hn : n < 4) :
    getScore (s.conns ws).userId ((handleHit ws s).games g).scores = some (.num (n + 1)) ∧
    (∀ k, k ≠ (s.conns ws).userId →
      getScore k ((handleHit ws s).games g).scores = getScore k (s.games g).scores) ∧
    (handleHit ws s).activeGames = s.activeGames ∧
    (id, g) ∈ (handleHit ws s).activeGames ∧
    (handleHit ws s).sent = s.sent ++
      ((ws, Msg.scoreUpdate ((handleHit ws s).games g).scores) ::
       (if (s.conns opp).isOpen then
          [(opp, Msg.scoreUpdate ((handleHit ws s).games g).scores), (opp, Msg.died)]
        else []) ++ [(ws, Msg.scored)]) ∧
    (handleHit ws s).dbWrites = s.dbWrites := by
  have hge : ¬ (geFive (some (JsNum.num (n + 1))) = true) := by
    simp only [geFive, decide_eq_true_eq]
    omega
  have hinc : jsIncr (some (JsNum.num n)) = JsNum.num (n + 1) := rfl
  rw [handleHit_resolved s ws id g opp hscan, hsc, hinc, if_neg hge]
  refine ⟨?_, ?_, rfl, (findGameByUser_some s _ _ id g opp hscan).1, ?_, rfl⟩
  · simp only [Function.update_same]
    exact getScore_setScore_same _ _ _
  · intro k hk
    simp only [Function.update_same]
    exact getScore_setScore_other _ _ _ _ hk
  · simp only [Function.update_same]

theorem hit_below_threshold_witness :
    (findGameByUser (pairedState distinctUsers) ((pairedState distinctUsers).conns 1).userId
        (pairedState distinctUsers).activeGames = some (100, 0, 0) ∧
     getScore ((pairedState distinctUsers).conns 1).userId
        ((pairedState distinctUsers).games 0).scores = some (.num 0) ∧ 0 < 4) ∧
    getScore ((pairedState distinctUsers).conns 1).userId
      ((handleHit 1 (pairedState distinctUsers)).games 0).scores = some (.num (0 + 1)) ∧
    (handleHit 1 (pairedState distinctUsers)).activeGames =
      (pairedState distinctUsers).activeGames ∧
    (handleHit 1 (pairedState distinctUsers)).dbWrites =
      (pairedState distinctUsers).dbWrites :=
  ⟨⟨rfl, rfl, by decide⟩,
   (hit_below_threshold (pairedState distinctUsers) 1 100 0 0 0 rfl rfl (by decide)).1,
   (hit_below_threshold (pairedState distinctUsers) 1 100 0 0 0 rfl rfl (by decide)).2.2.1,
   (hit_below_threshold (pairedState distinctUsers) 1 100 0 0 0 rfl rfl
      (by decide)).2.2.2.2.2⟩

/-! ## `cancelMatch` -/

/-- C12: `cancelMatch(c)`: if `c` is in the waiting queue, the queue splits as
`pre ++ c :: post` with `c` not in `pre`, the new queue is `pre ++ post` (exactly
that entry removed, the order of the others kept) and the only frame sent is
`searchCancelled` to `c`; if `c` is not in the queue, the state is unchanged. In
both cases the registry, every game object, every connection and the store are
unchanged. -/
theorem cancelMatch_spec (s : State) (c : ConnRef) :
    (c ∈ s.waitingPlayers →
      ∃ pre post, s.waitingPlayers = pre ++ c :: post ∧ c ∉ pre ∧
        (cancelMatch c s).waitingPlayers = pre ++ post ∧
        (cancelMatch c s).sent = s.sent ++ [(c, Msg.searchCancelled)]) ∧
    (c ∉ s.waitingPlayers → cancelMatch c s = s) ∧
    (cancelMatch c s).activeGames = s.activeGames ∧
    (cancelMatch c s).games = s.games ∧
    (cancelMatch c s).conns = s.conns ∧
    (cancelMatch c s).dbWrites = s.dbWrites := by
  by_cases h : c ∈ s.waitingPlayers
  · obtain ⟨pre, post, hpre, hsplit, herase⟩ := List.exists_erase_eq h
    refine ⟨fun _ => ⟨pre, post, hsplit, hpre, ?_, ?_⟩, fun hn => absurd h hn, ?_, ?_, ?_, ?_⟩
    · simp only [cancelMatch, if_pos h, State.send]
      exact herase
    all_goals simp only [cancelMatch, if_pos h, State.send]
  · refine ⟨fun hm => absurd hm h, fun _ => ?_, ?_, ?_, ?_, ?_⟩
    all_goals simp only [cancelMatch, if_neg h]

theorem cancelMatch_spec_witness :
    (0 ∈ (findMatch 0 50 50 (initState distinctUsers)).waitingPlayers ∧
     (cancelMatch 0 (findMatch 0 50 50 (initState distinctUsers))).activeGames =
       (findMatch 0 50 50 (initState distinctUsers)).activeGames) ∧
    (1 ∉ (findMatch 0 50 50 (initState distinctUsers)).waitingPlayers ∧
     cancelMatch 1 (findMatch 0 50 50 (initState distinctUsers)) =
       findMatch 0 50 50 (initState distinctUsers)) :=
  ⟨⟨by decide, (cancelMatch_spec (findMatch 0 50 50 (initState distinctUsers)) 0).2.2.1⟩,
   ⟨by decide,
    (cancelMatch_spec (findMatch 0 50 50 (initState distinctUsers)) 1).2.1 (by decide)⟩⟩

/-! ## Persistence writes -/

theorem graceTimer_fire (s : State) (ws : ConnRef) (g : GameRef) (gid : Nat) (g0 : GameRef)
    (hid : (s.conns ws).gameId = some gid) (hreg : mapGet gid s.activeGames = some g0)
    (hcond : ((s.games g).player1 = ws ∧ (s.games g).player1Disconnected = true) ∨
             ((s.games g).player2 = ws ∧ (s.games g).player2Disconnected = true)) :
    graceTimer ws g s =
      if (s.conns (if (s.games g).player1 = ws then (s.games g).player2
                   else (s.games g).player1)).isOpen = true then
        (endGame g (s.conns (if (s.games g).player1 = ws then (s.games g).player2
                             else (s.games g).player1)).userId s).send
          (if (s.games g).player1 = ws then (s.games g).player2 else (s.games g).player1)
          (.opponentDisconnected "Opponent disconnected. You win!")
      else { s with activeGames := mapDelete gid s.activeGames } := by
  unfold graceTimer
  simp only [hid, hreg, if_pos hcond]

theorem endGame_dbWrites (s : State) (g : GameRef) (winnerId : Nat) :
    (endGame g winnerId s).dbWrites = s.dbWrites ++
      [{ player1_id := (s.conns (s.games g).player1).userId
         player2_id := (s.conns (s.games g).player2).userId
         winner_id := winnerId
         player1_score := getScore (s.conns (s.games g).player1).userId (s.games g).scores
         player2_score := getScore (s.conns (s.games g).player2).userId (s.games g).scores }] :=
  rfl

/-- C13: every transition of a session to Finished emits exactly one persistence
write. (1) When a `hit` by `ws` is resolved to the session `g` and the scorer's
score is `n` with `4 ≤ n`, the store receives exactly one new row: the owner ids of
the two slots, the winner id, which is the owner id of `ws` and equals one of the
two, and the two scores read from the session's score mapping after the increment.
(2) When the grace timer of `ws` fires with the session id of `ws` registered, a
slot of the captured game still bound to `ws` with its marker set, and the other
connection's transport open, the store receives exactly one new row: the two
owner ids, the winner id, which is the other connection's owner id and equals one
of the two, and the two scores from the score mapping. (3) In the same situation
with the other transport not open (the discard path), nothing is written. -/
theorem finished_session_written_once :
    (∀ (s : State) (ws : ConnRef) (id : Nat) (g : GameRef) (opp : ConnRef) (n : Nat),
      findGameByUser s (s.conns ws).userId s.activeGames = some (id, g, opp) →
      getScore (s.conns ws).userId (s.games g).scores = some (.num n) → 4 ≤ n →
      (handleHit ws s).dbWrites = s.dbWrites ++
        [{ player1_id := (s.conns (s.games g).player1).userId
           player2_id := (s.conns (s.games g).player2).userId
           winner_id := (s.conns ws).userId
           player1_score := getScore (s.conns (s.games g).player1).userId
             ((handleHit ws s).games g).scores
           player2_score := getScore (s.conns (s.games g).player2).userId
             ((handleHit ws s).games g).scores }] ∧
      ((s.conns ws).userId = (s.conns (s.games g).player1).userId ∨
       (s.conns ws).userId = (s.conns (s.games g).player2).userId)) ∧
    (∀ (s : State) (ws : ConnRef) (g : GameRef) (gid : Nat) (g0 : GameRef) (sl : Slot),
      (s.conns ws).gameId = some gid → mapGet gid s.activeGames = some g0 →
      (s.games g).slotConn sl = ws → (s.games g).slotMarker sl = true →
      (s.conns ((s.games g).slotConn sl.other)).isOpen = true →
      (graceTimer ws g s).dbWrites = s.dbWrites ++
        [{ player1_id := (s.conns (s.games g).player1).userId
           player2_id := (s.conns (s.games g).player2).userId
           winner_id := (s.conns ((s.games g).slotConn sl.other)).userId
           player1_score := getScore (s.conns (s.games g).player1).userId (s.games g).scores
           player2_score := getScore (s.conns (s.games g).player2).userId
             (s.games g).scores }]) ∧
    (∀ (s : State) (ws : ConnRef) (g : GameRef) (gid : Nat) (g0 : GameRef) (sl : Slot),
      (s.conns ws).gameId = some gid → mapGet gid s.activeGames = some g0 →
      (s.games g).slotConn sl = ws → (s.games g).slotMarker sl = true →
      (s.conns ((s.games g).slotConn sl.other)).isOpen = false →
      (graceTimer ws g s).dbWrites = s.dbWrites) := by
  have hopp : ∀ (s : State) (ws : ConnRef) (g : GameRef) (sl : Slot),
      (s.games g).slotConn sl = ws →
      (if (s.games g).player1 = ws then (s.games g).player2 else (s.games g).player1)
        = (s.games g).slotConn sl.other := by
    intro s ws g sl hslot
    cases sl with
    | one =>
      have h1 : (s.games g).player1 = ws := hslot
      simp [h1, Game.slotConn, Slot.other]
    | two =>
      have h2 : (s.games g).player2 = ws := hslot
      by_cases h1 : (s.games g).player1 = ws
      · simp [h1, h2, Game.slotConn, Slot.other]
      · simp [h1, Game.slotConn, Slot.other]
  have hcond : ∀ (s : State) (ws : ConnRef) (g : GameRef) (sl : Slot),
      (s.games g).slotConn sl = ws → (s.games g).slotMarker sl = true →
      ((s.games g).player1 = ws ∧ (s.games g).player1Disconnected = true) ∨
      ((s.games g).player2 = ws ∧ (s.games g).player2Disconnected = true) := by
    intro s ws g sl hslot hmark
    cases sl with
    | one => exact Or.inl ⟨hslot, hmark⟩
    | two => exact Or.inr ⟨hslot, hmark⟩
  refine ⟨?_, ?_, ?_⟩
  · intro s ws id g opp n hscan hsc hn
    have how := (findGameByUser_some s _ _ id g opp hscan).2
    have hge : geFive (some (JsNum.num (n + 1))) = true := by
      simp only [geFive, decide_eq_true_eq]
      omega
    have hinc : jsIncr (some (JsNum.num n)) = JsNum.num (n + 1) := rfl
    constructor
    · rw [handleHit_resolved s ws id g opp hscan, hsc, hinc, if_pos hge, endGame_dbWrites,
        endGame_games]
      simp only [Function.update_same, update_gameId_userId]
    · rcases how with how | how
      · exact Or.inl how.symm
      · exact Or.inr how.symm
  · intro s ws g gid g0 sl hid hreg hslot hmark hopen
    rw [graceTimer_fire s ws g gid g0 hid hreg (hcond s ws g sl hslot hmark),
      hopp s ws g sl hslot, if_pos hopen]
    exact endGame_dbWrites s g _
  · intro s ws g gid g0 sl hid hreg hslot hmark hopen
    rw [graceTimer_fire s ws g gid g0 hid hreg (hcond s ws g sl hslot hmark),
      hopp s ws g sl hslot, if_neg (by simp [hopen])]

theorem finished_session_written_once_witness :
    ((closedOneState.conns 1).gameId = some 100 ∧
     mapGet 100 closedOneState.activeGames = some 0 ∧
     (closedOneState.games 0).slotConn .one = 1 ∧
     (closedOneState.games 0).slotMarker .one = true ∧
     (closedOneState.conns ((closedOneState.games 0).slotConn Slot.one.other)).isOpen
       = true) ∧
    (graceTimer 1 0 closedOneState).dbWrites =
      [{ player1_id := 11, player2_id := 10, winner_id := 10,
         player1_score := some (.num 0), player2_score := some (.num 0) }] ∧
    ((closedBothState.conns 1).gameId = some 100 ∧
     mapGet 100 closedBothState.activeGames = some 0 ∧
     (closedBothState.games 0).slotConn .one = 1 ∧
     (closedBothState.games 0).slotMarker .one = true ∧
     (closedBothState.conns ((closedBothState.games 0).slotConn Slot.one.other)).isOpen
       = false) ∧
    (graceTimer 1 0 closedBothState).dbWrites = closedBothState.dbWrites :=
  ⟨⟨rfl, rfl, rfl, rfl, rfl⟩,
   finished_session_written_once.2.1 closedOneState 1 0 100 0 .one rfl rfl rfl rfl rfl,
   ⟨rfl, rfl, rfl, rfl, rfl⟩,
   finished_session_written_once.2.2 closedBothState 1 0 100 0 .one rfl rfl rfl rfl rfl⟩

/-! ## Stale relays -/

theorem findGameByUser_none (s : State) (uid : Nat) (m : List (Nat × GameRef))
    (h : ∀ e ∈ m, (s.conns (s.games e.2).player1).userId ≠ uid ∧
                  (s.conns (s.games e.2).player2).userId ≠ uid) :
    findGameByUser s uid m = none := by
  have := findGameByUser_append s uid [] m h
  rw [List.append_nil] at this
  exact this

/-- C14: a `playerUpdate` or `hit` from a connection whose owner id matches no slot
of any registered session, and a `shoot` from a connection that has no session id
or whose session id is not in the registry, returns the state unchanged: queue,
registry, every game object, every connection (so the sender's session id too)
are as before, no frame is sent and nothing is written. -/
theorem stale_relay_dropped :
    (∀ (s : State) (ws : ConnRef) (position rotation : Payload),
      (∀ e ∈ s.activeGames,
        (s.conns (s.games e.2).player1).userId ≠ (s.conns ws).userId ∧
        (s.conns (s.games e.2).player2).userId ≠ (s.conns ws).userId) →
      broadcastPlayerUpdate ws position rotation s = s ∧ handleHit ws s = s) ∧
    (∀ (s : State) (ws : ConnRef) (position direction : Payload),
      (∀ k, (s.conns ws).gameId = some k → mapGet k s.activeGames = none) →
      handleShoot ws position direction s = s) := by
  constructor
  · intro s ws position rotation h
    have hnone := findGameByUser_none s _ _ h
    constructor
    · unfold broadcastPlayerUpdate
      simp only [hnone]
    · exact handleHit_unresolved s ws hnone
  · intro s ws position direction h
    unfold handleShoot
    cases hid : (s.conns ws).gameId with
    | none => rfl
    | some k => simp only [h k hid]

theorem stale_relay_dropped_witness :
    ((∀ e ∈ (pairedState distinctUsers).activeGames,
        ((pairedState distinctUsers).conns
          (((pairedState distinctUsers).games e.2).player1)).userId
          ≠ ((pairedState distinctUsers).conns 5).userId ∧
        ((pairedState distinctUsers).conns
          (((pairedState distinctUsers).games e.2).player2)).userId
          ≠ ((pairedState distinctUsers).conns 5).userId) ∧
     broadcastPlayerUpdate 5 "p" "r" (pairedState distinctUsers) = pairedState distinctUsers ∧
     handleHit 5 (pairedState distinctUsers) = pairedState distinctUsers) ∧
    ((abandonedState.conns 0).gameId = some 100 ∧
     mapGet 100 abandonedState.activeGames = none ∧
     handleShoot 0 "p" "d" abandonedState = abandonedState) :=
  ⟨⟨by decide,
    stale_relay_dropped.1 (pairedState distinctUsers) 5 "p" "r" (by decide)⟩,
   ⟨rfl, rfl, stale_relay_dropped.2 abandonedState 0 "p" "d" (fun _ _ => rfl)⟩⟩

/-! ## Heartbeat -/

theorem hbRun_none : ∀ es : List HbEvent, hbRun es none = none
  | [] => rfl
  | _ :: es => hbRun_none es

theorem hbRun_append (es1 es2 : List HbEvent) :
    ∀ st, hbRun (es1 ++ es2) st = hbRun es2 (hbRun es1 st) := by
  induction es1 with
  | nil => intro st; rfl
  | cons e es ih => intro st; exact ih (hbStep e st)

theorem hbRun_alive :
    ∀ (es : List HbEvent) (c : Conn),
      (c.isAlive = true ∨ es.head? ≠ some HbEvent.cycle) →
      es.Chain' (fun a b => ¬ (a = HbEvent.cycle ∧ b = HbEvent.cycle)) →
      (hbRun es (some c)).isSome = true
  | [], _, _, _ => rfl
  | HbEvent.pong :: es, c, _, hch => by
    exact hbRun_alive es (onPong c) (Or.inl rfl) (List.Chain'.tail hch)
  | HbEvent.cycle :: es, c, hc, hch => by
    have halive : c.isAlive = true := by
      rcases hc with hc | hc
      · exact hc
      · exact absurd rfl hc
    have hstep : hbStep HbEvent.cycle (some c) = some { c with isAlive := false } := by
      simp [hbStep, heartbeatClient, halive]
    show (hbRun es (hbStep HbEvent.cycle (some c))).isSome = true
    rw [hstep]
    refine hbRun_alive es _ (Or.inr ?_) (List.Chain'.tail hch)
    cases es with
    | nil => simp
    | cons e2 es2 =>
      intro he
      simp only [List.head?_cons, Option.some.injEq] at he
      exact (List.chain'_cons.1 hch).1 ⟨rfl, he⟩

/-- C15: with a heartbeat cycle on one client modelled as `heartbeatClient`
(terminate if the flag `isAlive` is false, otherwise clear the flag and ping) and
a pong as `onPong` (set the flag): a client set up with the flag true that
receives a pong between every two consecutive cycles (no two cycles are adjacent
in its sequence of liveness events) is never terminated by the heartbeat; and a
client that has survived a cycle and receives no pong before the next cycle is
terminated by that next cycle. -/
theorem heartbeat_liveness :
    (∀ (es : List HbEvent) (c : Conn), c.isAlive = true →
      es.Chain' (fun a b => ¬ (a = HbEvent.cycle ∧ b = HbEvent.cycle)) →
      (hbRun es (some c)).isSome = true) ∧
    (∀ (pre : List HbEvent) (c c1 : Conn),
      hbRun (pre ++ [HbEvent.cycle]) (some c) = some c1 →
      hbRun (pre ++ [HbEvent.cycle, HbEvent.cycle]) (some c) = none) := by
  constructor
  · intro es c hc hch
    exact hbRun_alive es c (Or.inl hc) hch
  · intro pre c c1 h
    rw [hbRun_append] at h
    rw [hbRun_append]
    cases hst : hbRun pre (some c) with
    | none =>
      rw [hst] at h
      cases h
    | some c0 =>
      rw [hst] at h
      by_cases ha : c0.isAlive = false
      · simp [hbRun, hbStep, heartbeatClient, ha] at h
      · simp [hbRun, hbStep, heartbeatClient, ha]

theorem heartbeat_liveness_witness :
    (((freshConn 10 "p").isAlive = true ∧
      [HbEvent.cycle, .pong, .cycle, .pong, .pong, .cycle].Chain'
        (fun a b => ¬ (a = HbEvent.cycle ∧ b = HbEvent.cycle))) ∧
     (hbRun [HbEvent.cycle, .pong, .cycle, .pong, .pong, .cycle]
        (some (freshConn 10 "p"))).isSome = true) ∧
    (hbRun ([HbEvent.cycle, .pong] ++ [HbEvent.cycle]) (some (freshConn 10 "p")) =
       some { freshConn 10 "p" with isAlive := false } ∧
     hbRun ([HbEvent.cycle, .pong] ++ [HbEvent.cycle, HbEvent.cycle])
       (some (freshConn 10 "p")) = none) :=
  ⟨⟨⟨rfl, by simp⟩,
    heartbeat_liveness.1 [HbEvent.cycle, .pong, .cycle, .pong, .pong, .cycle]
      (freshConn 10 "p") rfl (by simp)⟩,
   ⟨rfl, heartbeat_liveness.2 [HbEvent.cycle, .pong] (freshConn 10 "p")
      { freshConn 10 "p" with isAlive := false } rfl⟩⟩

/-! ## Relaying a shot -/

/-- C16 (the code at the failing input): in the sample state the session id of
connection 2 resolves to the registered session 100, the owner id of connection 2
is that of slot 1 (connection 1), and the other slot holds connection 0, whose
transport is open. A `shoot` from connection 2 sends `opponentShoot` to
connection 1, the connection bound to the slot of the sender's own owner, and
sends nothing to connection 0. -/
theorem shoot_from_second_connection_hits_own_slot :
    ((secondTabState.conns 2).gameId = some 100 ∧
     mapGet 100 secondTabState.activeGames = some 0 ∧
     (secondTabState.conns 2).userId
       = (secondTabState.conns (secondTabState.games 0).player1).userId ∧
     (secondTabState.games 0).player1 = 1 ∧ (secondTabState.games 0).player2 = 0 ∧
     (secondTabState.conns 0).isOpen = true) ∧
    (handleShoot 2 "pos" "dir" secondTabState).sent =
      secondTabState.sent ++ [(1, Msg.opponentShoot "pos" "dir")] := by
  decide

/-! ## Session ids of slot connections -/

theorem update_gameId_gameId (conns : ConnRef → Conn) (c x : ConnRef) (v : Option Nat) :
    (Function.update conns c { conns c with gameId := v } x).gameId
      = if x = c then v else (conns x).gameId := by
  by_cases h : x = c
  · subst h
    simp
  · simp [Function.update_noteq h, h]

theorem lastGame_congr (s t : State) (hn : t.nextGame = s.nextGame)
    (hp : ∀ g, (t.games g).player1 = (s.games g).player1 ∧
               (t.games g).player2 = (s.games g).player2)
    (x : ConnRef) (g : Nat) : LastGame t x g ↔ LastGame s x g := by
  unfold LastGame slotOf
  rw [hn]
  constructor
  · intro h g2 hlt hs
    exact h g2 hlt (by rw [(hp g2).1, (hp g2).2]; exact hs)
  · intro h g2 hlt hs
    exact h g2 hlt (by rw [← (hp g2).1, ← (hp g2).2]; exact hs)

theorem lastGame_unique (s : State) (x : ConnRef) (g1 g2 : Nat)
    (h1 : LastGame s x g1) (h2 : LastGame s x g2)
    (l1 : g1 < s.nextGame) (l2 : g2 < s.nextGame)
    (s1 : slotOf s g1 x) (s2 : slotOf s g2 x) : g1 = g2 :=
  Nat.le_antisymm (h2 g1 l1 s1) (h1 g2 l2 s2)

theorem sessionsOK_of_fields (s t : State) (h : SessionsOK s)
    (hn : t.nextGame = s.nextGame)
    (hp : ∀ g, (t.games g).player1 = (s.games g).player1 ∧
               (t.games g).player2 = (s.games g).player2 ∧
               (t.games g).id = (s.games g).id)
    (hc : ∀ x, (t.conns x).gameId = (s.conns x).gameId ∧
               (t.conns x).userId = (s.conns x).userId)
    (hql : t.waitingPlayers.length ≤ 1)
    (hqf : ∀ c ∈ t.waitingPlayers, (t.conns c).gameId = none ∧ (t.conns c).isOpen = true)
    (ha : ∀ e ∈ t.activeGames, e ∈ s.activeGames)
    (ht : ∀ e ∈ t.timers, (t.conns e.1).isOpen = false ∧ e.2 < s.nextGame ∧
      (slotOf s e.2 e.1 → LastGame s e.1 e.2)) : SessionsOK t := by
  have hl : ∀ x g, LastGame t x g ↔ LastGame s x g :=
    lastGame_congr s t hn (fun g => ⟨(hp g).1, (hp g).2.1⟩)
  refine ⟨?_, hql, hqf, ?_, ?_, ?_⟩
  · intro x y hxy
    rw [(hc x).2, (hc y).2] at hxy
    exact h.inj x y hxy
  · intro e he
    obtain ⟨h1, h2, h3, h4, h5, h6⟩ := h.reg e (ha e he)
    rw [hn, (hp e.2).1, (hp e.2).2.1, (hp e.2).2.2, (hc _).1, (hc _).1, hl, hl]
    exact ⟨h1, h2, h3, h4, h5, h6⟩
  · intro e he
    obtain ⟨h1, h2, h3⟩ := ht e he
    rw [hn, hl]
    refine ⟨h1, h2, fun hs => h3 ?_⟩
    unfold slotOf at hs ⊢
    rw [(hp e.2).1, (hp e.2).2.1] at hs
    exact hs
  · intro g hg
    rw [hn] at hg
    unfold Bound
    rw [(hp g).1, (hp g).2.1, (hc _).1, (hc _).1, hl, hl]
    exact h.pairs g hg

theorem sessionsOK_mono (s t : State) (h : SessionsOK s)
    (hn : t.nextGame = s.nextGame)
    (hp : ∀ g, (t.games g).player1 = (s.games g).player1 ∧
               (t.games g).player2 = (s.games g).player2 ∧
               (t.games g).id = (s.games g).id)
    (hc : ∀ x, (t.conns x).gameId = (s.conns x).gameId ∧
               (t.conns x).isOpen = (s.conns x).isOpen ∧
               (t.conns x).userId = (s.conns x).userId)
    (hq : t.waitingPlayers.Sublist s.waitingPlayers)
    (ha : ∀ e ∈ t.activeGames, e ∈ s.activeGames)
    (ht : ∀ e ∈ t.timers, e ∈ s.timers) : SessionsOK t := by
  refine sessionsOK_of_fields s t h hn hp (fun x => ⟨(hc x).1, (hc x).2.2⟩)
    (le_trans hq.length_le h.queue_le) ?_ ha ?_
  · intro c hcm
    rw [(hc c).1, (hc c).2.1]
    exact h.queue_free c (hq.subset hcm)
  · intro e he
    rw [(hc _).2.1]
    exact h.timers e (ht e he)

theorem send_sessionsOK (s : State) (c : ConnRef) (m : Msg) (h : SessionsOK s) :
    SessionsOK (s.send c m) :=
  sessionsOK_mono s _ h rfl (fun _ => ⟨rfl, rfl, rfl⟩) (fun _ => ⟨rfl, rfl, rfl⟩)
    (List.Sublist.refl _) (fun _ he => he) (fun _ he => he)

theorem sendIfOpen_sessionsOK (s : State) (c : ConnRef) (m : Msg) (h : SessionsOK s) :
    SessionsOK (s.sendIfOpen c m) := by
  unfold State.sendIfOpen
  split
  · exact send_sessionsOK s c m h
  · exact h

theorem scan_slot (s : State) (h : SessionsOK s) (ws : ConnRef) (id : Nat) (g : GameRef)
    (opp : ConnRef)
    (hscan : findGameByUser s (s.conns ws).userId s.activeGames = some (id, g, opp)) :
    (id, g) ∈ s.activeGames ∧ slotOf s g ws ∧ (s.conns ws).gameId = some id := by
  obtain ⟨hmem, how⟩ := findGameByUser_some s _ _ id g opp hscan
  obtain ⟨_, _, h3, h4, _, _⟩ := h.reg (id, g) hmem
  rcases how with how | how
  · have e := h.inj _ _ how
    exact ⟨hmem, Or.inl e, by rw [← e]; exact h3⟩
  · have e := h.inj _ _ how
    exact ⟨hmem, Or.inr e, by rw [← e]; exact h4⟩

theorem setGameId_same_sessionsOK (s : State) (c : ConnRef) (id : Nat) (h : SessionsOK s)
    (hid : (s.conns c).gameId = some id) : SessionsOK (s.setGameId c (some id)) := by
  refine sessionsOK_mono s _ h rfl (fun _ => ⟨rfl, rfl, rfl⟩) ?_
    (List.Sublist.refl _) (fun _ he => he) (fun _ he => he)
  intro x
  refine ⟨?_, update_gameId_isOpen _ _ _ _, update_gameId_userId _ _ _ _⟩
  show (Function.update s.conns c { s.conns c with gameId := some id } x).gameId = _
  rw [update_gameId_gameId]
  by_cases hx : x = c
  · rw [if_pos hx, hx, hid]
  · rw [if_neg hx]

theorem cancelMatch_sessionsOK (s : State) (c : ConnRef) (h : SessionsOK s) :
    SessionsOK (cancelMatch c s) := by
  unfold cancelMatch
  split
  · exact sessionsOK_mono s _ h rfl (fun _ => ⟨rfl, rfl, rfl⟩) (fun _ => ⟨rfl, rfl, rfl⟩)
      (List.erase_sublist _ _) (fun _ he => he) (fun _ he => he)
  · exact h

theorem broadcastPlayerUpdate_sessionsOK (s : State) (ws : ConnRef)
    (position rotation : Payload) (h : SessionsOK s) :
    SessionsOK (broadcastPlayerUpdate ws position rotation s) := by
  unfold broadcastPlayerUpdate
  split
  · exact h
  · rename_i id g opp hscan
    exact sendIfOpen_sessionsOK _ _ _
      (setGameId_same_sessionsOK s ws id h (scan_slot s h ws id g opp hscan).2.2)

theorem handleShoot_sessionsOK (s : State) (ws : ConnRef)
    (position direction : Payload) (h : SessionsOK s) :
    SessionsOK (handleShoot ws position direction s) := by
  unfold handleShoot
  split
  · exact h
  · split
    · exact h
    · exact sendIfOpen_sessionsOK _ _ _ h

theorem updateGame_sessionsOK (s : State) (g : GameRef) (G : Game) (h : SessionsOK s)
    (h1 : G.player1 = (s.games g).player1) (h2 : G.player2 = (s.games g).player2)
    (h3 : G.id = (s.games g).id) :
    SessionsOK { s with games := Function.update s.games g G } := by
  refine sessionsOK_mono s _ h rfl ?_ (fun _ => ⟨rfl, rfl, rfl⟩)
    (List.Sublist.refl _) (fun _ he => he) (fun _ he => he)
  intro g2
  by_cases hg : g2 = g
  · subst hg
    simp only [Function.update_same]
    exact ⟨h1, h2, h3⟩
  · simp [Function.update_noteq hg]

theorem rejoinGame_sessionsOK (s : State) (w : ConnRef) (id : Nat) (h : SessionsOK s) :
    SessionsOK (rejoinGame w id s) := by
  unfold rejoinGame
  split
  · exact send_sessionsOK _ _ _ h
  · rename_i g hget
    have hmem := mapGet_mem hget
    obtain ⟨_, _, r3, r4, _, _⟩ := h.reg (id, g) hmem
    by_cases h1 : (s.conns (s.games g).player1).userId = (s.conns w).userId
    · have e : (s.games g).player1 = w := h.inj _ _ h1
      rw [if_pos h1]
      refine send_sessionsOK _ _ _ (setGameId_same_sessionsOK _ w id
        (updateGame_sessionsOK s g _ h e.symm rfl rfl) ?_)
      rw [← e]
      exact r3
    · by_cases h2 : (s.conns (s.games g).player2).userId = (s.conns w).userId
      · have e : (s.games g).player2 = w := h.inj _ _ h2
        rw [if_neg h1, if_pos h2]
        refine send_sessionsOK _ _ _ (setGameId_same_sessionsOK _ w id
          (updateGame_sessionsOK s g _ h rfl e.symm rfl) ?_)
        rw [← e]
        exact r4
      · rw [if_neg h1, if_neg h2]
        exact send_sessionsOK _ _ _ h

theorem endGame_gameId (s : State) (g : GameRef) (winnerId : Nat) (x : ConnRef) :
    ((endGame g winnerId s).conns x).gameId =
      if x = (s.games g).player1 ∨ x = (s.games g).player2 then none
      else (s.conns x).gameId := by
  have e : ((endGame g winnerId s).conns x).gameId =
      if x = (s.games g).player2 then none
      else ((s.setGameId (s.games g).player1 none).conns x).gameId :=
    update_gameId_gameId _ _ _ _
  have e2 : ((s.setGameId (s.games g).player1 none).conns x).gameId =
      if x = (s.games g).player1 then none else (s.conns x).gameId :=
    update_gameId_gameId _ _ _ _
  rw [e, e2]
  by_cases h2 : x = (s.games g).player2
  · simp [h2]
  · by_cases h1 : x = (s.games g).player1
    · simp [h1]
    · simp [h1, h2]

theorem endGame_isOpen (s : State) (g : GameRef) (winnerId : Nat) (x : ConnRef) :
    ((endGame g winnerId s).conns x).isOpen = (s.conns x).isOpen :=
  (update_gameId_isOpen _ _ _ _).trans (update_gameId_isOpen _ _ _ _)

theorem endGame_sessionsOK (s : State) (g : Nat) (winnerId : Nat) (h : SessionsOK s)
    (hg : g < s.nextGame)
    (h1 : LastGame s (s.games g).player1 g) (h2 : LastGame s (s.games g).player2 g) :
    SessionsOK (endGame g winnerId s) := by
  have hl : ∀ x g2, LastGame (endGame g winnerId s) x g2 ↔ LastGame s x g2 :=
    lastGame_congr s _ rfl (fun _ => ⟨rfl, rfl⟩)
  have hslot : ∀ x, (x = (s.games g).player1 ∨ x = (s.games g).player2) →
      slotOf s g x ∧ LastGame s x g := by
    intro x hx
    rcases hx with hx | hx
    · exact ⟨Or.inl hx.symm, hx ▸ h1⟩
    · exact ⟨Or.inr hx.symm, hx ▸ h2⟩
  have hbound : ∀ (x : ConnRef) (g2 : Nat), g2 < s.nextGame → g2 ≠ g → slotOf s g2 x →
      (Bound (endGame g winnerId s) x g2 ↔ Bound s x g2) := by
    intro x g2 hlt hne hs2
    unfold Bound
    rw [hl, endGame_gameId]
    by_cases hx : x = (s.games g).player1 ∨ x = (s.games g).player2
    · rw [if_pos hx]
      obtain ⟨hs, hlast⟩ := hslot x hx
      constructor
      · intro hb
        exact absurd rfl hb.1
      · intro hb
        exact absurd (lastGame_unique s x g2 g hb.2 hlast hlt hg hs2 hs) hne
    · rw [if_neg hx]
  refine ⟨?_, h.queue_le, ?_, ?_, ?_, ?_⟩
  · intro x y hxy
    rw [endGame_userId, endGame_userId] at hxy
    exact h.inj x y hxy
  · intro c hc
    obtain ⟨q1, q2⟩ := h.queue_free c hc
    rw [endGame_gameId, endGame_isOpen]
    refine ⟨?_, q2⟩
    split
    · rfl
    · exact q1
  · intro e he
    rw [endGame_activeGames] at he
    obtain ⟨hmem, hne⟩ := mem_mapDelete he
    obtain ⟨r1, r2, r3, r4, r5, r6⟩ := h.reg e hmem
    have hge : e.2 ≠ g := by
      intro e2
      apply hne
      rw [← r2, e2]
    have n1 : ¬ ((s.games e.2).player1 = (s.games g).player1 ∨
        (s.games e.2).player1 = (s.games g).player2) := by
      intro hx
      obtain ⟨hs, hlast⟩ := hslot _ hx
      exact hge (lastGame_unique s _ e.2 g r5 hlast r1 hg (Or.inl rfl) hs)
    have n2 : ¬ ((s.games e.2).player2 = (s.games g).player1 ∨
        (s.games e.2).player2 = (s.games g).player2) := by
      intro hx
      obtain ⟨hs, hlast⟩ := hslot _ hx
      exact hge (lastGame_unique s _ e.2 g r6 hlast r1 hg (Or.inr rfl) hs)
    rw [endGame_games, endGame_nextGame, endGame_gameId, endGame_gameId, if_neg n1,
      if_neg n2, hl, hl]
    exact ⟨r1, r2, r3, r4, r5, r6⟩
  · intro t ht
    obtain ⟨t1, t2, t3⟩ := h.timers t ht
    rw [endGame_isOpen, endGame_nextGame, hl]
    exact ⟨t1, t2, t3⟩
  · intro g2 hlt
    rw [endGame_nextGame] at hlt
    rw [endGame_games]
    by_cases hne : g2 = g
    · subst hne
      unfold Bound
      rw [endGame_gameId, endGame_gameId, if_pos (Or.inl rfl), if_pos (Or.inr rfl)]
      constructor
      · intro hb
        exact absurd rfl hb.1
      · intro hb
        exact absurd rfl hb.1
    · rw [hbound _ g2 hlt hne (Or.inl rfl), hbound _ g2 hlt hne (Or.inr rfl)]
      exact h.pairs g2 hlt

theorem handleHit_sessionsOK (s : State) (ws : ConnRef) (h : SessionsOK s) :
    SessionsOK (handleHit ws s) := by
  cases hs : findGameByUser s (s.conns ws).userId s.activeGames with
  | none =>
    rw [handleHit_unresolved s ws hs]
    exact h
  | some r =>
    obtain ⟨id, g, opp⟩ := r
    obtain ⟨hmem, _, hgid⟩ := scan_slot s h ws id g opp hs
    have hmid : ∀ (sc : Scores) (out : List (ConnRef × Msg)),
        SessionsOK { s with
          conns := Function.update s.conns ws { s.conns ws with gameId := some id }
          games := Function.update s.games g { s.games g with scores := sc }
          sent := out } := by
      intro sc out
      refine sessionsOK_mono s _ h rfl ?_ ?_ (List.Sublist.refl _)
        (fun _ he => he) (fun _ he => he)
      · intro g2
        by_cases hg : g2 = g
        · subst hg
          simp
        · simp [Function.update_noteq hg]
      · intro x
        refine ⟨?_, update_gameId_isOpen _ _ _ _, update_gameId_userId _ _ _ _⟩
        show (Function.update s.conns ws { s.conns ws with gameId := some id } x).gameId = _
        rw [update_gameId_gameId]
        by_cases hx : x = ws
        · rw [if_pos hx, hx, hgid]
        · rw [if_neg hx]
    rw [handleHit_resolved s ws id g opp hs]
    split
    · have hm := hmid (setScore (s.conns ws).userId
          (jsIncr (getScore (s.conns ws).userId (s.games g).scores)) (s.games g).scores)
        (s.sent ++
          ((ws, Msg.scoreUpdate (setScore (s.conns ws).userId
              (jsIncr (getScore (s.conns ws).userId (s.games g).scores))
              (s.games g).scores)) ::
           (if (s.conns opp).isOpen then
              [(opp, Msg.scoreUpdate (setScore (s.conns ws).userId
                (jsIncr (getScore (s.conns ws).userId (s.games g).scores))
                (s.games g).scores))]
            else [])))
      obtain ⟨r1, _, _, _, r5, r6⟩ := hm.reg (id, g) hmem
      exact endGame_sessionsOK _ g _ hm r1 r5 r6
    · exact hmid _ _

theorem findMatch_pair_gameId (s : State) (c o : ConnRef) (v : Option Nat) (x : ConnRef) :
    (Function.update (Function.update s.conns c { s.conns c with gameId := v }) o
      { s.conns o with gameId := v } x).gameId
      = if x = o ∨ x = c then v else (s.conns x).gameId := by
  by_cases h : x = o
  · subst h
    simp
  · rw [Function.update_noteq h, update_gameId_gameId]
    by_cases hc : x = c
    · simp [hc]
    · simp [h, hc]

theorem findMatch_pair_isOpen (s : State) (c o : ConnRef) (v : Option Nat) (x : ConnRef) :
    (Function.update (Function.update s.conns c { s.conns c with gameId := v }) o
      { s.conns o with gameId := v } x).isOpen = (s.conns x).isOpen := by
  by_cases h : x = o
  · subst h
    simp
  · rw [Function.update_noteq h]
    exact update_gameId_isOpen _ _ _ _

theorem pair_sessionsOK (s t : State) (c h0 : ConnRef) (now : Nat) (h : SessionsOK s)
    (hfree : (s.conns c).gameId = none) (hq : s.waitingPlayers = [h0])
    (tn : t.nextGame = s.nextGame + 1) (tq : t.waitingPlayers = [])
    (ta : ∀ e ∈ t.activeGames, e = (now, s.nextGame) ∨ e ∈ s.activeGames)
    (tt : t.timers = s.timers)
    (tnew : (t.games s.nextGame).player1 = c ∧ (t.games s.nextGame).player2 = h0 ∧
      (t.games s.nextGame).id = now)
    (told : ∀ g : Nat, g ≠ s.nextGame → t.games g = s.games g)
    (tc : ∀ x, (t.conns x).gameId = (if x = h0 ∨ x = c then some now else (s.conns x).gameId) ∧
      (t.conns x).isOpen = (s.conns x).isOpen ∧ (t.conns x).userId = (s.conns x).userId)
    (hcopen : (s.conns c).isOpen = true) : SessionsOK t := by
  obtain ⟨hh0free, hh0open⟩ := h.queue_free h0 (by rw [hq]; exact List.mem_singleton_self _)
  -- a connection with a session id, or a closed one, is neither `c` nor `h0`
  have hother : ∀ x, ((s.conns x).gameId ≠ none ∨ (s.conns x).isOpen = false) →
      ¬ (x = h0 ∨ x = c) := by
    intro x hx hxc
    rcases hxc with e | e
    · subst e
      rcases hx with hx | hx
      · exact hx hh0free
      · rw [hh0open] at hx
        cases hx
    · subst e
      rcases hx with hx | hx
      · exact hx hfree
      · rw [hcopen] at hx
        cases hx
  have hslot_old : ∀ (g : Nat) x, g < s.nextGame → (slotOf t g x ↔ slotOf s g x) := by
    intro g x hg
    unfold slotOf
    rw [told g (Nat.ne_of_lt hg)]
  have hslot_new : ∀ x, slotOf t s.nextGame x ↔ (x = h0 ∨ x = c) := by
    intro x
    unfold slotOf
    rw [tnew.1, tnew.2.1]
    constructor
    · intro hx
      rcases hx with hx | hx
      · exact Or.inr hx.symm
      · exact Or.inl hx.symm
    · intro hx
      rcases hx with hx | hx
      · exact Or.inr hx.symm
      · exact Or.inl hx.symm
  have hlast_old : ∀ x (g : Nat), ¬ (x = h0 ∨ x = c) → (LastGame t x g ↔ LastGame s x g) := by
    intro x g hx
    unfold LastGame
    rw [tn]
    constructor
    · intro hl g2 hlt hs
      exact hl g2 (Nat.lt_succ_of_lt hlt) ((hslot_old g2 x hlt).2 hs)
    · intro hl g2 hlt hs
      rcases Nat.lt_succ_iff_lt_or_eq.1 hlt with hlt2 | heq
      · exact hl g2 hlt2 ((hslot_old g2 x hlt2).1 hs)
      · rw [heq] at hs
        exact absurd ((hslot_new x).1 hs) hx
  have hlast_new : ∀ x, LastGame t x s.nextGame := by
    intro x g2 hlt _
    rw [tn] at hlt
    exact Nat.lt_succ_iff.1 hlt
  have hlast_moved : ∀ x (g : Nat), (x = h0 ∨ x = c) → g < s.nextGame → ¬ LastGame t x g := by
    intro x g hx hg hl
    have := hl s.nextGame (by rw [tn]; exact Nat.lt_succ_self _) ((hslot_new x).2 hx)
    exact absurd (Nat.lt_of_lt_of_le hg this) (Nat.lt_irrefl _)
  have hbound_old : ∀ x (g : Nat), g < s.nextGame → (Bound t x g ↔ Bound s x g) := by
    intro x g hg
    unfold Bound
    by_cases hx : x = h0 ∨ x = c
    · constructor
      · intro hb
        exact absurd hb.2 (hlast_moved x g hx hg)
      · intro hb
        exfalso
        exact hother x (Or.inl hb.1) hx
    · rw [(tc x).1, if_neg hx, hlast_old x g hx]
  refine ⟨?_, ?_, ?_, ?_, ?_, ?_⟩
  · intro x y hxy
    rw [(tc x).2.2, (tc y).2.2] at hxy
    exact h.inj x y hxy
  · rw [tq]
    exact Nat.zero_le _
  · intro x hx
    rw [tq] at hx
    cases hx
  · intro e he
    rcases ta e he with heq | hold
    · subst heq
      refine ⟨by rw [tn]; exact Nat.lt_succ_self _, tnew.2.2, ?_, ?_, ?_, ?_⟩
      · show (t.conns (t.games s.nextGame).player1).gameId = some now
        rw [tnew.1, (tc c).1, if_pos (Or.inr rfl)]
      · show (t.conns (t.games s.nextGame).player2).gameId = some now
        rw [tnew.2.1, (tc h0).1, if_pos (Or.inl rfl)]
      · exact hlast_new _
      · exact hlast_new _
    · obtain ⟨r1, r2, r3, r4, r5, r6⟩ := h.reg e hold
      have n1 := hother (s.games e.2).player1 (Or.inl (by rw [r3]; exact Option.some_ne_none _))
      have n2 := hother (s.games e.2).player2 (Or.inl (by rw [r4]; exact Option.some_ne_none _))
      rw [told e.2 (Nat.ne_of_lt r1), tn, (tc _).1, (tc _).1, if_neg n1, if_neg n2,
        hlast_old _ _ n1, hlast_old _ _ n2]
      exact ⟨Nat.lt_succ_of_lt r1, r2, r3, r4, r5, r6⟩
  · intro e he
    rw [tt] at he
    obtain ⟨t1, t2, t3⟩ := h.timers e he
    have n1 := hother e.1 (Or.inr t1)
    rw [(tc _).2.1, tn, hslot_old e.2 e.1 t2, hlast_old _ _ n1]
    exact ⟨t1, Nat.lt_succ_of_lt t2, t3⟩
  · intro g hg
    rw [tn] at hg
    rcases Nat.lt_succ_iff_lt_or_eq.1 hg with hlt | heq
    · rw [told g (Nat.ne_of_lt hlt), hbound_old _ g hlt, hbound_old _ g hlt]
      exact h.pairs g hlt
    · subst heq
      have b1 : Bound t (t.games s.nextGame).player1 s.nextGame := by
        refine ⟨?_, hlast_new _⟩
        rw [tnew.1, (tc c).1, if_pos (Or.inr rfl)]
        exact Option.some_ne_none _
      have b2 : Bound t (t.games s.nextGame).player2 s.nextGame := by
        refine ⟨?_, hlast_new _⟩
        rw [tnew.2.1, (tc h0).1, if_pos (Or.inl rfl)]
        exact Option.some_ne_none _
      exact ⟨fun _ => b2, fun _ => b1⟩

theorem findMatch_sessionsOK (s : State) (c : ConnRef) (now startNow : Nat)
    (h : SessionsOK s) (hopen : (s.conns c).isOpen = true) :
    SessionsOK (findMatch c now startNow s) := by
  by_cases hguard : c ∈ s.waitingPlayers ∨ (s.conns c).gameId ≠ none
  · rw [findMatch_of_guard s c now startNow hguard]
    exact h
  · have hq : c ∉ s.waitingPlayers := fun hm => hguard (Or.inl hm)
    have hg : (s.conns c).gameId = none := by
      by_contra hne
      exact hguard (Or.inr hne)
    cases hw : s.waitingPlayers with
    | nil =>
      rw [findMatch_enqueue s c now startNow hw hg]
      refine sessionsOK_of_fields s _ h rfl (fun _ => ⟨rfl, rfl, rfl⟩) (fun _ => ⟨rfl, rfl⟩)
        (le_refl 1) ?_ (fun _ he => he) (fun e he => h.timers e he)
      intro x hx
      have e : x = c := List.mem_singleton.1 hx
      subst e
      exact ⟨hg, hopen⟩
    | cons o rest =>
      have hrest : rest = [] := by
        have hl := h.queue_le
        rw [hw] at hl
        cases rest with
        | nil => rfl
        | cons a l =>
          simp only [List.length_cons] at hl
          omega
      subst hrest
      rw [findMatch_pair s c o [] now startNow hq hg hw]
      refine pair_sessionsOK s _ c o now h hg hw rfl rfl (fun e he => mem_mapSet he) rfl
        ?_ ?_ ?_ hopen
      · simp
      · intro g hg2
        exact Function.update_noteq hg2 _ _
      · intro x
        exact ⟨findMatch_pair_gameId s c o (some now) x, findMatch_pair_isOpen s c o _ x,
          findMatch_pair_userId s c o _ x⟩

theorem handlePlayerDisconnect_fields (s : State) (ws : ConnRef) :
    (handlePlayerDisconnect ws s).conns = s.conns ∧
    (handlePlayerDisconnect ws s).nextGame = s.nextGame ∧
    (handlePlayerDisconnect ws s).activeGames = s.activeGames ∧
    (handlePlayerDisconnect ws s).waitingPlayers = s.waitingPlayers.erase ws ∧
    (∀ g, ((handlePlayerDisconnect ws s).games g).player1 = (s.games g).player1 ∧
          ((handlePlayerDisconnect ws s).games g).player2 = (s.games g).player2 ∧
          ((handlePlayerDisconnect ws s).games g).id = (s.games g).id) ∧
    (∀ e ∈ (handlePlayerDisconnect ws s).timers, e ∈ s.timers ∨
      ∃ gid, (s.conns ws).gameId = some gid ∧ mapGet gid s.activeGames = some e.2 ∧
        e.1 = ws) := by
  have hq : (if ws ∈ s.waitingPlayers then s.waitingPlayers.erase ws else s.waitingPlayers)
      = s.waitingPlayers.erase ws := by
    split
    · rfl
    · rename_i hn
      exact (List.erase_of_not_mem hn).symm
  have hs1 : (if ws ∈ s.waitingPlayers then
        ({ s with waitingPlayers := s.waitingPlayers.erase ws } : State) else s)
      = { s with waitingPlayers := s.waitingPlayers.erase ws } := by
    split
    · rfl
    · rename_i hn
      rw [List.erase_of_not_mem hn]
  cases hid : (s.conns ws).gameId with
  | none =>
    have e : handlePlayerDisconnect ws s =
        { s with waitingPlayers := s.waitingPlayers.erase ws } := by
      unfold handlePlayerDisconnect
      rw [hs1]
      simp only [hid]
    rw [e]
    exact ⟨rfl, rfl, rfl, rfl, fun _ => ⟨rfl, rfl, rfl⟩, fun e he => Or.inl he⟩
  | some gid =>
    cases hget : mapGet gid s.activeGames with
    | none =>
      have e : handlePlayerDisconnect ws s =
          { s with waitingPlayers := s.waitingPlayers.erase ws } := by
        unfold handlePlayerDisconnect
        rw [hs1]
        simp only [hid, hget]
      rw [e]
      exact ⟨rfl, rfl, rfl, rfl, fun _ => ⟨rfl, rfl, rfl⟩, fun e he => Or.inl he⟩
    | some g =>
      have htim : ∀ (e : ConnRef × GameRef),
          e ∈ s.timers ++ [(ws, g)] → e ∈ s.timers ∨
          ∃ k, some gid = some k ∧ mapGet k s.activeGames = some e.2 ∧ e.1 = ws := by
        intro e he
        rcases List.mem_append.1 he with he | he
        · exact Or.inl he
        · have e2 : e = (ws, g) := List.mem_singleton.1 he
          subst e2
          exact Or.inr ⟨gid, rfl, hget, rfl⟩
      by_cases hp1 : (s.games g).player1 = ws
      · have e : handlePlayerDisconnect ws s =
            { s with
              waitingPlayers := s.waitingPlayers.erase ws
              games := Function.update s.games g
                { s.games g with player1Disconnected := true }
              timers := s.timers ++ [(ws, g)] } := by
          unfold handlePlayerDisconnect
          rw [hs1]
          simp only [hid, hget, if_pos hp1]
        rw [e]
        refine ⟨rfl, rfl, rfl, rfl, ?_, htim⟩
        intro g2
        by_cases hg : g2 = g
        · subst hg
          simp
        · simp [Function.update_noteq hg]
      · by_cases hp2 : (s.games g).player2 = ws
        · have e : handlePlayerDisconnect ws s =
              { s with
                waitingPlayers := s.waitingPlayers.erase ws
                games := Function.update s.games g
                  { s.games g with player2Disconnected := true }
                timers := s.timers ++ [(ws, g)] } := by
            unfold handlePlayerDisconnect
            rw [hs1]
            simp only [hid, hget, if_neg hp1, if_pos hp2]
          rw [e]
          refine ⟨rfl, rfl, rfl, rfl, ?_, htim⟩
          intro g2
          by_cases hg : g2 = g
          · subst hg
            simp
          · simp [Function.update_noteq hg]
        · have e : handlePlayerDisconnect ws s =
              { s with
                waitingPlayers := s.waitingPlayers.erase ws
                timers := s.timers ++ [(ws, g)] } := by
            unfold handlePlayerDisconnect
            rw [hs1]
            simp only [hid, hget, if_neg hp1, if_neg hp2]
          rw [e]
          exact ⟨rfl, rfl, rfl, rfl, fun _ => ⟨rfl, rfl, rfl⟩, htim⟩

theorem mem_erase_le_one (l : List ConnRef) (ws c : ConnRef) (hl : l.length ≤ 1)
    (h : c ∈ l.erase ws) : c ∈ l ∧ c ≠ ws := by
  have hnd : l.Nodup := by
    cases l with
    | nil => exact List.nodup_nil
    | cons a l2 =>
      cases l2 with
      | nil => exact List.nodup_singleton a
      | cons b l3 =>
        simp only [List.length_cons] at hl
        omega
  obtain ⟨h1, h2⟩ := (List.Nodup.mem_erase_iff hnd).1 h
  exact ⟨h2, h1⟩

theorem close_sessionsOK (s : State) (ws : ConnRef) (h : SessionsOK s) :
    SessionsOK (handlePlayerDisconnect ws (s.setClosed ws)) := by
  obtain ⟨fc, fn, fa, fq, fp, ft⟩ := handlePlayerDisconnect_fields (s.setClosed ws) ws
  have hopen : ∀ x, ((s.setClosed ws).conns x).isOpen
      = if x = ws then false else (s.conns x).isOpen := by
    intro x
    by_cases hx : x = ws
    · subst hx
      simp [State.setClosed]
    · simp [State.setClosed, Function.update_noteq hx, hx]
  have hgid : ∀ x, ((s.setClosed ws).conns x).gameId = (s.conns x).gameId ∧
      ((s.setClosed ws).conns x).userId = (s.conns x).userId := by
    intro x
    by_cases hx : x = ws
    · subst hx
      simp [State.setClosed]
    · simp [State.setClosed, Function.update_noteq hx]
  refine sessionsOK_of_fields s _ h fn fp ?_ ?_ ?_ ?_ ?_
  · intro x
    rw [fc]
    exact hgid x
  · rw [fq]
    exact le_trans (List.erase_sublist _ _).length_le h.queue_le
  · intro c hc
    rw [fq] at hc
    obtain ⟨hm, hne⟩ := mem_erase_le_one _ ws c h.queue_le hc
    obtain ⟨q1, q2⟩ := h.queue_free c hm
    rw [fc, (hgid c).1, hopen c, if_neg hne]
    exact ⟨q1, q2⟩
  · intro e he
    rw [fa] at he
    exact he
  · intro e he
    rcases ft e he with hold | ⟨gid, _, hget, hws⟩
    · obtain ⟨t1, t2, t3⟩ := h.timers e hold
      refine ⟨?_, t2, t3⟩
      rw [fc, hopen]
      split
      · rfl
      · exact t1
    · have hmem : (gid, e.2) ∈ s.activeGames := mapGet_mem hget
      obtain ⟨r1, _, _, _, r5, r6⟩ := h.reg (gid, e.2) hmem
      refine ⟨?_, r1, ?_⟩
      · rw [fc, hopen, if_pos hws]
      · intro hs
        rw [hws] at hs ⊢
        rcases hs with hs | hs
        · rw [← hs]
          exact r5
        · rw [← hs]
          exact r6

theorem graceTimer_sessionsOK (s : State) (ws : ConnRef) (g : Nat) (h : SessionsOK s)
    (hg : g < s.nextGame) (hlast : slotOf s g ws → LastGame s ws g) :
    SessionsOK (graceTimer ws g s) := by
  cases hid : (s.conns ws).gameId with
  | none =>
    have e : graceTimer ws g s = s := by
      unfold graceTimer
      simp only [hid]
    rw [e]
    exact h
  | some gid =>
    cases hget : mapGet gid s.activeGames with
    | none =>
      have e : graceTimer ws g s = s := by
        unfold graceTimer
        simp only [hid, hget]
      rw [e]
      exact h
    | some g0 =>
      by_cases hcond : ((s.games g).player1 = ws ∧ (s.games g).player1Disconnected = true) ∨
          ((s.games g).player2 = ws ∧ (s.games g).player2Disconnected = true)
      · rw [graceTimer_fire s ws g gid g0 hid hget hcond]
        generalize (if (s.games g).player1 = ws then (s.games g).player2
          else (s.games g).player1) = opp
        split
        · have hslot : slotOf s g ws := by
            rcases hcond with hc | hc
            · exact Or.inl hc.1
            · exact Or.inr hc.1
          have hb : Bound s ws g :=
            ⟨by rw [hid]; exact Option.some_ne_none _, hlast hslot⟩
          have hboth : Bound s (s.games g).player1 g ∧ Bound s (s.games g).player2 g := by
            rcases hslot with hs | hs
            · have b1 : Bound s (s.games g).player1 g := by rw [hs]; exact hb
              exact ⟨b1, (h.pairs g hg).1 b1⟩
            · have b2 : Bound s (s.games g).player2 g := by rw [hs]; exact hb
              exact ⟨(h.pairs g hg).2 b2, b2⟩
          exact send_sessionsOK _ _ _
            (endGame_sessionsOK s g _ h hg hboth.1.2 hboth.2.2)
        · exact sessionsOK_mono s _ h rfl (fun _ => ⟨rfl, rfl, rfl⟩)
            (fun _ => ⟨rfl, rfl, rfl⟩) (List.Sublist.refl _)
            (fun e he => (mem_mapDelete he).1) (fun _ he => he)
      · have e : graceTimer ws g s = s := by
          unfold graceTimer
          simp only [hid, hget, if_neg hcond]
        rw [e]
        exact h

theorem step_sessionsOK (e : Event) (s t : State) (hstep : step e s = some t)
    (h : SessionsOK s) : SessionsOK t := by
  cases e with
  | message ws data now startNow =>
    simp only [step] at hstep
    split at hstep
    · rename_i hopen
      simp only [Option.some.injEq] at hstep
      subst hstep
      cases data with
      | findMatch => exact findMatch_sessionsOK s ws now startNow h hopen
      | cancelMatch => exact cancelMatch_sessionsOK s ws h
      | rejoinGame gameId => exact rejoinGame_sessionsOK s ws gameId h
      | playerUpdate p r => exact broadcastPlayerUpdate_sessionsOK s ws p r h
      | shoot p d => exact handleShoot_sessionsOK s ws p d h
      | hit => exact handleHit_sessionsOK s ws h
      | other => exact h
    · cases hstep
  | close ws =>
    simp only [step] at hstep
    split at hstep
    · simp only [Option.some.injEq] at hstep
      subst hstep
      exact close_sessionsOK s ws h
    · cases hstep
  | timer ws g =>
    simp only [step] at hstep
    split at hstep
    · rename_i hmem
      simp only [Option.some.injEq] at hstep
      subst hstep
      obtain ⟨_, t2, t3⟩ := h.timers (ws, g) hmem
      refine graceTimer_sessionsOK _ ws g ?_ t2 t3
      exact sessionsOK_mono s _ h rfl (fun _ => ⟨rfl, rfl, rfl⟩) (fun _ => ⟨rfl, rfl, rfl⟩)
        (List.Sublist.refl _) (fun _ he => he) (fun e he => List.mem_of_mem_erase he)
    · cases hstep

theorem run_sessionsOK : ∀ (evs : List Event) (s t : State),
    run evs s = some t → SessionsOK s → SessionsOK t
  | [], s, t, hrun, h => by
    simp only [run, Option.some.injEq] at hrun
    subst hrun
    exact h
  | e :: es, s, t, hrun, h => by
    simp only [run] at hrun
    cases hs : step e s with
    | none =>
      rw [hs] at hrun
      cases hrun
    | some s1 =>
      rw [hs] at hrun
      exact run_sessionsOK es s1 t hrun (step_sessionsOK e s s1 hs h)

theorem initState_sessionsOK (users : ConnRef → Nat × String)
    (hinj : ∀ x y, (users x).1 = (users y).1 → x = y) : SessionsOK (initState users) := by
  refine ⟨hinj, Nat.zero_le _, ?_, ?_, ?_, ?_⟩
  · intro c hc
    cases hc
  · intro e he
    cases he
  · intro e he
    cases he
  · intro g hg
    exact absurd hg (Nat.not_lt_zero _)

/-- The case of pairwise distinct owner ids: in every state reachable from the
empty state, if no two connections carry the same owner id, then, also when two
pairings read the same clock value, for every registered session both slot
connections have their session id equal to that session's id, and a registered
session that has one of these connections in a slot is that same session. -/
theorem slot_session_ids (users : ConnRef → Nat × String)
    (hinj : ∀ x y, (users x).1 = (users y).1 → x = y) (evs : List Event) (s : State)
    (hrun : run evs (initState users) = some s) :
    ∀ id g, (id, g) ∈ s.activeGames →
      (s.conns (s.games g).player1).gameId = some id ∧
      (s.conns (s.games g).player2).gameId = some id ∧
      ∀ id2 g2, (id2, g2) ∈ s.activeGames →
        (slotOf s g2 (s.games g).player1 ∨ slotOf s g2 (s.games g).player2) →
        id2 = id ∧ g2 = g := by
  have h := run_sessionsOK evs _ s hrun (initState_sessionsOK users hinj)
  intro id g hmem
  obtain ⟨r1, r2, r3, r4, r5, r6⟩ := h.reg (id, g) hmem
  refine ⟨r3, r4, ?_⟩
  intro id2 g2 hmem2 hs
  obtain ⟨q1, q2, q3, q4, q5, q6⟩ := h.reg (id2, g2) hmem2
  have hg : g2 = g := by
    rcases hs with hs | hs
    · rcases hs with e | e
      · have q5' : LastGame s (s.games g).player1 g2 := by
          have := q5
          simp only [] at this
          rw [e] at this
          exact this
        exact lastGame_unique s _ g2 g q5' r5 q1 r1 (Or.inl e) (Or.inl rfl)
      · have q6' : LastGame s (s.games g).player1 g2 := by
          have := q6
          simp only [] at this
          rw [e] at this
          exact this
        exact lastGame_unique s _ g2 g q6' r5 q1 r1 (Or.inr e) (Or.inl rfl)
    · rcases hs with e | e
      · have q5' : LastGame s (s.games g).player2 g2 := by
          have := q5
          simp only [] at this
          rw [e] at this
          exact this
        exact lastGame_unique s _ g2 g q5' r6 q1 r1 (Or.inl e) (Or.inr rfl)
      · have q6' : LastGame s (s.games g).player2 g2 := by
          have := q6
          simp only [] at this
          rw [e] at this
          exact this
        exact lastGame_unique s _ g2 g q6' r6 q1 r1 (Or.inr e) (Or.inr rfl)
  refine ⟨?_, hg⟩
  have e1 : (s.games g2).id = id2 := q2
  have e2 : (s.games g).id = id := r2
  rw [← e1, ← e2, hg]

theorem slot_session_ids_witness :
    ((∀ x y, (distinctUsers x).1 = (distinctUsers y).1 → x = y) ∧
     run [.message 0 .findMatch 50 50, .message 1 .findMatch 100 100]
       (initState distinctUsers) = some (pairedState distinctUsers) ∧
     (100, 0) ∈ (pairedState distinctUsers).activeGames) ∧
    ((pairedState distinctUsers).conns ((pairedState distinctUsers).games 0).player1).gameId
      = some 100 ∧
    ((pairedState distinctUsers).conns ((pairedState distinctUsers).games 0).player2).gameId
      = some 100 :=
  ⟨⟨fun _ _ h => Nat.add_right_cancel h, rfl, by decide⟩,
   (slot_session_ids distinctUsers (fun _ _ h => Nat.add_right_cancel h)
      [.message 0 .findMatch 50 50, .message 1 .findMatch 100 100]
      (pairedState distinctUsers) rfl 100 0 (by decide)).1,
   (slot_session_ids distinctUsers (fun _ _ h => Nat.add_right_cancel h)
      [.message 0 .findMatch 50 50, .message 1 .findMatch 100 100]
      (pairedState distinctUsers) rfl 100 0 (by decide)).2.1⟩

/-! ## The length of the waiting queue -/

theorem findMatch_queue (s : State) (c : ConnRef) (now startNow : Nat) :
    (findMatch c now startNow s).waitingPlayers = s.waitingPlayers ∨
    (s.waitingPlayers = [] ∧ (findMatch c now startNow s).waitingPlayers = [c]) ∨
    (∃ h rest, s.waitingPlayers = h :: rest ∧
      (findMatch c now startNow s).waitingPlayers = rest) := by
  by_cases hguard : c ∈ s.waitingPlayers ∨ (s.conns c).gameId ≠ none
  · rw [findMatch_of_guard s c now startNow hguard]
    exact Or.inl rfl
  · have hq : c ∉ s.waitingPlayers := fun hm => hguard (Or.inl hm)
    have hg : (s.conns c).gameId = none := by
      by_contra hne
      exact hguard (Or.inr hne)
    cases hw : s.waitingPlayers with
    | nil =>
      rw [findMatch_enqueue s c now startNow hw hg]
      exact Or.inr (Or.inl ⟨rfl, rfl⟩)
    | cons o rest =>
      rw [findMatch_pair s c o rest now startNow hq hg hw]
      exact Or.inr (Or.inr ⟨o, rest, rfl, rfl⟩)

theorem rejoinGame_queue (s : State) (w : ConnRef) (id : Nat) :
    (rejoinGame w id s).waitingPlayers = s.waitingPlayers := by
  unfold rejoinGame
  split
  · rfl
  · simp only []
    split
    · rfl
    · split <;> rfl

theorem sendIfOpen_queue (s : State) (c : ConnRef) (m : Msg) :
    (s.sendIfOpen c m).waitingPlayers = s.waitingPlayers := by
  unfold State.sendIfOpen
  split <;> rfl

theorem broadcastPlayerUpdate_queue (s : State) (ws : ConnRef) (p r : Payload) :
    (broadcastPlayerUpdate ws p r s).waitingPlayers = s.waitingPlayers := by
  unfold broadcastPlayerUpdate
  split
  · rfl
  · exact (sendIfOpen_queue _ _ _).trans rfl

theorem handleShoot_queue (s : State) (ws : ConnRef) (p d : Payload) :
    (handleShoot ws p d s).waitingPlayers = s.waitingPlayers := by
  unfold handleShoot
  split
  · rfl
  · split
    · rfl
    · exact sendIfOpen_queue _ _ _

theorem handleHit_queue (s : State) (ws : ConnRef) :
    (handleHit ws s).waitingPlayers = s.waitingPlayers := by
  cases hs : findGameByUser s (s.conns ws).userId s.activeGames with
  | none => rw [handleHit_unresolved s ws hs]
  | some r =>
    obtain ⟨id, g, opp⟩ := r
    rw [handleHit_resolved s ws id g opp hs]
    split <;> rfl

theorem graceTimer_queue (s : State) (ws : ConnRef) (g : GameRef) :
    (graceTimer ws g s).waitingPlayers = s.waitingPlayers := by
  cases hid : (s.conns ws).gameId with
  | none =>
    unfold graceTimer
    simp only [hid]
  | some gid =>
    cases hget : mapGet gid s.activeGames with
    | none =>
      unfold graceTimer
      simp only [hid, hget]
    | some g0 =>
      by_cases hcond : ((s.games g).player1 = ws ∧ (s.games g).player1Disconnected = true) ∨
          ((s.games g).player2 = ws ∧ (s.games g).player2Disconnected = true)
      · rw [graceTimer_fire s ws g gid g0 hid hget hcond]
        generalize (if (s.games g).player1 = ws then (s.games g).player2
          else (s.games g).player1) = opp
        split <;> rfl
      · unfold graceTimer
        simp only [hid, hget, if_neg hcond]

theorem step_queue_le_one (e : Event) (s t : State) (hstep : step e s = some t)
    (h : s.waitingPlayers.length ≤ 1) : t.waitingPlayers.length ≤ 1 := by
  cases e with
  | message ws data now startNow =>
    simp only [step] at hstep
    split at hstep
    · simp only [Option.some.injEq] at hstep
      subst hstep
      cases data with
      | findMatch =>
        rcases findMatch_queue s ws now startNow with e | ⟨_, e⟩ | ⟨h0, rest, hw, e⟩
        · exact (congrArg List.length e).trans_le h
        · exact (congrArg List.length e).trans_le (le_refl 1)
        · show (findMatch ws now startNow s).waitingPlayers.length ≤ 1
          rw [e]
          rw [hw, List.length_cons] at h
          exact le_trans (Nat.le_succ _) h
      | cancelMatch =>
        show (cancelMatch ws s).waitingPlayers.length ≤ 1
        unfold cancelMatch
        split
        · exact le_trans (List.erase_sublist _ _).length_le h
        · exact h
      | rejoinGame gameId => exact (congrArg List.length (rejoinGame_queue s ws gameId)).trans_le h
      | playerUpdate p r =>
        exact (congrArg List.length (broadcastPlayerUpdate_queue s ws p r)).trans_le h
      | shoot p d => exact (congrArg List.length (handleShoot_queue s ws p d)).trans_le h
      | hit => exact (congrArg List.length (handleHit_queue s ws)).trans_le h
      | other => exact h
    · cases hstep
  | close ws =>
    simp only [step] at hstep
    split at hstep
    · simp only [Option.some.injEq] at hstep
      subst hstep
      rw [(handlePlayerDisconnect_fields (s.setClosed ws) ws).2.2.2.1]
      exact le_trans (List.erase_sublist _ _).length_le h
    · cases hstep
  | timer ws g =>
    simp only [step] at hstep
    split at hstep
    · simp only [Option.some.injEq] at hstep
      subst hstep
      rw [graceTimer_queue]
      exact h
    · cases hstep

theorem run_queue_le_one : ∀ (evs : List Event) (s t : State),
    run evs s = some t → s.waitingPlayers.length ≤ 1 → t.waitingPlayers.length ≤ 1
  | [], s, t, hrun, h => by
    simp only [run, Option.some.injEq] at hrun
    subst hrun
    exact h
  | e :: es, s, t, hrun, h => by
    simp only [run] at hrun
    cases hs : step e s with
    | none =>
      rw [hs] at hrun
      cases hrun
    | some s1 =>
      rw [hs] at hrun
      exact run_queue_le_one es s1 t hrun (step_queue_le_one e s s1 hs h)

/-- C18: in every state reachable from the empty state the waiting queue holds at
most one connection, hence no duplicates. Every turn of the event loop preserves
the bound: `findMatch` leaves the queue as it is, or appends the caller to an empty
queue, or removes the head; `cancelMatch` and the disconnect handler only remove
the connection (the queue after is the queue before with its first occurrence
erased). -/
theorem queue_at_most_one :
    (∀ s, Reachable s → s.waitingPlayers.length ≤ 1 ∧ s.waitingPlayers.Nodup) ∧
    (∀ (ev : Event) (s t : State), step ev s = some t →
      s.waitingPlayers.length ≤ 1 → t.waitingPlayers.length ≤ 1) ∧
    (∀ (s : State) (c : ConnRef) (now startNow : Nat),
      (findMatch c now startNow s).waitingPlayers = s.waitingPlayers ∨
      (s.waitingPlayers = [] ∧ (findMatch c now startNow s).waitingPlayers = [c]) ∨
      (∃ h rest, s.waitingPlayers = h :: rest ∧
        (findMatch c now startNow s).waitingPlayers = rest)) ∧
    (∀ (s : State) (c : ConnRef),
      (cancelMatch c s).waitingPlayers = s.waitingPlayers.erase c ∧
      (handlePlayerDisconnect c s).waitingPlayers = s.waitingPlayers.erase c) := by
  refine ⟨?_, step_queue_le_one, findMatch_queue, ?_⟩
  · intro s hs
    obtain ⟨users, evs, hrun⟩ := hs
    have hl : s.waitingPlayers.length ≤ 1 :=
      run_queue_le_one evs _ s hrun (Nat.zero_le _)
    refine ⟨hl, ?_⟩
    cases hq : s.waitingPlayers with
    | nil => exact List.nodup_nil
    | cons a l2 =>
      cases l2 with
      | nil => exact List.nodup_singleton a
      | cons b l3 =>
        rw [hq] at hl
        simp only [List.length_cons] at hl
        omega
  · intro s c
    refine ⟨?_, (handlePlayerDisconnect_fields s c).2.2.2.1⟩
    unfold cancelMatch
    split
    · rfl
    · rename_i hn
      exact (List.erase_of_not_mem hn).symm

theorem queue_at_most_one_witness :
    (Reachable (runD [.message 0 .findMatch 50 50] (initState distinctUsers)) ∧
     (runD [.message 0 .findMatch 50 50] (initState distinctUsers)).waitingPlayers = [0]) ∧
    (runD [.message 0 .findMatch 50 50] (initState distinctUsers)).waitingPlayers.length ≤ 1 :=
  ⟨⟨reachable_of_run distinctUsers [.message 0 .findMatch 50 50] _ rfl, rfl⟩,
   (queue_at_most_one.1 _
     (reachable_of_run distinctUsers [.message 0 .findMatch 50 50] _ rfl)).1⟩

/-! ## What a turn leaves fixed about a game object -/

theorem gameFrame_refl (g : Nat) (s : State) : GameFrame g s s :=
  ⟨le_refl _, fun _ => rfl, fun _ h => h, rfl, Or.inl rfl, Or.inl rfl⟩

theorem gameFrame_of_same (g : Nat) (s t : State) (hn : s.nextGame ≤ t.nextGame)
    (hu : ∀ x, (t.conns x).userId = (s.conns x).userId)
    (hc : ∀ x, (s.conns x).isOpen = false → (t.conns x).isOpen = false)
    (hid : (t.games g).id = (s.games g).id)
    (h1 : (t.games g).player1 = (s.games g).player1)
    (h2 : (t.games g).player2 = (s.games g).player2) : GameFrame g s t :=
  ⟨hn, hu, hc, hid, Or.inl h1, Or.inl h2⟩

theorem open_of_open_later (s t : State) (hc : ∀ x, (s.conns x).isOpen = false →
    (t.conns x).isOpen = false) (x : ConnRef) (h : (t.conns x).isOpen = true) :
    (s.conns x).isOpen = true := by
  cases hx : (s.conns x).isOpen with
  | true => rfl
  | false =>
    rw [hc x hx] at h
    cases h

theorem gameFrame_trans (g : Nat) (s t u : State) (a : GameFrame g s t)
    (b : GameFrame g t u) : GameFrame g s u := by
  refine ⟨le_trans a.next b.next, fun x => (b.uid x).trans (a.uid x),
    fun x h => b.closed x (a.closed x h), b.gid.trans a.gid, ?_, ?_⟩
  · rcases b.slot1 with e | ⟨ho, hu⟩
    · rw [e]
      exact a.slot1
    · right
      refine ⟨open_of_open_later s t a.closed _ ho, ?_⟩
      rw [a.uid, a.uid] at hu
      rw [hu]
      rcases a.slot1 with e2 | ⟨_, hu2⟩
      · rw [e2]
      · exact hu2
  · rcases b.slot2 with e | ⟨ho, hu⟩
    · rw [e]
      exact a.slot2
    · right
      refine ⟨open_of_open_later s t a.closed _ ho, ?_⟩
      rw [a.uid, a.uid] at hu
      rw [hu]
      rcases a.slot2 with e2 | ⟨_, hu2⟩
      · rw [e2]
      · exact hu2

theorem gameFrame_owner1 (g : Nat) (s t : State) (a : GameFrame g s t) :
    (t.conns (t.games g).player1).userId = (s.conns (s.games g).player1).userId := by
  rw [a.uid]
  rcases a.slot1 with e | ⟨_, hu⟩
  · rw [e]
  · exact hu

theorem gameFrame_owner2 (g : Nat) (s t : State) (a : GameFrame g s t) :
    (t.conns (t.games g).player2).userId = (s.conns (s.games g).player2).userId := by
  rw [a.uid]
  rcases a.slot2 with e | ⟨_, hu⟩
  · rw [e]
  · exact hu

theorem gameFrame_keep1 (g : Nat) (s t : State) (a : GameFrame g s t) (w : ConnRef)
    (hw : (s.conns w).isOpen = false) (h : (s.games g).player1 ≠ w) :
    (t.games g).player1 ≠ w := by
  rcases a.slot1 with e | ⟨ho, _⟩
  · rw [e]
    exact h
  · intro e
    rw [e, hw] at ho
    cases ho

theorem gameFrame_keep2 (g : Nat) (s t : State) (a : GameFrame g s t) (w : ConnRef)
    (hw : (s.conns w).isOpen = false) (h : (s.games g).player2 ≠ w) :
    (t.games g).player2 ≠ w := by
  rcases a.slot2 with e | ⟨ho, _⟩
  · rw [e]
    exact h
  · intro e
    rw [e, hw] at ho
    cases ho

theorem send_frame (g : Nat) (s : State) (c : ConnRef) (m : Msg) :
    GameFrame g s (s.send c m) ∧ ((s.send c m).games g).scores = (s.games g).scores :=
  ⟨gameFrame_of_same g s _ (le_refl _) (fun _ => rfl) (fun _ h => h) rfl rfl rfl, rfl⟩

theorem sendIfOpen_frame (g : Nat) (s : State) (c : ConnRef) (m : Msg) :
    GameFrame g s (s.sendIfOpen c m) ∧
    ((s.sendIfOpen c m).games g).scores = (s.games g).scores := by
  unfold State.sendIfOpen
  split
  · exact send_frame g s c m
  · exact ⟨gameFrame_refl g s, rfl⟩

theorem setGameId_frame (g : Nat) (s : State) (c : ConnRef) (v : Option Nat) :
    GameFrame g s (s.setGameId c v) ∧
    ((s.setGameId c v).games g).scores = (s.games g).scores := by
  refine ⟨gameFrame_of_same g s _ (le_refl _) (fun x => update_gameId_userId _ _ _ _) ?_
    rfl rfl rfl, rfl⟩
  intro x hx
  exact (update_gameId_isOpen _ _ _ _).trans hx

theorem findMatch_frame (g : Nat) (s : State) (c : ConnRef) (now startNow : Nat)
    (hg : g < s.nextGame) :
    GameFrame g s (findMatch c now startNow s) ∧
    ((findMatch c now startNow s).games g).scores = (s.games g).scores := by
  by_cases hguard : c ∈ s.waitingPlayers ∨ (s.conns c).gameId ≠ none
  · rw [findMatch_of_guard s c now startNow hguard]
    exact ⟨gameFrame_refl g s, rfl⟩
  · have hq : c ∉ s.waitingPlayers := fun hm => hguard (Or.inl hm)
    have hgid : (s.conns c).gameId = none := by
      by_contra hne
      exact hguard (Or.inr hne)
    cases hw : s.waitingPlayers with
    | nil =>
      rw [findMatch_enqueue s c now startNow hw hgid]
      exact ⟨gameFrame_of_same g s _ (le_refl _) (fun _ => rfl) (fun _ h => h) rfl rfl rfl,
        rfl⟩
    | cons o rest =>
      rw [findMatch_pair s c o rest now startNow hq hgid hw]
      have hne : g ≠ s.nextGame := Nat.ne_of_lt hg
      refine ⟨gameFrame_of_same g s _ (Nat.le_succ _)
        (fun x => findMatch_pair_userId s c o _ x) ?_ ?_ ?_ ?_, ?_⟩
      · intro x hx
        exact (findMatch_pair_isOpen s c o _ x).trans hx
      · simp only [Function.update_noteq hne]
      · simp only [Function.update_noteq hne]
      · simp only [Function.update_noteq hne]
      · simp only [Function.update_noteq hne]

theorem cancelMatch_frame (g : Nat) (s : State) (c : ConnRef) :
    GameFrame g s (cancelMatch c s) ∧
    ((cancelMatch c s).games g).scores = (s.games g).scores := by
  unfold cancelMatch
  split
  · exact ⟨gameFrame_of_same g s _ (le_refl _) (fun _ => rfl) (fun _ h => h) rfl rfl rfl, rfl⟩
  · exact ⟨gameFrame_refl g s, rfl⟩

theorem rejoinGame_frame (g : Nat) (s : State) (w : ConnRef) (id : Nat)
    (hopen : (s.conns w).isOpen = true) :
    GameFrame g s (rejoinGame w id s) ∧
    ((rejoinGame w id s).games g).scores = (s.games g).scores := by
  unfold rejoinGame
  split
  · exact send_frame g s w _
  · rename_i g0 hget
    have hcl : ∀ x, (s.conns x).isOpen = false →
        ((Function.update s.conns w { s.conns w with gameId := some id }) x).isOpen
          = false := by
      intro x hx
      exact (update_gameId_isOpen _ _ _ _).trans hx
    by_cases h1 : (s.conns (s.games g0).player1).userId = (s.conns w).userId
    · simp only [h1, if_true]
      by_cases hr : g = g0
      · subst hr
        refine ⟨⟨le_refl _, fun x => update_gameId_userId _ _ _ _, hcl, ?_, ?_, ?_⟩, ?_⟩
        · simp [State.send, State.setGameId]
        · right
          simp only [State.send, State.setGameId, Function.update_same]
          exact ⟨hopen, h1.symm⟩
        · left
          simp [State.send, State.setGameId]
        · simp [State.send, State.setGameId]
      · refine ⟨gameFrame_of_same g s _ (le_refl _) (fun x => update_gameId_userId _ _ _ _)
          hcl ?_ ?_ ?_, ?_⟩
        all_goals simp [State.send, State.setGameId, Function.update_noteq hr]
    · by_cases h2 : (s.conns (s.games g0).player2).userId = (s.conns w).userId
      · simp only [h1, h2, if_true, if_false]
        by_cases hr : g = g0
        · subst hr
          refine ⟨⟨le_refl _, fun x => update_gameId_userId _ _ _ _, hcl, ?_, ?_, ?_⟩, ?_⟩
          · simp [State.send, State.setGameId]
          · left
            simp [State.send, State.setGameId]
          · right
            simp only [State.send, State.setGameId, Function.update_same]
            exact ⟨hopen, h2.symm⟩
          · simp [State.send, State.setGameId]
        · refine ⟨gameFrame_of_same g s _ (le_refl _)
            (fun x => update_gameId_userId _ _ _ _) hcl ?_ ?_ ?_, ?_⟩
          all_goals simp [State.send, State.setGameId, Function.update_noteq hr]
      · simp only [h1, h2, if_false]
        exact send_frame g s w _

theorem frame_then (g : Nat) (s t u : State)
    (a : GameFrame g s t ∧ (t.games g).scores = (s.games g).scores)
    (b : GameFrame g t u ∧ (u.games g).scores = (t.games g).scores) :
    GameFrame g s u ∧ (u.games g).scores = (s.games g).scores :=
  ⟨gameFrame_trans g s t u a.1 b.1, b.2.trans a.2⟩

theorem broadcastPlayerUpdate_frame (g : Nat) (s : State) (ws : ConnRef)
    (position rotation : Payload) :
    GameFrame g s (broadcastPlayerUpdate ws position rotation s) ∧
    ((broadcastPlayerUpdate ws position rotation s).games g).scores
      = (s.games g).scores := by
  unfold broadcastPlayerUpdate
  split
  · exact ⟨gameFrame_refl g s, rfl⟩
  · exact frame_then g s _ _ (setGameId_frame g s ws _) (sendIfOpen_frame g _ _ _)

theorem handleShoot_frame (g : Nat) (s : State) (ws : ConnRef)
    (position direction : Payload) :
    GameFrame g s (handleShoot ws position direction s) ∧
    ((handleShoot ws position direction s).games g).scores = (s.games g).scores := by
  unfold handleShoot
  split
  · exact ⟨gameFrame_refl g s, rfl⟩
  · split
    · exact ⟨gameFrame_refl g s, rfl⟩
    · exact sendIfOpen_frame g s _ _

theorem endGame_frame (g : Nat) (s : State) (g0 : GameRef) (winnerId : Nat) :
    GameFrame g s (endGame g0 winnerId s) ∧
    ((endGame g0 winnerId s).games g).scores = (s.games g).scores := by
  refine ⟨gameFrame_of_same g s _ (le_refl _) (fun x => endGame_userId s g0 winnerId x) ?_
    rfl rfl rfl, rfl⟩
  intro x hx
  exact (endGame_isOpen s g0 winnerId x).trans hx

theorem handleHit_frame (g : Nat) (s : State) (ws : ConnRef) :
    GameFrame g s (handleHit ws s) ∧
    ((findGameByUser s (s.conns ws).userId s.activeGames).map (fun r => r.2.1) ≠ some g →
      ((handleHit ws s).games g).scores = (s.games g).scores) := by
  cases hs : findGameByUser s (s.conns ws).userId s.activeGames with
  | none =>
    rw [handleHit_unresolved s ws hs]
    exact ⟨gameFrame_refl g s, fun _ => rfl⟩
  | some r =>
    obtain ⟨id, g0, opp⟩ := r
    have hmid : ∀ (sc : Scores) (out : List (ConnRef × Msg)),
        GameFrame g s { s with
          conns := Function.update s.conns ws { s.conns ws with gameId := some id }
          games := Function.update s.games g0 { s.games g0 with scores := sc }
          sent := out } := by
      intro sc out
      refine gameFrame_of_same g s _ (le_refl _) (fun x => update_gameId_userId _ _ _ _) ?_
        ?_ ?_ ?_
      · intro x hx
        exact (update_gameId_isOpen _ _ _ _).trans hx
      · by_cases hr : g = g0
        · subst hr
          simp
        · simp [Function.update_noteq hr]
      · by_cases hr : g = g0
        · subst hr
          simp
        · simp [Function.update_noteq hr]
      · by_cases hr : g = g0
        · subst hr
          simp
        · simp [Function.update_noteq hr]
    have hsc : ∀ (sc : Scores), g0 ≠ g →
        (Function.update s.games g0 { s.games g0 with scores := sc } g).scores
          = (s.games g).scores := by
      intro sc hne
      simp [Function.update_noteq (Ne.symm hne)]
    have hne2 : Option.map (fun r : Nat × GameRef × ConnRef => r.2.1) (some (id, g0, opp))
        ≠ some g → g0 ≠ g := by
      intro hne e
      apply hne
      simp [e]
    rw [handleHit_resolved s ws id g0 opp hs]
    split
    · refine ⟨gameFrame_trans g s _ _ (hmid _ _) (endGame_frame g _ g0 _).1, ?_⟩
      intro hne
      rw [(endGame_frame g _ g0 _).2]
      exact hsc _ (hne2 hne)
    · exact ⟨hmid _ _, fun hne => hsc _ (hne2 hne)⟩

theorem setClosed_frame (g : Nat) (s : State) (c : ConnRef) :
    GameFrame g s (s.setClosed c) ∧ ((s.setClosed c).games g).scores = (s.games g).scores := by
  refine ⟨gameFrame_of_same g s _ (le_refl _) ?_ ?_ rfl rfl rfl, rfl⟩
  · intro x
    by_cases hx : x = c
    · subst hx
      simp [State.setClosed]
    · simp [State.setClosed, Function.update_noteq hx]
  · intro x h
    by_cases hx : x = c
    · subst hx
      simp [State.setClosed]
    · simpa [State.setClosed, Function.update_noteq hx] using h

theorem handlePlayerDisconnect_scores (s : State) (ws : ConnRef) (g : GameRef) :
    ((handlePlayerDisconnect ws s).games g).scores = (s.games g).scores := by
  have h1 : ∀ g, ((if ws ∈ s.waitingPlayers then
        ({ s with waitingPlayers := s.waitingPlayers.erase ws } : State)
      else s).games g).scores = (s.games g).scores := by
    intro g
    split <;> rfl
  unfold handlePlayerDisconnect
  generalize (if ws ∈ s.waitingPlayers then
        ({ s with waitingPlayers := s.waitingPlayers.erase ws } : State)
      else s) = s1 at h1
  simp only []
  split
  · exact h1 g
  · split
    · exact h1 g
    · rename_i g0 _
      rw [← h1 g]
      by_cases hr : g = g0
      · subst hr
        split
        · simp
        · split
          · simp
          · rfl
      · split
        · simp [Function.update_noteq hr]
        · split
          · simp [Function.update_noteq hr]
          · rfl

theorem handlePlayerDisconnect_frame (g : Nat) (s : State) (ws : ConnRef) :
    GameFrame g s (handlePlayerDisconnect ws s) ∧
    ((handlePlayerDisconnect ws s).games g).scores = (s.games g).scores := by
  obtain ⟨fc, fn, _, _, fp, _⟩ := handlePlayerDisconnect_fields s ws
  refine ⟨gameFrame_of_same g s _ (le_of_eq fn.symm) ?_ ?_ (fp g).2.2 (fp g).1 (fp g).2.1,
    handlePlayerDisconnect_scores s ws g⟩
  · intro x
    rw [fc]
  · intro x hx
    rw [fc]
    exact hx

theorem deleteKey_frame (g : Nat) (s : State) (k : Nat) :
    GameFrame g s { s with activeGames := mapDelete k s.activeGames } ∧
    (({ s with activeGames := mapDelete k s.activeGames } : State).games g).scores
      = (s.games g).scores :=
  ⟨gameFrame_of_same g s _ (le_refl _) (fun _ => rfl) (fun _ h => h) rfl rfl rfl, rfl⟩

theorem graceTimer_frame (g : Nat) (s : State) (ws : ConnRef) (g0 : GameRef) :
    GameFrame g s (graceTimer ws g0 s) ∧
    ((graceTimer ws g0 s).games g).scores = (s.games g).scores := by
  cases hid : (s.conns ws).gameId with
  | none =>
    have e : graceTimer ws g0 s = s := by
      unfold graceTimer
      simp only [hid]
    rw [e]
    exact ⟨gameFrame_refl g s, rfl⟩
  | some gid =>
    cases hget : mapGet gid s.activeGames with
    | none =>
      have e : graceTimer ws g0 s = s := by
        unfold graceTimer
        simp only [hid, hget]
      rw [e]
      exact ⟨gameFrame_refl g s, rfl⟩
    | some g1 =>
      by_cases hcond : ((s.games g0).player1 = ws ∧ (s.games g0).player1Disconnected = true) ∨
          ((s.games g0).player2 = ws ∧ (s.games g0).player2Disconnected = true)
      · rw [graceTimer_fire s ws g0 gid g1 hid hget hcond]
        generalize (if (s.games g0).player1 = ws then (s.games g0).player2
          else (s.games g0).player1) = opp
        split
        · exact frame_then g s _ _ (endGame_frame g s g0 _) (send_frame g _ _ _)
        · exact deleteKey_frame g s gid
      · have e : graceTimer ws g0 s = s := by
          unfold graceTimer
          simp only [hid, hget, if_neg hcond]
        rw [e]
        exact ⟨gameFrame_refl g s, rfl⟩

theorem step_frame (e : Event) (s t : State) (hstep : step e s = some t) (g : Nat)
    (hg : g < s.nextGame) :
    GameFrame g s t ∧ (hitTarget s e ≠ some g → (t.games g).scores = (s.games g).scores) := by
  cases e with
  | message ws data now startNow =>
    simp only [step] at hstep
    split at hstep
    · rename_i hopen
      simp only [Option.some.injEq] at hstep
      subst hstep
      cases data with
      | findMatch =>
        exact ⟨(findMatch_frame g s ws now startNow hg).1,
          fun _ => (findMatch_frame g s ws now startNow hg).2⟩
      | cancelMatch => exact ⟨(cancelMatch_frame g s ws).1, fun _ => (cancelMatch_frame g s ws).2⟩
      | rejoinGame gameId =>
        exact ⟨(rejoinGame_frame g s ws gameId hopen).1,
          fun _ => (rejoinGame_frame g s ws gameId hopen).2⟩
      | playerUpdate p r =>
        exact ⟨(broadcastPlayerUpdate_frame g s ws p r).1,
          fun _ => (broadcastPlayerUpdate_frame g s ws p r).2⟩
      | shoot p d =>
        exact ⟨(handleShoot_frame g s ws p d).1, fun _ => (handleShoot_frame g s ws p d).2⟩
      | hit => exact handleHit_frame g s ws
      | other => exact ⟨gameFrame_refl g s, fun _ => rfl⟩
    · cases hstep
  | close ws =>
    simp only [step] at hstep
    split at hstep
    · simp only [Option.some.injEq] at hstep
      subst hstep
      have h := frame_then g s _ _ (setClosed_frame g s ws)
        (handlePlayerDisconnect_frame g (s.setClosed ws) ws)
      exact ⟨h.1, fun _ => h.2⟩
    · cases hstep
  | timer ws g0 =>
    simp only [step] at hstep
    split at hstep
    · simp only [Option.some.injEq] at hstep
      subst hstep
      have h0 : GameFrame g s { s with timers := s.timers.erase (ws, g0) } ∧
          (({ s with timers := s.timers.erase (ws, g0) } : State).games g).scores
            = (s.games g).scores :=
        ⟨gameFrame_of_same g s _ (le_refl _) (fun _ => rfl) (fun _ h => h) rfl rfl rfl, rfl⟩
      have h := frame_then g s _ _ h0 (graceTimer_frame g _ ws g0)
      exact ⟨h.1, fun _ => h.2⟩
    · cases hstep

theorem run_frame : ∀ (evs : List Event) (s t : State) (g : Nat),
    run evs s = some t → g < s.nextGame → GameFrame g s t
  | [], s, t, g, hrun, _ => by
    simp only [run, Option.some.injEq] at hrun
    subst hrun
    exact gameFrame_refl g s
  | e :: es, s, t, g, hrun, hg => by
    simp only [run] at hrun
    cases hs : step e s with
    | none =>
      rw [hs] at hrun
      cases hrun
    | some s1 =>
      rw [hs] at hrun
      have h1 := (step_frame e s s1 hs g hg).1
      exact gameFrame_trans g s s1 t h1
        (run_frame es s1 t g hrun (Nat.lt_of_lt_of_le hg h1.next))

theorem runAvoiding_frame : ∀ (evs : List Event) (s t : State) (g : Nat),
    runAvoiding g evs s = some t → g < s.nextGame →
    run evs s = some t ∧ GameFrame g s t ∧ (t.games g).scores = (s.games g).scores
  | [], s, t, g, hrun, _ => by
    simp only [runAvoiding, Option.some.injEq] at hrun
    subst hrun
    exact ⟨rfl, gameFrame_refl g s, rfl⟩
  | e :: es, s, t, g, hrun, hg => by
    simp only [runAvoiding] at hrun
    split at hrun
    · cases hrun
    · rename_i hne
      cases hs : step e s with
      | none =>
        rw [hs] at hrun
        cases hrun
      | some s1 =>
        rw [hs] at hrun
        obtain ⟨h1, h2⟩ := step_frame e s s1 hs g hg
        obtain ⟨r1, r2, r3⟩ := runAvoiding_frame es s1 t g hrun
          (Nat.lt_of_lt_of_le hg h1.next)
        refine ⟨?_, gameFrame_trans g s s1 t h1 r2, r3.trans (h2 hne)⟩
        simp only [run, hs]
        exact r1

/-! ## The keys of the registry -/

theorem mapSet_keys_nodup (k : Nat) (v : GameRef) :
    ∀ m : List (Nat × GameRef), (m.map Prod.fst).Nodup → ((mapSet k v m).map Prod.fst).Nodup
  | [], _ => by simp [mapSet]
  | (k', v') :: rest, h => by
    simp only [List.map_cons, List.nodup_cons] at h
    by_cases hk : k' = k
    · simp only [mapSet, hk, if_true, List.map_cons, List.nodup_cons]
      rw [← hk]
      exact h
    · simp only [mapSet, hk, if_false, List.map_cons, List.nodup_cons]
      refine ⟨?_, mapSet_keys_nodup k v rest h.2⟩
      intro hm
      obtain ⟨e, he, hek⟩ := List.mem_map.1 hm
      rcases mem_mapSet he with heq | hold
      · subst heq
        exact hk hek.symm
      · exact h.1 (List.mem_map.2 ⟨e, hold, hek⟩)

theorem mapDelete_keys_nodup (k : Nat) (m : List (Nat × GameRef))
    (h : (m.map Prod.fst).Nodup) : ((mapDelete k m).map Prod.fst).Nodup :=
  List.Nodup.sublist (List.Sublist.map _ (List.filter_sublist _)) h

theorem mapGet_of_mem {k : Nat} {g : GameRef} :
    ∀ {m : List (Nat × GameRef)}, (m.map Prod.fst).Nodup → (k, g) ∈ m → mapGet k m = some g
  | [], _, h => by cases h
  | (k', v') :: rest, hnd, h => by
    simp only [List.map_cons, List.nodup_cons] at hnd
    simp only [mapGet, List.lookup]
    rcases List.mem_cons.1 h with heq | hold
    · simp only [Prod.mk.injEq] at heq
      obtain ⟨rfl, rfl⟩ := heq
      simp
    · have hne : (k == k') = false := by
        simp only [beq_eq_false_iff_ne, ne_eq]
        intro e
        subst e
        exact hnd.1 (List.mem_map.2 ⟨(k, g), hold, rfl⟩)
      rw [hne]
      exact mapGet_of_mem hnd.2 hold

theorem mem_mapSet_self (k : Nat) (v : GameRef) :
    ∀ m : List (Nat × GameRef), (k, v) ∈ mapSet k v m
  | [] => by simp [mapSet]
  | (k', v') :: rest => by
    by_cases hk : k' = k
    · simp [mapSet, hk]
    · simp only [mapSet, hk, if_false]
      exact List.mem_cons_of_mem _ (mem_mapSet_self k v rest)

theorem rejoinGame_activeGames (s : State) (w : ConnRef) (id : Nat) :
    (rejoinGame w id s).activeGames = s.activeGames := by
  unfold rejoinGame
  split
  · rfl
  · simp only []
    split
    · rfl
    · split <;> rfl

theorem sendIfOpen_activeGames (s : State) (c : ConnRef) (m : Msg) :
    (s.sendIfOpen c m).activeGames = s.activeGames := by
  unfold State.sendIfOpen
  split <;> rfl

theorem findMatch_activeGames (s : State) (ws : ConnRef) (now startNow : Nat) :
    (findMatch ws now startNow s).activeGames = s.activeGames ∨
    (findMatch ws now startNow s).activeGames = mapSet now s.nextGame s.activeGames := by
  by_cases hguard : ws ∈ s.waitingPlayers ∨ (s.conns ws).gameId ≠ none
  · rw [findMatch_of_guard s ws now startNow hguard]
    exact Or.inl rfl
  · have hq : ws ∉ s.waitingPlayers := fun hm => hguard (Or.inl hm)
    have hgid : (s.conns ws).gameId = none := by
      by_contra hne
      exact hguard (Or.inr hne)
    cases hw : s.waitingPlayers with
    | nil =>
      rw [findMatch_enqueue s ws now startNow hw hgid]
      exact Or.inl rfl
    | cons o rest =>
      rw [findMatch_pair s ws o rest now startNow hq hgid hw]
      exact Or.inr rfl

theorem handleHit_activeGames (s : State) (ws : ConnRef) :
    (handleHit ws s).activeGames = s.activeGames ∨
    ∃ k, (handleHit ws s).activeGames = mapDelete k s.activeGames := by
  cases hs : findGameByUser s (s.conns ws).userId s.activeGames with
  | none =>
    rw [handleHit_unresolved s ws hs]
    exact Or.inl rfl
  | some r =>
    obtain ⟨id, g, opp⟩ := r
    rw [handleHit_resolved s ws id g opp hs]
    split
    · exact Or.inr ⟨_, endGame_activeGames _ _ _⟩
    · exact Or.inl rfl

theorem graceTimer_activeGames (s : State) (ws : ConnRef) (g : GameRef) :
    (graceTimer ws g s).activeGames = s.activeGames ∨
    ∃ k, (graceTimer ws g s).activeGames = mapDelete k s.activeGames := by
  cases hid : (s.conns ws).gameId with
  | none =>
    have e : graceTimer ws g s = s := by
      unfold graceTimer
      simp only [hid]
    rw [e]
    exact Or.inl rfl
  | some gid =>
    cases hget : mapGet gid s.activeGames with
    | none =>
      have e : graceTimer ws g s = s := by
        unfold graceTimer
        simp only [hid, hget]
      rw [e]
      exact Or.inl rfl
    | some g1 =>
      by_cases hcond : ((s.games g).player1 = ws ∧ (s.games g).player1Disconnected = true) ∨
          ((s.games g).player2 = ws ∧ (s.games g).player2Disconnected = true)
      · rw [graceTimer_fire s ws g gid g1 hid hget hcond]
        generalize (if (s.games g).player1 = ws then (s.games g).player2
          else (s.games g).player1) = opp
        split
        · exact Or.inr ⟨_, endGame_activeGames _ _ _⟩
        · exact Or.inr ⟨gid, rfl⟩
      · have e : graceTimer ws g s = s := by
          unfold graceTimer
          simp only [hid, hget, if_neg hcond]
        rw [e]
        exact Or.inl rfl

theorem step_activeGames (e : Event) (s t : State) (hstep : step e s = some t) :
    t.activeGames = s.activeGames ∨ (∃ k v, t.activeGames = mapSet k v s.activeGames) ∨
    (∃ k, t.activeGames = mapDelete k s.activeGames) := by
  cases e with
  | message ws data now startNow =>
    simp only [step] at hstep
    split at hstep
    · simp only [Option.some.injEq] at hstep
      subst hstep
      cases data with
      | findMatch =>
        rcases findMatch_activeGames s ws now startNow with h | h
        · exact Or.inl h
        · exact Or.inr (Or.inl ⟨_, _, h⟩)
      | cancelMatch =>
        left
        show (cancelMatch ws s).activeGames = _
        unfold cancelMatch
        split <;> rfl
      | rejoinGame gameId => exact Or.inl (rejoinGame_activeGames s ws gameId)
      | playerUpdate p r =>
        left
        show (broadcastPlayerUpdate ws p r s).activeGames = _
        unfold broadcastPlayerUpdate
        split
        · rfl
        · exact (sendIfOpen_activeGames _ _ _).trans rfl
      | shoot p d =>
        left
        show (handleShoot ws p d s).activeGames = _
        unfold handleShoot
        split
        · rfl
        · split
          · rfl
          · exact sendIfOpen_activeGames _ _ _
      | hit =>
        rcases handleHit_activeGames s ws with h | ⟨k, h⟩
        · exact Or.inl h
        · exact Or.inr (Or.inr ⟨k, h⟩)
      | other => exact Or.inl rfl
    · cases hstep
  | close ws =>
    simp only [step] at hstep
    split at hstep
    · simp only [Option.some.injEq] at hstep
      subst hstep
      exact Or.inl (handlePlayerDisconnect_fields (s.setClosed ws) ws).2.2.1
    · cases hstep
  | timer ws g =>
    simp only [step] at hstep
    split at hstep
    · simp only [Option.some.injEq] at hstep
      subst hstep
      rcases graceTimer_activeGames { s with timers := s.timers.erase (ws, g) } ws g
        with h | ⟨k, h⟩
      · exact Or.inl h
      · exact Or.inr (Or.inr ⟨k, h⟩)
    · cases hstep

theorem step_keys_nodup (e : Event) (s t : State) (hstep : step e s = some t)
    (h : (s.activeGames.map Prod.fst).Nodup) : (t.activeGames.map Prod.fst).Nodup := by
  rcases step_activeGames e s t hstep with e1 | ⟨k, v, e1⟩ | ⟨k, e1⟩
  · rw [e1]
    exact h
  · rw [e1]
    exact mapSet_keys_nodup k v _ h
  · rw [e1]
    exact mapDelete_keys_nodup k _ h

theorem run_keys_nodup : ∀ (evs : List Event) (s t : State),
    run evs s = some t → (s.activeGames.map Prod.fst).Nodup →
    (t.activeGames.map Prod.fst).Nodup
  | [], s, t, hrun, h => by
    simp only [run, Option.some.injEq] at hrun
    subst hrun
    exact h
  | e :: es, s, t, hrun, h => by
    simp only [run] at hrun
    cases hs : step e s with
    | none =>
      rw [hs] at hrun
      cases hrun
    | some s1 =>
      rw [hs] at hrun
      exact run_keys_nodup es s1 t hrun (step_keys_nodup e s s1 hs h)

theorem reachable_keys_nodup (s : State) (h : Reachable s) :
    (s.activeGames.map Prod.fst).Nodup := by
  obtain ⟨users, evs, hrun⟩ := h
  exact run_keys_nodup evs _ s hrun List.nodup_nil

/-! ## Five hits with other turns in between -/

theorem hit_round (t t' : State) (ws : ConnRef) (g : GameRef) (id : Nat) (opp : ConnRef)
    (n : Nat) (es : List Event)
    (hok : RegistryOK t) (hnd : (t.activeGames.map Prod.fst).Nodup)
    (hscan : findGameByUser t (t.conns ws).userId t.activeGames = some (id, g, opp))
    (hsc : getScore (t.conns ws).userId (t.games g).scores = some (.num n)) (hn : n < 4)
    (hrun : runAvoiding g es (handleHit ws t) = some t') :
    mapGet id (handleHit ws t).activeGames = some g ∧
    RegistryOK t' ∧ (t'.activeGames.map Prod.fst).Nodup ∧
    (t'.conns ws).userId = (t.conns ws).userId ∧
    (t'.games g).scores = setScore (t.conns ws).userId (.num (n + 1)) (t.games g).scores := by
  have hmem := (findGameByUser_some t _ _ id g opp hscan).1
  have hlt : g < t.nextGame := (hok (id, g) hmem).1
  have hge : ¬ (geFive (some (JsNum.num (n + 1))) = true) := by
    simp only [geFive, decide_eq_true_eq]
    omega
  have hinc : jsIncr (some (JsNum.num n)) = JsNum.num (n + 1) := rfl
  have hok1 : RegistryOK (handleHit ws t) := handleHit_registryOK t ws hok
  have heq := handleHit_resolved t ws id g opp hscan
  rw [hsc, hinc, if_neg hge] at heq
  have ha : (handleHit ws t).activeGames = t.activeGames := by rw [heq]
  have hn1 : (handleHit ws t).nextGame = t.nextGame := by rw [heq]
  have hu1 : ((handleHit ws t).conns ws).userId = (t.conns ws).userId := by
    rw [heq]
    exact update_gameId_userId _ _ _ _
  have hs1 : ((handleHit ws t).games g).scores
      = setScore (t.conns ws).userId (.num (n + 1)) (t.games g).scores := by
    rw [heq]
    simp only [Function.update_same]
  obtain ⟨r1, r2, r3⟩ := runAvoiding_frame es _ t' g hrun (by rw [hn1]; exact hlt)
  refine ⟨?_, run_registryOK es _ t' r1 hok1,
    run_keys_nodup es _ t' r1 (by rw [ha]; exact hnd), (r2.uid ws).trans hu1, r3.trans hs1⟩
  rw [ha]
  exact mapGet_of_mem hnd hmem

theorem hit_final (t : State) (ws : ConnRef) (g : GameRef) (id : Nat) (opp : ConnRef)
    (hok : RegistryOK t)
    (hscan : findGameByUser t (t.conns ws).userId t.activeGames = some (id, g, opp))
    (hsc : getScore (t.conns ws).userId (t.games g).scores = some (.num 4)) :
    mapGet id (handleHit ws t).activeGames = none ∧
    (handleHit ws t).sent = t.sent ++
      ((ws, Msg.scoreUpdate (setScore (t.conns ws).userId (.num 5) (t.games g).scores)) ::
       (if (t.conns opp).isOpen then
          [(opp, Msg.scoreUpdate (setScore (t.conns ws).userId (.num 5) (t.games g).scores))]
        else [])) ++
      [((t.games g).player1,
          Msg.gameOver (t.conns ws).userId
            (setScore (t.conns ws).userId (.num 5) (t.games g).scores)),
       ((t.games g).player2,
          Msg.gameOver (t.conns ws).userId
            (setScore (t.conns ws).userId (.num 5) (t.games g).scores))] := by
  have hmem := (findGameByUser_some t _ _ id g opp hscan).1
  have hkey : (t.games g).id = id := (hok (id, g) hmem).2.1
  have hge : geFive (some (jsIncr (some (JsNum.num 4)))) = true := by decide
  have h5 : jsIncr (some (JsNum.num 4)) = JsNum.num 5 := rfl
  rw [handleHit_resolved t ws id g opp hscan, hsc, if_pos hge]
  constructor
  · simp only [endGame, State.send, State.setGameId, Function.update_same, hkey]
    exact mapGet_mapDelete_same _ _
  · simp only [endGame, State.send, State.setGameId, Function.update_same, h5,
      List.append_assoc]
    rfl

/-- C3 (amended): for a registered session (key `id`, game object `g`) in a reachable
state, with both scores 0 and two participants of different owner ids, and a
connection `ws` of participant P: if `ws` sends `hit` five times, each of which the
owner-id scan of `handleHit` resolves to this session, with any turns of the event
loop in between (`es1` to `es4`) other than a `hit` credited to this session, then
the session is still registered after each of the first four hits, and the fifth
hit finishes it: after the score frames of that hit, `gameOver` with `winnerId` the
owner id of P and scores 5 for P and 0 for the opponent is sent to both slot
connections, and the session is removed from the registry. -/
theorem five_hits_finish_interleaved (s0 s1 s2 s3 s4 : State) (ws : ConnRef) (g : GameRef)
    (id : Nat) (o0 o1 o2 o3 o4 : ConnRef) (es1 es2 es3 es4 : List Event)
    (hreach : Reachable s0)
    (hscan0 : findGameByUser s0 (s0.conns ws).userId s0.activeGames = some (id, g, o0))
    (hdiff : (s0.conns o0).userId ≠ (s0.conns ws).userId)
    (h0 : getScore (s0.conns ws).userId (s0.games g).scores = some (.num 0))
    (h0' : getScore (s0.conns o0).userId (s0.games g).scores = some (.num 0))
    (hrun1 : runAvoiding g es1 (handleHit ws s0) = some s1)
    (hscan1 : findGameByUser s1 (s1.conns ws).userId s1.activeGames = some (id, g, o1))
    (hrun2 : runAvoiding g es2 (handleHit ws s1) = some s2)
    (hscan2 : findGameByUser s2 (s2.conns ws).userId s2.activeGames = some (id, g, o2))
    (hrun3 : runAvoiding g es3 (handleHit ws s2) = some s3)
    (hscan3 : findGameByUser s3 (s3.conns ws).userId s3.activeGames = some (id, g, o3))
    (hrun4 : runAvoiding g es4 (handleHit ws s3) = some s4)
    (hscan4 : findGameByUser s4 (s4.conns ws).userId s4.activeGames = some (id, g, o4)) :
    mapGet id (handleHit ws s0).activeGames = some g ∧
    mapGet id (handleHit ws s1).activeGames = some g ∧
    mapGet id (handleHit ws s2).activeGames = some g ∧
    mapGet id (handleHit ws s3).activeGames = some g ∧
    mapGet id (handleHit ws s4).activeGames = none ∧
    (handleHit ws s4).sent = s4.sent ++
      ((ws, Msg.scoreUpdate (setScore (s0.conns ws).userId (.num 5) (s0.games g).scores)) ::
       (if (s4.conns o4).isOpen then
          [(o4, Msg.scoreUpdate (setScore (s0.conns ws).userId (.num 5) (s0.games g).scores))]
        else [])) ++
      [((s4.games g).player1,
          Msg.gameOver (s0.conns ws).userId
            (setScore (s0.conns ws).userId (.num 5) (s0.games g).scores)),
       ((s4.games g).player2,
          Msg.gameOver (s0.conns ws).userId
            (setScore (s0.conns ws).userId (.num 5) (s0.games g).scores))] ∧
    getScore (s0.conns ws).userId
      (setScore (s0.conns ws).userId (.num 5) (s0.games g).scores) = some (.num 5) ∧
    getScore (s0.conns o0).userId
      (setScore (s0.conns ws).userId (.num 5) (s0.games g).scores) = some (.num 0) := by
  obtain ⟨a1, ok1, nd1, u1, sc1⟩ := hit_round s0 s1 ws g id o0 0 es1
    (reachable_registryOK s0 hreach) (reachable_keys_nodup s0 hreach) hscan0 h0
    (by decide) hrun1
  have g1 : getScore (s1.conns ws).userId (s1.games g).scores = some (.num 1) := by
    rw [u1, sc1]
    exact getScore_setScore_same _ _ _
  obtain ⟨a2, ok2, nd2, u2, sc2⟩ := hit_round s1 s2 ws g id o1 1 es2 ok1 nd1 hscan1 g1
    (by decide) hrun2
  rw [u1, sc1, setScore_setScore] at sc2
  rw [u1] at u2
  have g2 : getScore (s2.conns ws).userId (s2.games g).scores = some (.num 2) := by
    rw [u2, sc2]
    exact getScore_setScore_same _ _ _
  obtain ⟨a3, ok3, nd3, u3, sc3⟩ := hit_round s2 s3 ws g id o2 2 es3 ok2 nd2 hscan2 g2
    (by decide) hrun3
  rw [u2, sc2, setScore_setScore] at sc3
  rw [u2] at u3
  have g3 : getScore (s3.conns ws).userId (s3.games g).scores = some (.num 3) := by
    rw [u3, sc3]
    exact getScore_setScore_same _ _ _
  obtain ⟨a4, ok4, nd4, u4, sc4⟩ := hit_round s3 s4 ws g id o3 3 es4 ok3 nd3 hscan3 g3
    (by decide) hrun4
  rw [u3, sc3, setScore_setScore] at sc4
  rw [u3] at u4
  have g4 : getScore (s4.conns ws).userId (s4.games g).scores = some (.num 4) := by
    rw [u4, sc4]
    exact getScore_setScore_same _ _ _
  obtain ⟨f1, f2⟩ := hit_final s4 ws g id o4 ok4 hscan4 g4
  rw [u4, sc4, setScore_setScore] at f2
  refine ⟨a1, a2, a3, a4, f1, f2, getScore_setScore_same _ _ _, ?_⟩
  rw [getScore_setScore_other _ _ _ _ hdiff]
  exact h0'

/-! ## Rejoining with other turns in between -/

theorem gameFrame_owner (g : Nat) (s t : State) (a : GameFrame g s t) (sl : Slot) :
    (t.conns ((t.games g).slotConn sl)).userId = (s.conns ((s.games g).slotConn sl)).userId := by
  cases sl with
  | one => exact gameFrame_owner1 g s t a
  | two => exact gameFrame_owner2 g s t a

theorem gameFrame_keep (g : Nat) (s t : State) (a : GameFrame g s t) (w : ConnRef)
    (hw : (s.conns w).isOpen = false) (sl : Slot) (h : (s.games g).slotConn sl ≠ w) :
    (t.games g).slotConn sl ≠ w := by
  cases sl with
  | one => exact gameFrame_keep1 g s t a w hw h
  | two => exact gameFrame_keep2 g s t a w hw h

theorem handlePlayerDisconnect_marker (s : State) (w : ConnRef) (g : GameRef) (id : Nat)
    (sl : Slot) (hid : (s.conns w).gameId = some id)
    (hreg : mapGet id s.activeGames = some g)
    (hslot : (s.games g).slotConn sl = w)
    (hoth : (s.games g).slotConn sl.other ≠ w) :
    ((handlePlayerDisconnect w s).games g).slotMarker sl = true ∧
    (w, g) ∈ (handlePlayerDisconnect w s).timers := by
  cases sl with
  | one =>
    have h1 : (s.games g).player1 = w := hslot
    have hd : handlePlayerDisconnect w s =
        { s with
          waitingPlayers := if w ∈ s.waitingPlayers then s.waitingPlayers.erase w
                            else s.waitingPlayers
          games := Function.update s.games g { s.games g with player1Disconnected := true }
          timers := s.timers ++ [(w, g)] } := by
      unfold handlePlayerDisconnect
      by_cases hq : w ∈ s.waitingPlayers <;> simp [hq, hid, hreg, h1]
    rw [hd]
    exact ⟨by simp [Game.slotMarker], by simp⟩
  | two =>
    have h2 : (s.games g).player2 = w := hslot
    have h1 : (s.games g).player1 ≠ w := hoth
    have hd : handlePlayerDisconnect w s =
        { s with
          waitingPlayers := if w ∈ s.waitingPlayers then s.waitingPlayers.erase w
                            else s.waitingPlayers
          games := Function.update s.games g { s.games g with player2Disconnected := true }
          timers := s.timers ++ [(w, g)] } := by
      unfold handlePlayerDisconnect
      by_cases hq : w ∈ s.waitingPlayers <;> simp [hq, hid, hreg, h1, h2]
    rw [hd]
    exact ⟨by simp [Game.slotMarker], by simp⟩

theorem rejoinGame_slot (t : State) (w' : ConnRef) (id : Nat) (g : GameRef) (sl : Slot)
    (hreg : mapGet id t.activeGames = some g)
    (hown : (t.conns ((t.games g).slotConn sl)).userId = (t.conns w').userId)
    (hdiff : (t.conns ((t.games g).slotConn sl.other)).userId ≠ (t.conns w').userId) :
    ((rejoinGame w' id t).games g).slotConn sl = w' ∧
    ((rejoinGame w' id t).games g).slotMarker sl = false ∧
    ((rejoinGame w' id t).games g).slotConn sl.other = (t.games g).slotConn sl.other ∧
    (rejoinGame w' id t).sent = t.sent ++ [(w', .gameRejoined id (t.games g).scores)] := by
  cases sl with
  | one =>
    have h1 : (t.conns (t.games g).player1).userId = (t.conns w').userId := hown
    refine ⟨?_, ?_, ?_, ?_⟩
    · simp [rejoinGame, hreg, h1, State.send, State.setGameId, Game.slotConn]
    · simp [rejoinGame, hreg, h1, State.send, State.setGameId, Game.slotMarker]
    · simp [rejoinGame, hreg, h1, State.send, State.setGameId, Game.slotConn, Slot.other]
    · simp [rejoinGame, hreg, h1, State.send, State.setGameId]
  | two =>
    have h2 : (t.conns (t.games g).player2).userId = (t.conns w').userId := hown
    have h1 : (t.conns (t.games g).player1).userId ≠ (t.conns w').userId := hdiff
    refine ⟨?_, ?_, ?_, ?_⟩
    · simp [rejoinGame, hreg, h1, h2, State.send, State.setGameId, Game.slotConn]
    · simp [rejoinGame, hreg, h1, h2, State.send, State.setGameId, Game.slotMarker]
    · simp [rejoinGame, hreg, h1, h2, State.send, State.setGameId, Game.slotConn, Slot.other]
    · simp [rejoinGame, hreg, h1, h2, State.send, State.setGameId]

/-- C5 (amended): for a registered session (key `id`, game object `g`) in a reachable
state and a slot `sl` whose connection `w` has that session id, provided the other
slot's participant has an owner id different from that of `w`: when `w` closes,
`handlePlayerDisconnect(w)` sets the marker of `sl` and starts the grace timer of
`w`. If then, after any turns of the event loop (`esA`), a connection `w'` with the
owner id of `w` sends `rejoinGame` with `id` while the session is still registered,
then `sl` references `w'`, the marker of `sl` is cleared, `w'` receives
`gameRejoined` carrying the session's current scores as the only frame, and the
session stays registered; and after any further turns (`esB`) the grace timer of
`w`, when it fires, returns the state unchanged: it changes nothing in the registry
or the session and sends no message. -/
theorem rejoin_within_grace (s s1 t t2 u : State) (w w' : ConnRef) (g : GameRef) (id : Nat)
    (sl : Slot) (esA esB : List Event) (n1 n2 : Nat)
    (hreach : Reachable s)
    (hid : (s.conns w).gameId = some id)
    (hreg : mapGet id s.activeGames = some g)
    (hslot : (s.games g).slotConn sl = w)
    (hdiff : (s.conns ((s.games g).slotConn sl.other)).userId ≠ (s.conns w).userId)
    (hown : (s.conns w').userId = (s.conns w).userId)
    (hclose : step (.close w) s = some s1)
    (hA : run esA s1 = some t)
    (hstill : mapGet id t.activeGames = some g)
    (hrejoin : step (.message w' (.rejoinGame id) n1 n2) t = some t2)
    (hB : run esB t2 = some u) :
    (s1.games g).slotMarker sl = true ∧ (w, g) ∈ s1.timers ∧
    (t2.games g).slotConn sl = w' ∧ (t2.games g).slotMarker sl = false ∧
    t2.sent = t.sent ++ [(w', .gameRejoined id (t.games g).scores)] ∧
    mapGet id t2.activeGames = some g ∧
    graceTimer w g u = u ∧
    (∀ u', step (.timer w g) u = some u' →
      u' = { u with timers := u.timers.erase (w, g) }) := by
  have hlt : g < s.nextGame := (reachable_registryOK s hreach (id, g) (mapGet_mem hreg)).1
  have hoth : (s.games g).slotConn sl.other ≠ w := by
    intro e
    rw [e] at hdiff
    exact hdiff rfl
  -- the close of `w`
  have fS := (step_frame (.close w) s s1 hclose g hlt).1
  simp only [step] at hclose
  split at hclose
  · simp only [Option.some.injEq] at hclose
    subst hclose
    have hgid : ((s.setClosed w).conns w).gameId = some id := by
      simp [State.setClosed, hid]
    obtain ⟨m1, m2⟩ := handlePlayerDisconnect_marker (s.setClosed w) w g id sl hgid hreg
      hslot hoth
    have hcl1 : ((handlePlayerDisconnect w (s.setClosed w)).conns w).isOpen = false := by
      rw [(handlePlayerDisconnect_fields (s.setClosed w) w).1]
      simp [State.setClosed]
    -- the turns before the rejoin
    have hlt1 := Nat.lt_of_lt_of_le hlt fS.next
    have fA := run_frame esA _ t g hA hlt1
    have fST := gameFrame_trans g s _ t fS fA
    have hclt : (t.conns w).isOpen = false := fA.closed w hcl1
    have hltT := Nat.lt_of_lt_of_le hlt fST.next
    -- the rejoin
    have fR := (step_frame _ t t2 hrejoin g hltT).1
    simp only [step] at hrejoin
    split at hrejoin
    · rename_i hopen
      simp only [Option.some.injEq] at hrejoin
      subst hrejoin
      have hownT : (t.conns ((t.games g).slotConn sl)).userId = (t.conns w').userId := by
        rw [gameFrame_owner g s t fST sl, hslot, fST.uid w', hown]
      have hdiffT : (t.conns ((t.games g).slotConn sl.other)).userId ≠ (t.conns w').userId := by
        rw [gameFrame_owner g s t fST sl.other, fST.uid w', hown]
        exact hdiff
      obtain ⟨j1, j2, j3, j4⟩ := rejoinGame_slot t w' id g sl hstill hownT hdiffT
      have hne : w' ≠ w := by
        intro e
        rw [e, hclt] at hopen
        cases hopen
      have hothT : (t.games g).slotConn sl.other ≠ w := by
        intro e
        apply hdiffT
        rw [e, fST.uid w, fST.uid w', hown]
      have hcl2 : ((rejoinGame w' id t).conns w).isOpen = false := fR.closed w hclt
      have fB := run_frame esB _ u g hB (Nat.lt_of_lt_of_le hltT fR.next)
      have k1 : (u.games g).slotConn sl ≠ w :=
        gameFrame_keep g _ u fB w hcl2 sl (by
          show ((rejoinGame w' id t).games g).slotConn sl ≠ w
          rw [j1]
          exact hne)
      have k2 : (u.games g).slotConn sl.other ≠ w :=
        gameFrame_keep g _ u fB w hcl2 sl.other (by
          show ((rejoinGame w' id t).games g).slotConn sl.other ≠ w
          rw [j3]
          exact hothT)
      have kp : (u.games g).player1 ≠ w ∧ (u.games g).player2 ≠ w := by
        cases sl with
        | one => exact ⟨k1, k2⟩
        | two => exact ⟨k2, k1⟩
      refine ⟨m1, m2, j1, j2, j4, ?_, graceTimer_noop_of_not_in_slot u w g kp.1 kp.2, ?_⟩
      · show mapGet id (rejoinGame w' id t).activeGames = some g
        rw [rejoinGame_activeGames]
        exact hstill
      · intro u' hu'
        simp only [step] at hu'
        split at hu'
        · simp only [Option.some.injEq] at hu'
          rw [← hu']
          exact graceTimer_noop_of_not_in_slot _ w g kp.1 kp.2
        · cases hu'
    · cases hrejoin
  · cases hclose

/-! ## Session ids of slot connections when owners may reconnect -/

theorem slotIdsOK_of_fields (s t : State) (h : SlotIdsOK s)
    (hn : t.nextGame = s.nextGame)
    (hp : ∀ g, (t.games g).player1 = (s.games g).player1 ∧
               (t.games g).player2 = (s.games g).player2 ∧
               (t.games g).id = (s.games g).id)
    (hc : ∀ x, (t.conns x).gameId = (s.conns x).gameId ∧
               (t.conns x).isOpen = (s.conns x).isOpen)
    (hq : t.waitingPlayers.Sublist s.waitingPlayers)
    (ha : t.activeGames.Sublist s.activeGames)
    (ht : ∀ e ∈ t.timers, e ∈ s.timers) : SlotIdsOK t := by
  refine ⟨le_trans hq.length_le h.queue_le, ?_, ?_, List.Nodup.sublist (ha.map _) h.keys, ?_⟩
  · intro c hcm
    rw [(hc c).2]
    exact h.queue_open c (hq.subset hcm)
  · intro e he
    obtain ⟨r1, r2, r3, r4⟩ := h.reg e (ha.subset he)
    rw [hn, (hp e.2).1, (hp e.2).2.1, (hp e.2).2.2, (hc _).1, (hc _).1]
    exact ⟨r1, r2, r3, r4⟩
  · intro e he
    obtain ⟨t1, t2, t3⟩ := h.timers e (ht e he)
    rw [(hc _).2, hn, (hc _).1, (hp e.2).2.2]
    exact ⟨t1, t2, t3⟩

theorem send_slotIdsOK (s : State) (c : ConnRef) (m : Msg) (h : SlotIdsOK s) :
    SlotIdsOK (s.send c m) :=
  slotIdsOK_of_fields s _ h rfl (fun _ => ⟨rfl, rfl, rfl⟩) (fun _ => ⟨rfl, rfl⟩)
    (List.Sublist.refl _) (List.Sublist.refl _) (fun _ he => he)

theorem sendIfOpen_slotIdsOK (s : State) (c : ConnRef) (m : Msg) (h : SlotIdsOK s) :
    SlotIdsOK (s.sendIfOpen c m) := by
  unfold State.sendIfOpen
  split
  · exact send_slotIdsOK s c m h
  · exact h

theorem one_session_slot (s : State) (hone : OneSessionPerOwner s) (e : Nat × GameRef)
    (he : e ∈ s.activeGames) (id : Nat) (g : GameRef) (hmem : (id, g) ∈ s.activeGames)
    (x : ConnRef)
    (hx : (s.games e.2).player1 = x ∨ (s.games e.2).player2 = x)
    (how : (s.conns (s.games g).player1).userId = (s.conns x).userId ∨
           (s.conns (s.games g).player2).userId = (s.conns x).userId) :
    e = (id, g) := by
  apply hone e he (id, g) hmem
  show (s.conns (s.games e.2).player1).userId = (s.conns (s.games g).player1).userId ∨
     (s.conns (s.games e.2).player1).userId = (s.conns (s.games g).player2).userId ∨
     (s.conns (s.games e.2).player2).userId = (s.conns (s.games g).player1).userId ∨
     (s.conns (s.games e.2).player2).userId = (s.conns (s.games g).player2).userId
  rcases hx with hx | hx <;> rcases how with how | how
  · exact Or.inl (by rw [hx]; exact how.symm)
  · exact Or.inr (Or.inl (by rw [hx]; exact how.symm))
  · exact Or.inr (Or.inr (Or.inl (by rw [hx]; exact how.symm)))
  · exact Or.inr (Or.inr (Or.inr (by rw [hx]; exact how.symm)))

theorem scan_slotIdsOK (s : State) (ws : ConnRef) (id : Nat) (g : GameRef) (opp : ConnRef)
    (h : SlotIdsOK s) (hone : OneSessionPerOwner s) (hopen : (s.conns ws).isOpen = true)
    (hscan : findGameByUser s (s.conns ws).userId s.activeGames = some (id, g, opp)) :
    SlotIdsOK (s.setGameId ws (some id)) := by
  obtain ⟨hmem, how⟩ := findGameByUser_some s _ _ id g opp hscan
  have hgid : ∀ x, ((s.setGameId ws (some id)).conns x).gameId
      = if x = ws then some id else (s.conns x).gameId :=
    fun x => update_gameId_gameId _ _ _ _
  have hop : ∀ x, ((s.setGameId ws (some id)).conns x).isOpen = (s.conns x).isOpen :=
    fun x => update_gameId_isOpen _ _ _ _
  refine ⟨h.queue_le, ?_, ?_, h.keys, ?_⟩
  · intro c hc
    rw [hop]
    exact h.queue_open c hc
  · intro e he
    have he' : e ∈ s.activeGames := he
    obtain ⟨r1, r2, r3, r4⟩ := h.reg e he'
    have key : ∀ x, ((s.games e.2).player1 = x ∨ (s.games e.2).player2 = x) → x = ws →
        e.1 = id := by
      intro x hx hxw
      rw [hxw] at hx
      rw [one_session_slot s hone e he' id g hmem ws hx how]
    refine ⟨r1, r2, ?_, ?_⟩
    · show ((s.setGameId ws (some id)).conns (s.games e.2).player1).gameId = some e.1
      rw [hgid]
      split
      · rename_i hx
        rw [key _ (Or.inl rfl) hx]
      · exact r3
    · show ((s.setGameId ws (some id)).conns (s.games e.2).player2).gameId = some e.1
      rw [hgid]
      split
      · rename_i hx
        rw [key _ (Or.inr rfl) hx]
      · exact r4
  · intro t ht
    obtain ⟨t1, t2, t3⟩ := h.timers t ht
    have hne : t.1 ≠ ws := by
      intro e
      rw [e, hopen] at t1
      cases t1
    refine ⟨(hop _).trans t1, t2, ?_⟩
    show ((s.setGameId ws (some id)).conns t.1).gameId = none ∨
      ((s.setGameId ws (some id)).conns t.1).gameId = some (s.games t.2).id
    rw [hgid, if_neg hne]
    exact t3

theorem endGame_slotIdsOK (s : State) (g : GameRef) (winnerId : Nat) (h : SlotIdsOK s)
    (hmem : ((s.games g).id, g) ∈ s.activeGames) : SlotIdsOK (endGame g winnerId s) := by
  have g3 : (s.conns (s.games g).player1).gameId = some (s.games g).id :=
    (h.reg _ hmem).2.2.1
  have g4 : (s.conns (s.games g).player2).gameId = some (s.games g).id :=
    (h.reg _ hmem).2.2.2
  refine ⟨h.queue_le, ?_, ?_, ?_, ?_⟩
  · intro c hc
    rw [endGame_isOpen]
    exact h.queue_open c hc
  · intro e he
    rw [endGame_activeGames] at he
    obtain ⟨hm, hne⟩ := mem_mapDelete he
    obtain ⟨r1, r2, r3, r4⟩ := h.reg e hm
    have hno : ∀ x, (s.conns x).gameId = some e.1 →
        ¬ (x = (s.games g).player1 ∨ x = (s.games g).player2) := by
      intro x hx hor
      apply hne
      rcases hor with hor | hor
      · rw [hor, g3] at hx
        exact (Option.some.inj hx).symm
      · rw [hor, g4] at hx
        exact (Option.some.inj hx).symm
    rw [endGame_games, endGame_nextGame, endGame_gameId, endGame_gameId,
      if_neg (hno _ r3), if_neg (hno _ r4)]
    exact ⟨r1, r2, r3, r4⟩
  · rw [endGame_activeGames]
    exact mapDelete_keys_nodup _ _ h.keys
  · intro t ht
    obtain ⟨t1, t2, t3⟩ := h.timers t ht
    rw [endGame_isOpen, endGame_nextGame, endGame_gameId, endGame_games]
    refine ⟨t1, t2, ?_⟩
    split
    · exact Or.inl rfl
    · exact t3

theorem deleteKey_slotIdsOK (s : State) (k : Nat) (h : SlotIdsOK s) :
    SlotIdsOK { s with activeGames := mapDelete k s.activeGames } :=
  slotIdsOK_of_fields s _ h rfl (fun _ => ⟨rfl, rfl, rfl⟩) (fun _ => ⟨rfl, rfl⟩)
    (List.Sublist.refl _) (List.filter_sublist _) (fun _ he => he)

theorem broadcastPlayerUpdate_slotIdsOK (s : State) (ws : ConnRef)
    (position rotation : Payload) (h : SlotIdsOK s) (hone : OneSessionPerOwner s)
    (hopen : (s.conns ws).isOpen = true) :
    SlotIdsOK (broadcastPlayerUpdate ws position rotation s) := by
  unfold broadcastPlayerUpdate
  split
  · exact h
  · rename_i id g opp hscan
    exact sendIfOpen_slotIdsOK _ _ _ (scan_slotIdsOK s ws id g opp h hone hopen hscan)

theorem handleShoot_slotIdsOK (s : State) (ws : ConnRef)
    (position direction : Payload) (h : SlotIdsOK s) :
    SlotIdsOK (handleShoot ws position direction s) := by
  unfold handleShoot
  split
  · exact h
  · split
    · exact h
    · exact sendIfOpen_slotIdsOK _ _ _ h

theorem cancelMatch_slotIdsOK (s : State) (c : ConnRef) (h : SlotIdsOK s) :
    SlotIdsOK (cancelMatch c s) := by
  unfold cancelMatch
  split
  · exact slotIdsOK_of_fields s _ h rfl (fun _ => ⟨rfl, rfl, rfl⟩) (fun _ => ⟨rfl, rfl⟩)
      (List.erase_sublist _ _) (List.Sublist.refl _) (fun _ he => he)
  · exact h

theorem handleHit_slotIdsOK (s : State) (ws : ConnRef) (h : SlotIdsOK s)
    (hone : OneSessionPerOwner s) (hopen : (s.conns ws).isOpen = true) :
    SlotIdsOK (handleHit ws s) := by
  cases hs : findGameByUser s (s.conns ws).userId s.activeGames with
  | none =>
    rw [handleHit_unresolved s ws hs]
    exact h
  | some r =>
    obtain ⟨id, g, opp⟩ := r
    have hmem := (findGameByUser_some s _ _ id g opp hs).1
    have hkey : (s.games g).id = id := (h.reg (id, g) hmem).2.1
    have hscanOK := scan_slotIdsOK s ws id g opp h hone hopen hs
    have hmid : ∀ (sc : Scores) (out : List (ConnRef × Msg)),
        SlotIdsOK { s with
          conns := Function.update s.conns ws { s.conns ws with gameId := some id }
          games := Function.update s.games g { s.games g with scores := sc }
          sent := out } := by
      intro sc out
      refine slotIdsOK_of_fields (s.setGameId ws (some id)) _ hscanOK rfl ?_
        (fun _ => ⟨rfl, rfl⟩) (List.Sublist.refl _) (List.Sublist.refl _) (fun _ he => he)
      intro g2
      by_cases hg : g2 = g
      · subst hg
        simp [State.setGameId]
      · simp [State.setGameId, Function.update_noteq hg]
    rw [handleHit_resolved s ws id g opp hs]
    split
    · refine endGame_slotIdsOK _ g _ (hmid _ _) ?_
      simp only [Function.update_same, hkey]
      exact hmem
    · exact hmid _ _

theorem rebind_slotIdsOK (s t : State) (w : ConnRef) (id : Nat) (g : GameRef)
    (h : SlotIdsOK s) (hone : OneSessionPerOwner s) (hopen : (s.conns w).isOpen = true)
    (hmem : (id, g) ∈ s.activeGames)
    (how : (s.conns (s.games g).player1).userId = (s.conns w).userId ∨
           (s.conns (s.games g).player2).userId = (s.conns w).userId)
    (tn : t.nextGame = s.nextGame) (tq : t.waitingPlayers = s.waitingPlayers)
    (ta : t.activeGames = s.activeGames) (tt : t.timers = s.timers)
    (tc : ∀ x, (t.conns x).gameId = (if x = w then some id else (s.conns x).gameId) ∧
      (t.conns x).isOpen = (s.conns x).isOpen)
    (told : ∀ g2, g2 ≠ g → (t.games g2).player1 = (s.games g2).player1 ∧
      (t.games g2).player2 = (s.games g2).player2)
    (tid : ∀ g2, (t.games g2).id = (s.games g2).id)
    (tnew : ((t.games g).player1 = w ∨ (t.games g).player1 = (s.games g).player1) ∧
      ((t.games g).player2 = w ∨ (t.games g).player2 = (s.games g).player2)) :
    SlotIdsOK t := by
  have hkey : (s.games g).id = id := (h.reg (id, g) hmem).2.1
  refine ⟨by rw [tq]; exact h.queue_le, ?_, ?_, by rw [ta]; exact h.keys, ?_⟩
  · intro c hc
    rw [tq] at hc
    rw [(tc c).2]
    exact h.queue_open c hc
  · intro e he
    rw [ta] at he
    obtain ⟨r1, r2, r3, r4⟩ := h.reg e he
    rw [tn, tid]
    refine ⟨r1, r2, ?_, ?_⟩
    · by_cases hg : e.2 = g
      · have hid : e.1 = id := by rw [← r2, hg, hkey]
        rw [hg] at r3
        rw [hg, (tc _).1]
        split
        · rw [hid]
        · rename_i hx
          rcases tnew.1 with e1 | e1
          · exact absurd e1 hx
          · rw [e1]
            exact r3
      · rw [(told e.2 hg).1, (tc _).1]
        split
        · rename_i hx
          have := one_session_slot s hone e he id g hmem w (Or.inl hx) how
          rw [this] at hg
          exact absurd rfl hg
        · exact r3
    · by_cases hg : e.2 = g
      · have hid : e.1 = id := by rw [← r2, hg, hkey]
        rw [hg] at r4
        rw [hg, (tc _).1]
        split
        · rw [hid]
        · rename_i hx
          rcases tnew.2 with e1 | e1
          · exact absurd e1 hx
          · rw [e1]
            exact r4
      · rw [(told e.2 hg).2, (tc _).1]
        split
        · rename_i hx
          have := one_session_slot s hone e he id g hmem w (Or.inr hx) how
          rw [this] at hg
          exact absurd rfl hg
        · exact r4
  · intro e he
    rw [tt] at he
    obtain ⟨t1, t2, t3⟩ := h.timers e he
    have hne : e.1 ≠ w := by
      intro e2
      rw [e2, hopen] at t1
      cases t1
    rw [(tc _).2, tn, (tc _).1, if_neg hne, tid]
    exact ⟨t1, t2, t3⟩

theorem rejoinGame_slotIdsOK (s : State) (w : ConnRef) (id : Nat) (h : SlotIdsOK s)
    (hone : OneSessionPerOwner s) (hopen : (s.conns w).isOpen = true) :
    SlotIdsOK (rejoinGame w id s) := by
  unfold rejoinGame
  split
  · exact send_slotIdsOK _ _ _ h
  · rename_i g hget
    have hmem := mapGet_mem hget
    have hc : ∀ x,
        ((Function.update s.conns w { s.conns w with gameId := some id }) x).gameId
          = (if x = w then some id else (s.conns x).gameId) ∧
        ((Function.update s.conns w { s.conns w with gameId := some id }) x).isOpen
          = (s.conns x).isOpen :=
      fun x => ⟨update_gameId_gameId _ _ _ _, update_gameId_isOpen _ _ _ _⟩
    by_cases h1 : (s.conns (s.games g).player1).userId = (s.conns w).userId
    · rw [if_pos h1]
      refine rebind_slotIdsOK s _ w id g h hone hopen hmem (Or.inl h1) rfl rfl rfl rfl hc
        ?_ ?_ ?_
      · intro g2 hg2
        simp [State.send, State.setGameId, Function.update_noteq hg2]
      · intro g2
        by_cases hg2 : g2 = g
        · subst hg2
          simp [State.send, State.setGameId]
        · simp [State.send, State.setGameId, Function.update_noteq hg2]
      · simp [State.send, State.setGameId]
    · by_cases h2 : (s.conns (s.games g).player2).userId = (s.conns w).userId
      · rw [if_neg h1, if_pos h2]
        refine rebind_slotIdsOK s _ w id g h hone hopen hmem (Or.inr h2) rfl rfl rfl rfl hc
          ?_ ?_ ?_
        · intro g2 hg2
          simp [State.send, State.setGameId, Function.update_noteq hg2]
        · intro g2
          by_cases hg2 : g2 = g
          · subst hg2
            simp [State.send, State.setGameId]
          · simp [State.send, State.setGameId, Function.update_noteq hg2]
        · simp [State.send, State.setGameId]
      · rw [if_neg h1, if_neg h2]
        exact send_slotIdsOK _ _ _ h

theorem pair_slotIdsOK (s t : State) (c h0 : ConnRef) (now : Nat) (h : SlotIdsOK s)
    (hq : s.waitingPlayers = [h0]) (hcopen : (s.conns c).isOpen = true)
    (tn : t.nextGame = s.nextGame + 1) (tq : t.waitingPlayers = [])
    (ta : t.activeGames = mapSet now s.nextGame s.activeGames)
    (tt : t.timers = s.timers)
    (tnew : (t.games s.nextGame).player1 = c ∧ (t.games s.nextGame).player2 = h0 ∧
      (t.games s.nextGame).id = now)
    (told : ∀ g : Nat, g ≠ s.nextGame → t.games g = s.games g)
    (tc : ∀ x, (t.conns x).gameId = (if x = h0 ∨ x = c then some now else (s.conns x).gameId) ∧
      (t.conns x).isOpen = (s.conns x).isOpen)
    (hone : OneSessionPerOwner t) : SlotIdsOK t := by
  have hh0open : (s.conns h0).isOpen = true :=
    h.queue_open h0 (by rw [hq]; exact List.mem_singleton_self _)
  have hnew : (now, s.nextGame) ∈ t.activeGames := by
    rw [ta]
    exact mem_mapSet_self _ _ _
  refine ⟨by rw [tq]; exact Nat.zero_le _, ?_, ?_, ?_, ?_⟩
  · intro x hx
    rw [tq] at hx
    cases hx
  · intro e he
    have he2 := he
    rw [ta] at he2
    rcases mem_mapSet he2 with heq | hold
    · subst heq
      refine ⟨by rw [tn]; exact Nat.lt_succ_self _, tnew.2.2, ?_, ?_⟩
      · show (t.conns (t.games s.nextGame).player1).gameId = some now
        rw [tnew.1, (tc c).1, if_pos (Or.inr rfl)]
      · show (t.conns (t.games s.nextGame).player2).gameId = some now
        rw [tnew.2.1, (tc h0).1, if_pos (Or.inl rfl)]
    · obtain ⟨r1, r2, r3, r4⟩ := h.reg e hold
      have hne : e.2 ≠ s.nextGame := Nat.ne_of_lt r1
      have hnot : ∀ x, ((t.games e.2).player1 = x ∨ (t.games e.2).player2 = x) →
          ¬ (x = h0 ∨ x = c) := by
        intro x hx hxc
        have heq : e = (now, s.nextGame) := by
          apply hone e he (now, s.nextGame) hnew
          show (t.conns (t.games e.2).player1).userId
              = (t.conns (t.games s.nextGame).player1).userId ∨
            (t.conns (t.games e.2).player1).userId
              = (t.conns (t.games s.nextGame).player2).userId ∨
            (t.conns (t.games e.2).player2).userId
              = (t.conns (t.games s.nextGame).player1).userId ∨
            (t.conns (t.games e.2).player2).userId
              = (t.conns (t.games s.nextGame).player2).userId
          rw [tnew.1, tnew.2.1]
          rcases hx with hx | hx <;> rcases hxc with hxc | hxc
          · exact Or.inr (Or.inl (by rw [hx, hxc]))
          · exact Or.inl (by rw [hx, hxc])
          · exact Or.inr (Or.inr (Or.inr (by rw [hx, hxc])))
          · exact Or.inr (Or.inr (Or.inl (by rw [hx, hxc])))
        rw [heq] at hne
        exact hne rfl
      have n1 := hnot _ (Or.inl rfl)
      have n2 := hnot _ (Or.inr rfl)
      rw [(tc _).1, (tc _).1, if_neg n1, if_neg n2, told e.2 hne, tn]
      exact ⟨Nat.lt_succ_of_lt r1, r2, r3, r4⟩
  · rw [ta]
    exact mapSet_keys_nodup _ _ _ h.keys
  · intro e he
    rw [tt] at he
    obtain ⟨t1, t2, t3⟩ := h.timers e he
    have hne : ¬ (e.1 = h0 ∨ e.1 = c) := by
      intro hx
      rcases hx with hx | hx
      · rw [hx, hh0open] at t1
        cases t1
      · rw [hx, hcopen] at t1
        cases t1
    rw [(tc _).2, tn, (tc _).1, if_neg hne, told e.2 (Nat.ne_of_lt t2)]
    exact ⟨t1, Nat.lt_succ_of_lt t2, t3⟩

theorem findMatch_slotIdsOK (s : State) (c : ConnRef) (now startNow : Nat)
    (h : SlotIdsOK s) (hopen : (s.conns c).isOpen = true)
    (hone : OneSessionPerOwner (findMatch c now startNow s)) :
    SlotIdsOK (findMatch c now startNow s) := by
  by_cases hguard : c ∈ s.waitingPlayers ∨ (s.conns c).gameId ≠ none
  · rw [findMatch_of_guard s c now startNow hguard]
    exact h
  · have hq : c ∉ s.waitingPlayers := fun hm => hguard (Or.inl hm)
    have hg : (s.conns c).gameId = none := by
      by_contra hne
      exact hguard (Or.inr hne)
    cases hw : s.waitingPlayers with
    | nil =>
      rw [findMatch_enqueue s c now startNow hw hg]
      refine ⟨le_refl 1, ?_, h.reg, h.keys, h.timers⟩
      intro x hx
      have e : x = c := List.mem_singleton.1 hx
      subst e
      exact hopen
    | cons o rest =>
      have hrest : rest = [] := by
        have hl := h.queue_le
        rw [hw] at hl
        cases rest with
        | nil => rfl
        | cons a l =>
          simp only [List.length_cons] at hl
          omega
      subst hrest
      rw [findMatch_pair s c o [] now startNow hq hg hw] at hone ⊢
      refine pair_slotIdsOK s _ c o now h hw hopen rfl rfl rfl rfl ?_ ?_ ?_ hone
      · simp
      · intro g hg2
        exact Function.update_noteq hg2 _ _
      · intro x
        exact ⟨findMatch_pair_gameId s c o (some now) x, findMatch_pair_isOpen s c o _ x⟩

theorem close_slotIdsOK (s : State) (ws : ConnRef) (h : SlotIdsOK s) :
    SlotIdsOK (handlePlayerDisconnect ws (s.setClosed ws)) := by
  obtain ⟨fc, fn, fa, fq, fp, ft⟩ := handlePlayerDisconnect_fields (s.setClosed ws) ws
  have hopen : ∀ x, ((s.setClosed ws).conns x).isOpen
      = if x = ws then false else (s.conns x).isOpen := by
    intro x
    by_cases hx : x = ws
    · subst hx
      simp [State.setClosed]
    · simp [State.setClosed, Function.update_noteq hx, hx]
  have hgid : ∀ x, ((s.setClosed ws).conns x).gameId = (s.conns x).gameId := by
    intro x
    by_cases hx : x = ws
    · subst hx
      simp [State.setClosed]
    · simp [State.setClosed, Function.update_noteq hx]
  refine ⟨?_, ?_, ?_, ?_, ?_⟩
  · rw [fq]
    exact le_trans (List.erase_sublist _ _).length_le h.queue_le
  · intro c hc
    rw [fq] at hc
    obtain ⟨hm, hne⟩ := mem_erase_le_one _ ws c h.queue_le hc
    rw [fc, hopen c, if_neg hne]
    exact h.queue_open c hm
  · intro e he
    rw [fa] at he
    obtain ⟨r1, r2, r3, r4⟩ := h.reg e he
    rw [fn, (fp e.2).1, (fp e.2).2.1, (fp e.2).2.2, fc, hgid, hgid]
    exact ⟨r1, r2, r3, r4⟩
  · rw [fa]
    exact h.keys
  · intro e he
    rw [fn, fc, hgid, (fp e.2).2.2, hopen]
    rcases ft e he with hold | ⟨gid, hg1, hget, hws⟩
    · obtain ⟨t1, t2, t3⟩ := h.timers e hold
      refine ⟨?_, t2, t3⟩
      split
      · rfl
      · exact t1
    · have hmem : (gid, e.2) ∈ s.activeGames := mapGet_mem hget
      obtain ⟨r1, r2, _, _⟩ := h.reg (gid, e.2) hmem
      refine ⟨by rw [if_pos hws], r1, Or.inr ?_⟩
      rw [hws, ← hgid ws, hg1]
      exact congrArg some r2.symm

theorem graceTimer_slotIdsOK (s : State) (ws : ConnRef) (g : Nat) (h : SlotIdsOK s)
    (hids : IdsDistinct s) (hg : g < s.nextGame)
    (hgid : (s.conns ws).gameId = none ∨ (s.conns ws).gameId = some (s.games g).id) :
    SlotIdsOK (graceTimer ws g s) := by
  cases hid : (s.conns ws).gameId with
  | none =>
    have e : graceTimer ws g s = s := by
      unfold graceTimer
      simp only [hid]
    rw [e]
    exact h
  | some gid =>
    cases hget : mapGet gid s.activeGames with
    | none =>
      have e : graceTimer ws g s = s := by
        unfold graceTimer
        simp only [hid, hget]
      rw [e]
      exact h
    | some g0 =>
      by_cases hcond : ((s.games g).player1 = ws ∧ (s.games g).player1Disconnected = true) ∨
          ((s.games g).player2 = ws ∧ (s.games g).player2Disconnected = true)
      · rw [graceTimer_fire s ws g gid g0 hid hget hcond]
        generalize (if (s.games g).player1 = ws then (s.games g).player2
          else (s.games g).player1) = opp
        split
        · have hk : gid = (s.games g).id := by
            rcases hgid with e | e
            · rw [hid] at e
              cases e
            · rw [hid] at e
              exact Option.some.inj e
          have hmem0 : (gid, g0) ∈ s.activeGames := mapGet_mem hget
          obtain ⟨r1, r2, _, _⟩ := h.reg (gid, g0) hmem0
          have hgg : g0 = g := hids g0 r1 g hg (by
            show (s.games g0).id = (s.games g).id
            rw [← hk]
            exact r2)
          have hmem : ((s.games g).id, g) ∈ s.activeGames := by
            rw [← hk, ← hgg]
            exact hmem0
          exact send_slotIdsOK _ _ _ (endGame_slotIdsOK s g _ h hmem)
        · exact deleteKey_slotIdsOK s gid h
      · have e : graceTimer ws g s = s := by
          unfold graceTimer
          simp only [hid, hget, if_neg hcond]
        rw [e]
        exact h

theorem step_slotIdsOK (e : Event) (s t : State) (hstep : step e s = some t)
    (h : SlotIdsOK s) (hids : IdsDistinct s) (hone : OneSessionPerOwner s)
    (hone' : OneSessionPerOwner t) : SlotIdsOK t := by
  cases e with
  | message ws data now startNow =>
    simp only [step] at hstep
    split at hstep
    · rename_i hopen
      simp only [Option.some.injEq] at hstep
      subst hstep
      cases data with
      | findMatch => exact findMatch_slotIdsOK s ws now startNow h hopen hone'
      | cancelMatch => exact cancelMatch_slotIdsOK s ws h
      | rejoinGame gameId => exact rejoinGame_slotIdsOK s ws gameId h hone hopen
      | playerUpdate p r => exact broadcastPlayerUpdate_slotIdsOK s ws p r h hone hopen
      | shoot p d => exact handleShoot_slotIdsOK s ws p d h
      | hit => exact handleHit_slotIdsOK s ws h hone hopen
      | other => exact h
    · cases hstep
  | close ws =>
    simp only [step] at hstep
    split at hstep
    · simp only [Option.some.injEq] at hstep
      subst hstep
      exact close_slotIdsOK s ws h
    · cases hstep
  | timer ws g =>
    simp only [step] at hstep
    split at hstep
    · rename_i hmem
      simp only [Option.some.injEq] at hstep
      subst hstep
      obtain ⟨_, t2, t3⟩ := h.timers (ws, g) hmem
      refine graceTimer_slotIdsOK _ ws g ?_ hids t2 t3
      exact slotIdsOK_of_fields s _ h rfl (fun _ => ⟨rfl, rfl, rfl⟩) (fun _ => ⟨rfl, rfl⟩)
        (List.Sublist.refl _) (List.Sublist.refl _) (fun e he => List.mem_of_mem_erase he)
    · cases hstep

theorem idsDistinct_of_run (evs : List Event) (s t : State) (hrun : run evs s = some t)
    (h : IdsDistinct t) : IdsDistinct s := by
  intro g1 h1 g2 h2 heq
  have f1 := run_frame evs s t g1 hrun h1
  have f2 := run_frame evs s t g2 hrun h2
  exact h g1 (Nat.lt_of_lt_of_le h1 f1.next) g2 (Nat.lt_of_lt_of_le h2 f2.next)
    (by rw [f1.gid, f2.gid]; exact heq)

theorem alongRun_head (P : State → Prop) : ∀ (evs : List Event) (s : State),
    AlongRun P evs s → P s
  | [], _, h => h
  | _ :: _, _, h => h.1

theorem run_slotIdsOK : ∀ (evs : List Event) (s t : State),
    run evs s = some t → SlotIdsOK s → AlongRun OneSessionPerOwner evs s → IdsDistinct t →
    SlotIdsOK t
  | [], s, t, hrun, h, _, _ => by
    simp only [run, Option.some.injEq] at hrun
    subst hrun
    exact h
  | e :: es, s, t, hrun, h, hal, hids => by
    simp only [run] at hrun
    cases hs : step e s with
    | none =>
      rw [hs] at hrun
      cases hrun
    | some s1 =>
      rw [hs] at hrun
      simp only [AlongRun, hs] at hal
      have hids1 : IdsDistinct s1 := idsDistinct_of_run es s1 t hrun hids
      have hids0 : IdsDistinct s := by
        refine idsDistinct_of_run [e] s s1 ?_ hids1
        simp only [run, hs]
      exact run_slotIdsOK es s1 t hrun
        (step_slotIdsOK e s s1 hs h hids0 hal.1 (alongRun_head _ es s1 hal.2)) hal.2 hids

theorem initState_slotIdsOK (users : ConnRef → Nat × String) : SlotIdsOK (initState users) := by
  refine ⟨Nat.zero_le _, ?_, ?_, List.nodup_nil, ?_⟩
  · intro c hc
    cases hc
  · intro e he
    cases he
  · intro e he
    cases he

/-- C17 (amended): in every state reachable from the empty state through
`findMatch`, `cancelMatch`, `rejoinGame`, `playerUpdate`, `shoot`, `hit`, disconnect
and grace-timer events (several connections may carry the same owner id, and an
owner may reconnect on a new connection), provided that in no state the run passes
through one owner id occupies slots of two registered sessions and that no two
created sessions carry the same id: for every registered session both slot
connections have their session id equal to that session's id, and a registered
session that has one of these connections in a slot is that same session (same
id, same game object). -/
theorem slot_session_ids_one_session_per_owner (users : ConnRef → Nat × String)
    (evs : List Event) (s : State)
    (hrun : run evs (initState users) = some s)
    (hone : AlongRun OneSessionPerOwner evs (initState users))
    (hids : IdsDistinct s) :
    ∀ id g, (id, g) ∈ s.activeGames →
      (s.conns (s.games g).player1).gameId = some id ∧
      (s.conns (s.games g).player2).gameId = some id ∧
      ∀ id2 g2, (id2, g2) ∈ s.activeGames →
        (slotOf s g2 (s.games g).player1 ∨ slotOf s g2 (s.games g).player2) →
        id2 = id ∧ g2 = g := by
  have h := run_slotIdsOK evs _ s hrun (initState_slotIdsOK users) hone hids
  intro id g hmem
  obtain ⟨_, _, r3, r4⟩ := h.reg (id, g) hmem
  refine ⟨r3, r4, ?_⟩
  intro id2 g2 hmem2 hs
  obtain ⟨_, _, q3, q4⟩ := h.reg (id2, g2) hmem2
  have q3' : (s.conns (s.games g2).player1).gameId = some id2 := q3
  have q4' : (s.conns (s.games g2).player2).gameId = some id2 := q4
  have r3' : (s.conns (s.games g).player1).gameId = some id := r3
  have r4' : (s.conns (s.games g).player2).gameId = some id := r4
  have hid : id2 = id := by
    rcases hs with hs | hs
    · rcases hs with e | e
      · rw [e, r3'] at q3'
        exact (Option.some.inj q3').symm
      · rw [e, r3'] at q4'
        exact (Option.some.inj q4').symm
    · rcases hs with e | e
      · rw [e, r4'] at q3'
        exact (Option.some.inj q3').symm
      · rw [e, r4'] at q4'
        exact (Option.some.inj q4').symm
  refine ⟨hid, ?_⟩
  have l1 := mapGet_of_mem h.keys hmem
  have l2 := mapGet_of_mem h.keys hmem2
  rw [hid, l1] at l2
  exact (Option.some.inj l2).symm

/-! ## Sample runs for the amended claims -/

/-- C3 (as stated, refuted): three sample runs. (1) User 10 has two connections, 0 in
the older session 100 and 2 in the freshly created session 200 (both scores 0,
connection 2 in slot 2); five `hit` frames from connection 2 are resolved by owner
id to the older session: the fresh session 200 is still registered afterwards,
its scores are still 0, and it is the older session that is finished. (2) In the
fresh session 100 of users 10 and 11, connection 1 sends `hit` twice, then
connection 0 closes and its grace timer fires: the session is finished by forfeit
with the score 2 for user 11, it is no longer registered when connection 1 sends
its next three hits, and these hits send nothing. (3) One user (id 7) holds both
slots of the fresh session 100; five `hit` frames from connection 1 finish it, and
the `gameOver` frame carries the single shared score entry 5, so the score of the
opponent's owner is 5, not 0. -/
theorem five_hits_other_outcomes :
    ((mapGet 200 twoSessionsState.activeGames = some 1 ∧
      (twoSessionsState.games 1).player2 = 2 ∧
      (twoSessionsState.games 1).scores = [(10, .num 0), (13, .num 0)]) ∧
     ¬ (mapGet 200 ((handleHit 2)^[5] twoSessionsState).activeGames = none) ∧
     (((handleHit 2)^[5] twoSessionsState).games 1).scores = [(10, .num 0), (13, .num 0)] ∧
     mapGet 100 ((handleHit 2)^[5] twoSessionsState).activeGames = none) ∧
    ((mapGet 100 (pairedState distinctUsers).activeGames = some 0 ∧
      ((pairedState distinctUsers).games 0).scores = [(10, .num 0), (11, .num 0)]) ∧
     ¬ (mapGet 100 forfeitedDuringHits.activeGames = some 0) ∧
     (1, Msg.gameOver 11 [(10, .num 0), (11, .num 2)]) ∈ forfeitedDuringHits.sent ∧
     ((handleHit 1)^[3] forfeitedDuringHits).sent = forfeitedDuringHits.sent ∧
     ¬ (mapGet 100 ((handleHit 1)^[3] forfeitedDuringHits).activeGames = some 0)) ∧
    ((mapGet 100 (pairedState sameUser).activeGames = some 0 ∧
      ((pairedState sameUser).games 0).scores = [(7, .num 0)] ∧
      ((pairedState sameUser).games 0).player1 = 1 ∧
      ((pairedState sameUser).games 0).player2 = 0) ∧
     (0, Msg.gameOver 7 [(7, .num 5)]) ∈ ((handleHit 1)^[5] (pairedState sameUser)).sent ∧
     ¬ (getScore ((pairedState sameUser).conns 0).userId [(7, .num 5)]
          = some (.num 0))) := by
  decide

theorem five_hits_finish_interleaved_witness :
    (Reachable (pairedState distinctUsers) ∧
     findGameByUser (pairedState distinctUsers) ((pairedState distinctUsers).conns 1).userId
       (pairedState distinctUsers).activeGames = some (100, 0, 0) ∧
     runAvoiding 0 [.message 3 .findMatch 200 200, .message 3 .hit 0 0]
       (handleHit 1 hitsState2) = some hitsState3 ∧
     runAvoiding 0 [.close 0] (handleHit 1 hitsState3) = some hitsState4 ∧
     findGameByUser hitsState4 (hitsState4.conns 1).userId hitsState4.activeGames
       = some (100, 0, 0)) ∧
    mapGet 100 (handleHit 1 hitsState3).activeGames = some 0 ∧
    mapGet 100 (handleHit 1 hitsState4).activeGames = none := by
  have h := five_hits_finish_interleaved (pairedState distinctUsers) hitsState1 hitsState2
    hitsState3 hitsState4 1 0 100 0 0 0 0 0
    [.message 0 (.playerUpdate "p" "r") 0 0] [.message 2 .findMatch 150 150]
    [.message 3 .findMatch 200 200, .message 3 .hit 0 0] [.close 0]
    (reachable_of_run distinctUsers
      [.message 0 .findMatch 50 50, .message 1 .findMatch 100 100] _ rfl)
    rfl (by decide) rfl rfl rfl rfl rfl rfl rfl rfl rfl rfl
  exact ⟨⟨reachable_of_run distinctUsers
      [.message 0 .findMatch 50 50, .message 1 .findMatch 100 100] _ rfl, rfl, rfl, rfl, rfl⟩,
    h.2.2.2.1, h.2.2.2.2.1⟩

/-- C5 (as stated, refuted): two sample runs. (1) One user holds both slots (slot 1
is connection 1, slot 2 is connection 0); connection 0 closes, which sets the
marker of slot 2, and connection 2 of the same owner then sends `rejoinGame` before
the timer fires. Slot 2 does not reference connection 2 (the rejoin replaced
slot 1), the marker of slot 2 is still set, and when the grace timer of connection
0 fires it sends frames and removes the session from the registry. (2) Users 10
and 11 hold the two slots (slot 2 is connection 0 of user 10); connection 0
closes, and before its grace timer fires connection 1 sends `hit` five times,
which finishes the session; connection 2 of user 10 then sends `rejoinGame`: the
reply is the error 'Game not found', slot 2 does not reference connection 2 and
the session is not registered. -/
theorem rejoin_other_outcomes :
    ((((pairedState sameUser).games 0).slotConn .two = 0 ∧
      ((pairedState sameUser).conns 0).gameId = some 100 ∧
      mapGet 100 (pairedState sameUser).activeGames = some 0 ∧
      ((runD [.close 0] (pairedState sameUser)).games 0).slotMarker .two = true ∧
      ((pairedState sameUser).conns 2).userId = ((pairedState sameUser).conns 0).userId) ∧
     (selfMatchRejoined.games 0).slotConn .two ≠ 2 ∧
     (selfMatchRejoined.games 0).slotMarker .two ≠ false ∧
     mapGet 100 selfMatchRejoined.activeGames = some 0 ∧
     (graceTimer 0 0 selfMatchRejoined).sent ≠ selfMatchRejoined.sent ∧
     mapGet 100 (graceTimer 0 0 selfMatchRejoined).activeGames = none) ∧
    ((((pairedState reconnectUsers).games 0).slotConn .two = 0 ∧
      ((pairedState reconnectUsers).conns 0).gameId = some 100 ∧
      mapGet 100 (pairedState reconnectUsers).activeGames = some 0 ∧
      (rejoinLost.games 0).slotMarker .two = true ∧
      (0, 0) ∈ rejoinLost.timers ∧
      ((pairedState reconnectUsers).conns 2).userId
        = ((pairedState reconnectUsers).conns 0).userId ∧
      ((pairedState reconnectUsers).conns 1).userId
        ≠ ((pairedState reconnectUsers).conns 0).userId) ∧
     (0, 0) ∈ finishedBeforeRejoin.timers ∧
     (2, Msg.error "Game not found") ∈ finishedBeforeRejoin.sent ∧
     (finishedBeforeRejoin.games 0).slotConn .two ≠ 2 ∧
     ¬ (mapGet 100 finishedBeforeRejoin.activeGames = some 0)) := by
  decide

theorem rejoin_within_grace_witness :
    (Reachable (pairedState reconnectUsers) ∧
     ((pairedState reconnectUsers).conns 0).gameId = some 100 ∧
     mapGet 100 (pairedState reconnectUsers).activeGames = some 0 ∧
     ((pairedState reconnectUsers).games 0).slotConn .two = 0 ∧
     ((pairedState reconnectUsers).conns 2).userId
       = ((pairedState reconnectUsers).conns 0).userId ∧
     step (.close 0) (pairedState reconnectUsers) = some rejoinLost ∧
     run [.message 1 .hit 0 0, .message 3 .findMatch 150 150] rejoinLost
       = some rejoinBefore ∧
     mapGet 100 rejoinBefore.activeGames = some 0 ∧
     step (.message 2 (.rejoinGame 100) 0 0) rejoinBefore = some rejoinDone ∧
     run [.message 1 .hit 0 0, .message 2 (.playerUpdate "p" "r") 0 0] rejoinDone
       = some rejoinAfter) ∧
    (rejoinDone.games 0).slotConn .two = 2 ∧
    (rejoinDone.games 0).slotMarker .two = false ∧
    mapGet 100 rejoinDone.activeGames = some 0 ∧
    graceTimer 0 0 rejoinAfter = rejoinAfter := by
  have h := rejoin_within_grace (pairedState reconnectUsers) rejoinLost rejoinBefore
    rejoinDone rejoinAfter 0 2 0 100 .two
    [.message 1 .hit 0 0, .message 3 .findMatch 150 150]
    [.message 1 .hit 0 0, .message 2 (.playerUpdate "p" "r") 0 0] 0 0
    (reachable_of_run reconnectUsers
      [.message 0 .findMatch 50 50, .message 1 .findMatch 100 100] _ rfl)
    rfl rfl rfl (by decide) rfl rfl rfl rfl rfl rfl
  exact ⟨⟨reachable_of_run reconnectUsers
      [.message 0 .findMatch 50 50, .message 1 .findMatch 100 100] _ rfl,
      rfl, rfl, rfl, rfl, rfl, rfl, rfl, rfl, rfl⟩,
    h.2.2.1, h.2.2.2.1, h.2.2.2.2.2.1, h.2.2.2.2.2.2.1⟩

theorem alongRun_nil (P : State → Prop) (s : State) (h : P s) : AlongRun P [] s := h

theorem alongRun_cons (P : State → Prop) (e : Event) (es : List Event) (s s1 : State)
    (hs : step e s = some s1) (h0 : P s) (h1 : AlongRun P es s1) :
    AlongRun P (e :: es) s := by
  simp only [AlongRun, hs]
  exact ⟨h0, h1⟩

/-- C17 (as stated, refuted): two sample runs. (1) User 10 holds connections 0 and
2, in sessions 100 and 200; connection 2 sent `hit`. Session 200 is registered
with connection 2 in slot 2, but the session id of connection 2 is 100: the
owner-id scan of `handleHit` resolved the hit to the older session and assigned
its id. (2) No owner id ever occupies slots of two registered sessions, but two
pairings read the same clock value 100: the second session replaces the first in
the registry while the grace timer of the closed connection 0 of the first is
pending; connection 1 of the first session rejoins session 200 of its user's other
connection, and the timer then finishes the first game object and deletes the
session id of connection 1. Session 200 is registered with connection 1 in
slot 1, and connection 1 has no session id. -/
theorem slot_connection_with_other_session_id_runs :
    (Reachable crossHitState ∧
     (200, 1) ∈ crossHitState.activeGames ∧
     (crossHitState.games 1).player2 = 2 ∧
     ¬ ((crossHitState.conns (crossHitState.games 1).player2).gameId = some 200) ∧
     (crossHitState.conns 2).gameId = some 100) ∧
    (Reachable (runD orphanEvents (initState orphanUsers)) ∧
     AlongRun OneSessionPerOwner orphanEvents (initState orphanUsers) ∧
     ¬ IdsDistinct (runD orphanEvents (initState orphanUsers)) ∧
     (200, 2) ∈ (runD orphanEvents (initState orphanUsers)).activeGames ∧
     ((runD orphanEvents (initState orphanUsers)).games 2).player1 = 1 ∧
     ¬ (((runD orphanEvents (initState orphanUsers)).conns
          ((runD orphanEvents (initState orphanUsers)).games 2).player1).gameId
        = some 200) ∧
     ((runD orphanEvents (initState orphanUsers)).conns 1).gameId = none) := by
  refine ⟨⟨reachable_of_run reconnectUsers
      [.message 0 .findMatch 50 50, .message 1 .findMatch 100 100,
       .message 2 .findMatch 150 150, .message 3 .findMatch 200 200,
       .message 2 .hit 0 0] _ rfl,
    by decide, by decide, by decide, by decide⟩,
    reachable_of_run orphanUsers orphanEvents _ rfl, ?_, ?_,
    by decide, by decide, by decide, by decide⟩
  · exact alongRun_cons _ _ _ _ _ rfl (by decide) (alongRun_cons _ _ _ _ _ rfl (by decide)
      (alongRun_cons _ _ _ _ _ rfl (by decide) (alongRun_cons _ _ _ _ _ rfl (by decide)
      (alongRun_cons _ _ _ _ _ rfl (by decide) (alongRun_cons _ _ _ _ _ rfl (by decide)
      (alongRun_cons _ _ _ _ _ rfl (by decide) (alongRun_cons _ _ _ _ _ rfl (by decide)
      (alongRun_cons _ _ _ _ _ rfl (by decide) (alongRun_nil _ _ (by decide))))))))))
  · decide

theorem slot_session_ids_one_session_per_owner_witness :
    (run reconnectEvents (initState reconnectUsers)
       = some (runD reconnectEvents (initState reconnectUsers)) ∧
     AlongRun OneSessionPerOwner reconnectEvents (initState reconnectUsers) ∧
     IdsDistinct (runD reconnectEvents (initState reconnectUsers)) ∧
     (100, 0) ∈ (runD reconnectEvents (initState reconnectUsers)).activeGames ∧
     ((runD reconnectEvents (initState reconnectUsers)).games 0).player2 = 2) ∧
    ((runD reconnectEvents (initState reconnectUsers)).conns
      ((runD reconnectEvents (initState reconnectUsers)).games 0).player1).gameId
      = some 100 ∧
    ((runD reconnectEvents (initState reconnectUsers)).conns
      ((runD reconnectEvents (initState reconnectUsers)).games 0).player2).gameId
      = some 100 := by
  have hal : AlongRun OneSessionPerOwner reconnectEvents (initState reconnectUsers) :=
    alongRun_cons _ _ _ _ _ rfl (by decide) (alongRun_cons _ _ _ _ _ rfl (by decide)
      (alongRun_cons _ _ _ _ _ rfl (by decide) (alongRun_cons _ _ _ _ _ rfl (by decide)
      (alongRun_cons _ _ _ _ _ rfl (by decide) (alongRun_cons _ _ _ _ _ rfl (by decide)
      (alongRun_nil _ _ (by decide)))))))
  have hids : IdsDistinct (runD reconnectEvents (initState reconnectUsers)) := by
    decide
  have h := slot_session_ids_one_session_per_owner reconnectUsers reconnectEvents
    (runD reconnectEvents (initState reconnectUsers)) rfl hal hids 100 0 (by decide)
  exact ⟨⟨rfl, hal, hids, by decide, by decide⟩, h.1, h.2.1⟩

end FMJ
